import Mathlib

/-!
# Data reconciliation pipeline of the Australian business dashboard (`script.js`)

A shallow embedding of the data-fetching core of `script.js`:
`australianData`, `API_CONFIG`, `fetchABSData`, `fetchWorldBankData`,
`processWorldBankData`, `fetchPublicAustralianData`, `simulateAPIDataUpdate`,
`updateChartsFromMarketData`, `updateAllChartsWithCurrentData`,
`updateEmploymentFromAPI`, `updateStateRevenueFromAPI`, `showLoading`,
`showError`, `updateDataSourceBadge`, the growth rate of `updateStats`,
`updateCharts` and the data wiring of `initCharts`.

Modelling conventions.

* JavaScript numbers are idealised as rationals (`ℚ`); `Math.round x` is
  `⌊x + 1/2⌋`.  `NaN`, the infinities and binary rounding error are outside the
  model of the dataset.  A nullable number is an `Option ℚ`, and `null` used in
  arithmetic is coerced to `0` as JavaScript does (`toNumber`).
* The rounding of double precision is modelled apart (`toDouble`: nearest binary64
  number, ties to even), for one entry of the perturbation of
  `simulateAPIDataUpdate` (`perturbEntryDouble`), where it decides the result at a tie.
* The global variables `australianData`, `charts` and `isLoadingData` are the
  fields of an explicit `State` that every function takes and returns.  Arrays
  are never mutated in place by the source (series are always reassigned), so
  a chart that holds a reference to a series is modelled as holding its value.
* An `async` function returns `Except JsError α × State`: the final state is
  kept also when the promise rejects.
* Everything the browser supplies is a parameter: the outcome of each `fetch`
  (`Env.worldBank`, `Env.market`) and the draws of `Math.random` (`Env.random`).
  Upstream payloads are typed after the shapes the source reads; a part the
  source tests for presence is an `Option`.
* DOM writes (`getElementById(...)...`) and `Chart.update()` have no effect on
  the modelled state.  Three ghost fields record what the controller emits: the
  functions entered (`calls`), the labels passed to `updateDataSourceBadge`
  (`labels`) and the last argument of `showError` (`errorMessage`).
* The growth rate of `updateStats` is the one computation in which a division can
  leave the finite numbers; its result is a `JsNumber`, and the string of
  `toFixed(1)` is modelled by its content (`Fixed1`).
* Interleavings of tasks of the event loop are modelled apart, by `Page`: the
  loading flag and the number of suspended runs of `fetchABSData` and `exportToPDF`.
-/

namespace AusBizDataViz

/-! ## Numbers -/

/-- JavaScript `Math.round`: the nearest integer, halves rounded up. -/
def Math.round (x : ℚ) : ℚ := ((⌊x + 1 / 2⌋ : ℤ) : ℚ)

/-- JavaScript `ToNumber` on a nullable number: `null` becomes `0`. -/
def toNumber : Option ℚ → ℚ
  | some x => x
  | none => 0

/-- Truthiness of a nullable number: `null`, `undefined` and `0` are falsy. -/
def truthy : Option ℚ → Bool
  | some x => decide (x ≠ 0)
  | none => false

/-- The array method `slice(-n)`: the trailing `n` entries, in their order. -/
def sliceLast {α : Type} (n : Nat) (xs : List α) : List α :=
  xs.drop (xs.length - n)

/-- The array method `map((val, idx) => f val idx)`, indices counted from `i`. -/
def mapIdxFrom {α β : Type} (f : α → Nat → β) : Nat → List α → List β
  | _, [] => []
  | i, x :: xs => f x i :: mapIdxFrom f (i + 1) xs

/-! ## The canonical dataset (`australianData`) -/

structure States where
  labels : List String
  revenue : List ℚ
  businesses : List ℚ
deriving DecidableEq

structure Industries where
  labels : List String
  values : List ℚ
  colors : List String
deriving DecidableEq

structure Quarters where
  labels : List String
  revenue : List ℚ
  profit : List ℚ
deriving DecidableEq

structure Employment where
  labels : List String
  values : List ℚ
  colors : List String
deriving DecidableEq

structure Monthly where
  labels : List String
  revenue2024 : List ℚ
  revenue2025 : List (Option ℚ)
deriving DecidableEq

structure Cities where
  labels : List String
  businesses : List ℚ
  colors : List String
deriving DecidableEq

structure AustralianData where
  states : States
  industries : Industries
  quarters : Quarters
  employment : Employment
  monthly : Monthly
  cities : Cities
deriving DecidableEq

/-- The built-in dataset, `const australianData` of the source. -/
def australianData : AustralianData where
  states :=
    { labels := ["New South Wales", "Victoria", "Queensland", "Western Australia",
        "South Australia", "Tasmania", "ACT", "NT"]
      revenue := [485, 392, 287, 218, 125, 47, 89, 32]
      businesses := [1850, 1520, 1180, 890, 520, 195, 380, 145] }
  industries :=
    { labels := ["Mining & Resources", "Finance & Insurance", "Healthcare", "Retail Trade",
        "Manufacturing", "Construction", "Education", "Tourism & Hospitality"]
      values := [22, 18, 15, 12, 11, 9, 8, 5]
      colors := ["#f59e0b", "#2563eb", "#10b981", "#8b5cf6", "#ef4444", "#06b6d4",
        "#ec4899", "#14b8a6"] }
  quarters :=
    { labels := ["Q1 2024", "Q2 2024", "Q3 2024", "Q4 2024", "Q1 2025"]
      revenue := [1245, 1358, 1425, 1532, 1675]
      profit := [186, 203, 214, 230, 251] }
  employment :=
    { labels := ["Professional Services", "Retail & Hospitality", "Healthcare & Social",
        "Manufacturing", "Construction", "Other"]
      values := [285000, 312000, 268000, 195000, 178000, 145000]
      colors := ["#3b82f6", "#10b981", "#f59e0b", "#8b5cf6", "#ef4444", "#64748b"] }
  monthly :=
    { labels := ["Jan", "Feb", "Mar", "Apr", "May", "Jun", "Jul", "Aug", "Sep", "Oct",
        "Nov", "Dec"]
      revenue2024 := [125, 118, 142, 138, 156, 148, 162, 159, 174, 168, 185, 178]
      revenue2025 := [some 142, some 138, some 155, none, none, none, none, none, none,
        none, none, none] }
  cities :=
    { labels := ["Sydney", "Melbourne", "Brisbane", "Perth", "Adelaide", "Canberra",
        "Gold Coast", "Newcastle", "Hobart", "Darwin"]
      businesses := [2850, 2420, 1680, 1250, 780, 520, 485, 395, 285, 210]
      colors := ["#2563eb", "#10b981", "#f59e0b", "#8b5cf6", "#ef4444", "#06b6d4",
        "#ec4899", "#14b8a6", "#f97316", "#6366f1"] }

/-! ## Configuration, charts and the global state -/

/-- The three flags of `API_CONFIG` that the controller reads. -/
structure ApiConfig where
  USE_FALLBACK : Bool
  SIMULATE_API : Bool
  USE_REAL_API : Bool
deriving DecidableEq

/-- The flags as the source sets them. -/
def API_CONFIG : ApiConfig where
  USE_FALLBACK := true
  SIMULATE_API := false
  USE_REAL_API := true

/-- A chart with one dataset: `data.labels` and `data.datasets[0].data`. -/
structure Chart1 where
  labels : List String
  data : List ℚ
deriving DecidableEq

/-- The quarterly line chart: labels and its two datasets. -/
structure ChartQuarterly where
  labels : List String
  revenue : List ℚ
  profit : List ℚ
deriving DecidableEq

/-- The monthly chart: labels and its two datasets. -/
structure ChartMonthly where
  labels : List String
  data2024 : List ℚ
  data2025 : List (Option ℚ)
deriving DecidableEq

/-- The registry `charts`; an entry is `none` until `initCharts` creates it. -/
structure Charts where
  stateRevenue : Option Chart1
  industryPie : Option Chart1
  quarterlyGrowth : Option ChartQuarterly
  employmentDoughnut : Option Chart1
  monthlyPerformance : Option ChartMonthly
  citiesBar : Option Chart1
deriving DecidableEq

/-- The functions whose entry is recorded in `State.calls`. -/
inductive Fn where
  | fetchWorldBankData
  | processWorldBankData
  | fetchPublicAustralianData
  | updateChartsFromMarketData
  | simulateAPIDataUpdate
  | updateAllChartsWithCurrentData
deriving DecidableEq

/-- The globals of the script, and the record of what has been emitted. -/
structure State where
  data : AustralianData
  charts : Charts
  isLoadingData : Bool
  calls : List Fn
  labels : List String
  errorMessage : Option String
deriving DecidableEq

/-- The state at script load: `let charts = {}; let isLoadingData = false;`. -/
def State.initial : State where
  data := australianData
  charts := ⟨none, none, none, none, none, none⟩
  isLoadingData := false
  calls := []
  labels := []
  errorMessage := none

/-- A thrown value or the reason of a rejected promise. -/
structure JsError where
  message : String
deriving DecidableEq

/-- Record that a function has been entered. -/
def enter (f : Fn) (s : State) : State :=
  { s with calls := s.calls ++ [f] }

/-- The function `showLoading(show)`: after the overlay toggle, `isLoadingData = show`. -/
def showLoading (b : Bool) (s : State) : State :=
  { s with isLoadingData := b }

/-- The function `showError(message)`; a `null` message clears the notice. -/
def showError (message : Option String) (s : State) : State :=
  { s with errorMessage := message }

/-- The function `updateDataSourceBadge(text)`: the label the controller emits. -/
def updateDataSourceBadge (text : String) (s : State) : State :=
  { s with labels := s.labels ++ [text] }

/-- The function `updateStats()`: it reads the dataset and writes four DOM texts only. -/
def updateStats (s : State) : State := s

/-- The function `updateAllChartsWithCurrentData()`: four of the six charts, when they
exist, are pointed at the current series; then `updateStats()`. -/
def updateAllChartsWithCurrentData (s : State) : State :=
  let s := enter Fn.updateAllChartsWithCurrentData s
  let d := s.data
  let c := s.charts
  let c := { c with stateRevenue := c.stateRevenue.map fun (ch : Chart1) =>
    { ch with data := d.states.revenue } }
  let c := { c with employmentDoughnut := c.employmentDoughnut.map fun (ch : Chart1) =>
    { ch with data := d.employment.values } }
  let c := { c with quarterlyGrowth := c.quarterlyGrowth.map fun (ch : ChartQuarterly) =>
    { ch with revenue := d.quarters.revenue, profit := d.quarters.profit } }
  let c := { c with citiesBar := c.citiesBar.map fun (ch : Chart1) =>
    { ch with data := d.cities.businesses } }
  updateStats { s with charts := c }

/-! ## The Primary adapter: World Bank indicators -/

/-- The keys of `const indicators` in `fetchWorldBankData`, in `Object.entries` order. -/
inductive Indicator where
  | gdp
  | gdpGrowth
  | unemployment
  | population
  | exports
  | imports
  | inflation
  | manufacturing
deriving DecidableEq

/-- The property name of an indicator. -/
def Indicator.name : Indicator → String
  | .gdp => "gdp"
  | .gdpGrowth => "gdpGrowth"
  | .unemployment => "unemployment"
  | .population => "population"
  | .exports => "exports"
  | .imports => "imports"
  | .inflation => "inflation"
  | .manufacturing => "manufacturing"

/-- The eight indicators in the order `Object.entries(indicators)` lists them. -/
def Indicator.all : List Indicator :=
  [.gdp, .gdpGrowth, .unemployment, .population, .exports, .imports, .inflation,
    .manufacturing]

/-- One observation of the indicator API: a year (sent as a numeric string, used as a
number by the comparator) and a nullable value. -/
structure Observation where
  date : Nat
  value : Option ℚ
deriving DecidableEq

/-- One element of `results`: the key and `data[1]` of the response (`none` when the
response has no second element). -/
structure WBResult where
  key : Indicator
  data : Option (List Observation)
deriving DecidableEq

/-- The object `dataMap`: a property is `none` while it has not been assigned. -/
abbrev DataMap := Indicator → Option (List Observation)

/-- The comparator `(a, b) => a.date - b.date` puts `a` first when its date is not
greater. -/
def dateLE (a b : Observation) : Prop := a.date ≤ b.date

instance : DecidableRel dateLE := fun a b => Nat.decLe a.date b.date

/-- The expression `data.filter(d => d.value !== null).sort((a, b) => a.date - b.date)`.
`Array.prototype.sort` is stable, so its result is the stable arrangement by date,
which insertion sort computes. -/
def validData (data : List Observation) : List Observation :=
  (data.filter fun d => d.value.isSome).insertionSort dateLE

/-- One turn of the `results.forEach` loop. -/
def dataMapStep (m : DataMap) (r : WBResult) : DataMap :=
  match r.data with
  | some data =>
    if data.length > 0 then fun k => if k = r.key then some (validData data) else m k
    else m
  | none => m

/-- The object `dataMap` after the `results.forEach` loop. -/
def buildDataMap (results : List WBResult) : DataMap :=
  results.foldl dataMapStep fun _ => none

/-- The label of a year: the template literal made of `Year `and the year. -/
def yearLabel (y : Nat) : String := "Year " ++ toString y

/-- The block `if (dataMap.gdp && dataMap.gdp.length >= 5)`. -/
def wbQuarters (dataMap : DataMap) (d : AustralianData) : AustralianData :=
  match dataMap .gdp with
  | some gdp =>
    if gdp.length ≥ 5 then
      let recentGDP := sliceLast 5 gdp
      let years := recentGDP.map fun o => o.date
      let gdpValues := recentGDP.map fun o => Math.round (toNumber o.value / 1000000000)
      { d with quarters :=
        { labels := years.map yearLabel
          revenue := gdpValues
          profit := gdpValues.map fun v => Math.round (v * (15 / 100)) } }
    else d
  | none => d

/-- The block `if (dataMap.gdpGrowth && dataMap.gdpGrowth.length > 0)`. -/
def wbMonthly (dataMap : DataMap) (d : AustralianData) : AustralianData :=
  match dataMap .gdpGrowth with
  | some (first :: _) =>
    let latestGrowth := toNumber first.value
    let baseRevenue : ℚ := 125
    let growthFactor := 1 + latestGrowth / 100
    { d with monthly :=
      { d.monthly with
        revenue2024 := mapIdxFrom (fun _ idx =>
          Math.round (baseRevenue * growthFactor * (1 + idx * (2 / 100)))) 0
          d.monthly.revenue2024
        revenue2025 := mapIdxFrom (fun val idx =>
          match val with
          | some _ => some (Math.round (baseRevenue * growthFactor * (125 / 100 + idx * (2 / 100))))
          | none => none) 0 d.monthly.revenue2025 } }
  | _ => d

/-- The expression `dataMap.k?.[0]?.value || dflt`. -/
def firstValueOr (l : Option (List Observation)) (dflt : ℚ) : ℚ :=
  let v := (l.bind List.head?).bind Observation.value
  if truthy v then toNumber v else dflt

/-- The block `if (dataMap.manufacturing || dataMap.exports)`; an array is truthy also
when it is empty. -/
def wbIndustries (dataMap : DataMap) (d : AustralianData) : AustralianData :=
  if (dataMap .manufacturing).isSome || (dataMap .exports).isSome then
    let manufacturingPct := firstValueOr (dataMap .manufacturing) 11
    let exportsPct := firstValueOr (dataMap .exports) 22
    { d with industries :=
      { d.industries with
        values := [Math.round exportsPct, 18, 15, 12, Math.round manufacturingPct, 9, 8, 5] } }
  else d

/-- The block `if (dataMap.unemployment && dataMap.unemployment.length > 0)`. -/
def wbEmployment (dataMap : DataMap) (d : AustralianData) : AustralianData :=
  match dataMap .unemployment with
  | some (first :: _) =>
    let unemploymentRate := toNumber first.value
    let employmentRate := 100 - unemploymentRate
    let scaleFactor := employmentRate / 95
    { d with employment :=
      { d.employment with
        values := d.employment.values.map fun val => Math.round (val * scaleFactor) } }
  | _ => d

/-- The constant `stateDistribution`. -/
def stateDistribution : List ℚ :=
  [31 / 100, 25 / 100, 18 / 100, 14 / 100, 8 / 100, 3 / 100, 6 / 100, 2 / 100]

/-- The second block on `dataMap.gdp`: `if (dataMap.gdp && dataMap.gdp.length > 0)`. -/
def wbStates (dataMap : DataMap) (d : AustralianData) : AustralianData :=
  match dataMap .gdp with
  | some (first :: _) =>
    let totalGDP := toNumber first.value
    { d with states :=
      { d.states with
        revenue := stateDistribution.map fun pct =>
          Math.round (totalGDP * pct / 1000000000 / 3) } }
  | _ => d

/-- The constant `cityPopProportions`. -/
def cityPopProportions : List ℚ :=
  [21 / 100, 18 / 100, 12 / 100, 9 / 100, 6 / 100, 4 / 100, 35 / 1000, 3 / 100, 2 / 100,
    15 / 1000]

/-- The block `if (dataMap.population && dataMap.population.length > 0)`. -/
def wbCities (dataMap : DataMap) (d : AustralianData) : AustralianData :=
  match dataMap .population with
  | some (first :: _) =>
    let totalPop := toNumber first.value
    let businessPerCapita : ℚ := 8 / 100
    { d with cities :=
      { d.cities with
        businesses := cityPopProportions.map fun pct =>
          Math.round (totalPop * pct * businessPerCapita / 1000) } }
  | _ => d

/-- The six blocks of `processWorldBankData`, in the order of the source, as one
function on the dataset. -/
def wbMapping (dataMap : DataMap) (d : AustralianData) : AustralianData :=
  wbCities dataMap (wbStates dataMap (wbEmployment dataMap (wbIndustries dataMap
    (wbMonthly dataMap (wbQuarters dataMap d)))))

/-- The function `processWorldBankData(results)`. -/
def processWorldBankData (results : List WBResult) (s : State) : State :=
  let s := enter Fn.processWorldBankData s
  let dataMap := buildDataMap results
  let s := { s with data := wbMapping dataMap s.data }
  updateStats (updateAllChartsWithCurrentData s)

/-! ## Upstream requests -/

/-- What one `fetch(url)` followed by `response.json()` can come to. -/
inductive HttpOutcome (α : Type) where
  /-- The promise of `fetch` rejects (network failure, CORS). -/
  | networkError
  /-- A response arrives with `response.ok` false. -/
  | httpError (status : Nat)
  /-- The response is OK and reading its body as JSON fails. -/
  | invalidBody
  /-- The response is OK and its body is the given value. -/
  | ok (body : α)

/-- A failure at the transport level: the fetch rejects or the response is not OK. -/
def HttpOutcome.isTransportFailure {α : Type} : HttpOutcome α → Bool
  | .networkError => true
  | .httpError _ => true
  | .invalidBody => false
  | .ok _ => false

/-- The callback of `Object.entries(indicators).map` in `fetchWorldBankData`: one
request; the body of an OK response is reduced to `data[1]`. -/
def fetchIndicator (outcome : Indicator → HttpOutcome (Option (List Observation)))
    (key : Indicator) : Except JsError WBResult :=
  match outcome key with
  | .networkError => .error ⟨"TypeError: Failed to fetch"⟩
  | .httpError status => .error ⟨"Failed to fetch " ++ key.name ++ ": " ++ toString status⟩
  | .invalidBody => .error ⟨"SyntaxError: Unexpected token"⟩
  | .ok body => .ok ⟨key, body⟩

/-- The join `Promise.all(promises)`: every result in order, or a rejection. -/
def promiseAll {α : Type} : List (Except JsError α) → Except JsError (List α)
  | [] => .ok []
  | .error e :: _ => .error e
  | .ok a :: ps =>
    match promiseAll ps with
    | .ok as => .ok (a :: as)
    | .error e => .error e

/-! ## The Secondary adapter: market index -/

/-- An element of `indicators.quote`. -/
structure Quote where
  close : Option (List (Option ℚ))
deriving DecidableEq

/-- The property `indicators` of a market result. -/
structure MarketIndicators where
  quote : Option (List Quote)
deriving DecidableEq

/-- The value `data.chart.result[0]` handed to `updateChartsFromMarketData`. -/
structure MarketData where
  timestamp : Option (List Nat)
  indicators : Option MarketIndicators
deriving DecidableEq

/-- The property `chart` of the market response. -/
structure MarketChart where
  result : Option (List MarketData)
deriving DecidableEq

/-- The body of the market response. -/
structure MarketBody where
  chart : Option MarketChart
deriving DecidableEq

/-- The function `updateChartsFromMarketData(marketData)`.  Reading `quote[0].close` of
an absent `quote` or `quote[0]`, or `length` of an absent `close`, throws a
`TypeError`, which the `catch` of the function swallows. -/
def updateChartsFromMarketData (marketData : MarketData) (s : State) : State :=
  let s := enter Fn.updateChartsFromMarketData s
  match marketData.timestamp, marketData.indicators with
  | some _, some indicators =>
    match indicators.quote with
    | some (q :: _) =>
      match q.close with
      | some closes =>
        let s :=
          if closes.length ≥ 5 then
            let recentCloses := sliceLast 5 closes
            let scaleFactor : ℚ := 2 / 100
            { s with data := { s.data with quarters := { s.data.quarters with
                revenue := recentCloses.map fun close =>
                  Math.round (toNumber close * scaleFactor) } } }
          else s
        updateAllChartsWithCurrentData s
      | none => s
    | _ => s
  | _, _ => s

/-! ## The Simulated adapter -/

/-- The closure `variation`, as a function of the draw of `Math.random()`, in exact
arithmetic; `variationDouble` is the same expression in double precision. -/
def variation (r : ℚ) : ℚ := 95 / 100 + r * (1 / 10)

/-- A series mapped by `val => Math.round(val * variation())`, the draws taken from
`random` starting at position `start`.  The sum and the products are exact, as
everywhere in the dataset; `perturbEntryDouble` is one entry in double precision. -/
def perturb (random : Nat → ℚ) (start : Nat) (xs : List ℚ) : List ℚ :=
  mapIdxFrom (fun val i => Math.round (val * variation (random i))) start xs

/-- The function `simulateAPIDataUpdate()`; `random k` is the value of the call number
`k` of `Math.random()`.  The unused constants `lastRevenue` and `lastProfit` are left
out. -/
def simulateAPIDataUpdate (random : Nat → ℚ) (s : State) : State :=
  let s := enter Fn.simulateAPIDataUpdate s
  let d := s.data
  let n0 := 0
  let d := { d with states := { d.states with revenue := perturb random n0 d.states.revenue } }
  let n1 := n0 + d.states.revenue.length
  let d := { d with employment :=
    { d.employment with values := perturb random n1 d.employment.values } }
  let n2 := n1 + d.employment.values.length
  let d := { d with quarters :=
    { d.quarters with revenue := perturb random n2 d.quarters.revenue } }
  let n3 := n2 + d.quarters.revenue.length
  let d := { d with quarters :=
    { d.quarters with profit := perturb random n3 d.quarters.profit } }
  let n4 := n3 + d.quarters.profit.length
  let d := { d with cities :=
    { d.cities with businesses := perturb random n4 d.cities.businesses } }
  updateAllChartsWithCurrentData { s with data := d }

/-! ## Double precision -/

/-- The integer nearest to `x`, a tie going to the even one: the rounding of the
significand in an IEEE 754 operation. -/
def roundHalfEven (x : ℚ) : ℤ :=
  if x - ⌊x⌋ < 1 / 2 then ⌊x⌋
  else if 1 / 2 < x - ⌊x⌋ then ⌊x⌋ + 1
  else if ⌊x⌋ % 2 = 0 then ⌊x⌋ else ⌊x⌋ + 1

/-- The binary64 number nearest to `q` (a tie going to the even significand): `q` is
rounded to a multiple of `2^(e - 52)`, where `2^e ≤ |q| < 2^(e + 1)` and `e` is taken
no lower than the exponent `-1022` of the subnormal numbers.  This is the value of a
literal, and of a sum or product whose exact value is `q`.  A magnitude of `2^1024` or
more is an infinity in JavaScript and is outside this function. -/
def toDouble (q : ℚ) : ℚ :=
  if q = 0 then 0
  else
    let e := max (Int.log 2 |q|) (-1022) - 52
    roundHalfEven (q / 2 ^ e) * 2 ^ e

/-- The expression `0.95 + Math.random() * 0.1` in double precision, `r` being the
draw: the two literals, the product and the sum are each rounded. -/
def variationDouble (r : ℚ) : ℚ :=
  toDouble (toDouble (95 / 100) + toDouble (r * toDouble (1 / 10)))

/-- The expression `Math.round(val * variation())` in double precision, `r` being the
draw: the product is rounded to a double, and `Math.round` of a double is exact. -/
def perturbEntryDouble (val r : ℚ) : ℚ :=
  Math.round (toDouble (val * variationDouble r))

/-! ## The asynchronous adapters and the controller -/

/-- What the browser supplies during one refresh. -/
structure Env where
  /-- The outcome of the request for each World Bank indicator. -/
  worldBank : Indicator → HttpOutcome (Option (List Observation))
  /-- The outcome of the market request. -/
  market : HttpOutcome MarketBody
  /-- The successive values of `Math.random()`. -/
  random : Nat → ℚ

/-- The function `fetchWorldBankData()`: eight requests joined by `Promise.all`, then
`processWorldBankData(results)`. -/
def fetchWorldBankData (env : Env) (s : State) : Except JsError Unit × State :=
  let s := enter Fn.fetchWorldBankData s
  match promiseAll (Indicator.all.map (fetchIndicator env.worldBank)) with
  | .error e => (.error e, s)
  | .ok results => (.ok (), processWorldBankData results s)

/-- The function `fetchPublicAustralianData()`: it resolves to `true` after
`updateChartsFromMarketData`, and to `false` otherwise; its `catch` swallows a failed
request. -/
def fetchPublicAustralianData (env : Env) (s : State) : Except JsError Bool × State :=
  let s := enter Fn.fetchPublicAustralianData s
  match env.market with
  | .ok data =>
    match (data.chart.bind MarketChart.result).bind List.head? with
    | some result0 => (.ok true, updateChartsFromMarketData result0 s)
    | none => (.ok false, s)
  | _ => (.ok false, s)

/-- The function `fetchABSData()`: the three attempts and the fallback inside
`try`, then `catch` and `finally`. -/
def fetchABSData (cfg : ApiConfig) (env : Env) (s : State) : Except JsError Unit × State :=
  let s := showLoading true s
  -- the `try` block
  let attempt1 : Bool × State :=
    if cfg.USE_REAL_API then
      match fetchWorldBankData env s with
      | (.ok _, s) => (true, updateDataSourceBadge "World Bank Data" (showError none s))
      | (.error _, s) => (false, s)
    else (false, s)
  let attempt2 : Bool × State :=
    if !attempt1.1 then
      match fetchPublicAustralianData env attempt1.2 with
      | (.ok _, s) => (true, updateDataSourceBadge "Market Data" (showError none s))
      | (.error _, s) => (attempt1.1, s)
    else attempt1
  let attempt3 : Bool × State :=
    if !attempt2.1 && cfg.SIMULATE_API then
      (true, updateDataSourceBadge "Simulated Data"
        (showError none (simulateAPIDataUpdate env.random attempt2.2)))
    else attempt2
  let tried : Except JsError Unit × State :=
    if !attempt3.1 then
      if cfg.USE_FALLBACK then
        (.ok (), updateDataSourceBadge "Demo Mode"
          (showError (some "Using demo Australian business data.")
            (updateAllChartsWithCurrentData attempt3.2)))
      else (.error ⟨"All data sources unavailable"⟩, attempt3.2)
    else (.ok (), attempt3.2)
  -- the `catch` block
  let caught : Except JsError Unit × State :=
    match tried with
    | (.ok u, s) => (.ok u, s)
    | (.error _, s) =>
      (.ok (), updateDataSourceBadge "Demo Mode"
        (showError (some "Using local Australian business data. Check console for details.") s))
  -- the `finally` block
  (caught.1, showLoading false caught.2)

/-! ## The series-replacing updaters -/

/-- A series of the statistics payload: `observations` maps an observation key to an
array of numbers; the pairs are listed in `Object.keys` order, keys distinct. -/
structure ApiSeries where
  observations : Option (List (String × List ℚ))
deriving DecidableEq

/-- An element of `dataSets`: `series` maps a series key to a series, listed in
`for ... in` order. -/
structure ApiDataSet where
  series : Option (List (String × ApiSeries))
deriving DecidableEq

/-- The property `data` of the payload. -/
structure ApiInner where
  dataSets : Option (List ApiDataSet)
deriving DecidableEq

/-- The payload `apiData` of `updateEmploymentFromAPI` and `updateStateRevenueFromAPI`. -/
structure ApiData where
  data : Option ApiInner
deriving DecidableEq

/-- The body of the `for (let key in observations)` loop of both updaters, for one
series: the value to push, if any.  `latestObs` is the last key, and the value is
pushed when the key and `series.observations[latestObs][0]` are truthy. -/
def latestValue (series : ApiSeries) : Option ℚ :=
  match series.observations with
  | some obs =>
    match obs.getLast? with
    | some (latestObs, values) =>
      if latestObs ≠ "" ∧ truthy values.head? then values.head? else none
    | none => none
  | none => none

/-- The array built by the `for (let key in observations)` loop; a loop over
`undefined` runs no turn. -/
def latestValues (observations : Option (List (String × ApiSeries))) : List ℚ :=
  match observations with
  | some l => l.filterMap fun kv => latestValue kv.2
  | none => []

/-- The function `updateEmploymentFromAPI(apiData)`.  Reading
`apiData.data.dataSets[0].series` through an absent part throws a `TypeError`, which
the `catch` of the function swallows. -/
def updateEmploymentFromAPI (apiData : ApiData) (s : State) : State :=
  match (apiData.data.bind ApiInner.dataSets).bind List.head? with
  | some dataSet =>
    let employmentValues := latestValues dataSet.series
    if employmentValues.length ≥ 6 then
      let s := { s with data := { s.data with employment :=
        { s.data.employment with values := employmentValues.take 6 } } }
      { s with charts := { s.charts with
          employmentDoughnut := s.charts.employmentDoughnut.map fun (ch : Chart1) =>
            { ch with data := s.data.employment.values } } }
    else s
  | none => s

/-- The function `updateStateRevenueFromAPI(apiData)`; the absent parts are tested for
by its guard. -/
def updateStateRevenueFromAPI (apiData : ApiData) (s : State) : State :=
  match (apiData.data.bind ApiInner.dataSets).bind List.head? with
  | some dataSet =>
    let stateValues := latestValues dataSet.series
    if stateValues.length ≥ 8 then
      let s := { s with data := { s.data with states :=
        { s.data.states with revenue := stateValues.take 8 } } }
      { s with charts := { s.charts with
          stateRevenue := s.charts.stateRevenue.map fun (ch : Chart1) =>
            { ch with data := s.data.states.revenue } } }
    else s
  | none => s

/-! ## Adapter runs and the cardinality of the series -/

/-- One run of an adapter on the dataset, with the payload it is given. -/
inductive Adapter where
  | worldBank (results : List WBResult)
  | market (marketData : MarketData)
  | simulated (random : Nat → ℚ)

/-- The effect of one adapter run on the state. -/
def Adapter.run : Adapter → State → State
  | .worldBank results, s => processWorldBankData results s
  | .market marketData, s => updateChartsFromMarketData marketData s
  | .simulated random, s => simulateAPIDataUpdate random s

/-- A sequence of adapter runs, the first of the list run first. -/
def runAdapters (adapters : List Adapter) (s : State) : State :=
  adapters.foldl (fun s a => a.run s) s

/-- Every series has the number of entries of the built-in dataset: states 8,
industries 8, quarters 5, employment 6, monthly 12, cities 10. -/
def HasCardinality (d : AustralianData) : Prop :=
  (d.states.labels.length = 8 ∧ d.states.revenue.length = 8 ∧
    d.states.businesses.length = 8) ∧
  (d.industries.labels.length = 8 ∧ d.industries.values.length = 8) ∧
  (d.quarters.labels.length = 5 ∧ d.quarters.revenue.length = 5 ∧
    d.quarters.profit.length = 5) ∧
  (d.employment.labels.length = 6 ∧ d.employment.values.length = 6) ∧
  (d.monthly.labels.length = 12 ∧ d.monthly.revenue2024.length = 12 ∧
    d.monthly.revenue2025.length = 12) ∧
  (d.cities.labels.length = 10 ∧ d.cities.businesses.length = 10)

instance (d : AustralianData) : Decidable (HasCardinality d) := by
  unfold HasCardinality
  infer_instance

/-- The array of pushed values for a payload, `none` when `apiData.data.dataSets[0]` is
absent. -/
def extractedValues (apiData : ApiData) : Option (List ℚ) :=
  ((apiData.data.bind ApiInner.dataSets).bind List.head?).map fun dataSet =>
    latestValues dataSet.series

/-- A series of the statistics payload with the single observation `value`. -/
def ApiSeries.single (value : ℚ) : ApiSeries :=
  ⟨some [("0", [value])]⟩

/-- A payload whose data set has one series for each of the given values; the series
at position `i` has the key `i:0`, so the keys are distinct. -/
def ApiData.ofValues (values : List ℚ) : ApiData :=
  ⟨some ⟨some [⟨some (mapIdxFrom (fun v i => (toString i ++ ":0", ApiSeries.single v)) 0
    values)⟩]⟩⟩

/-- The number of observations of a result whose value is not `null`. -/
def WBResult.validCount (r : WBResult) : Nat :=
  ((r.data.getD []).filter fun d => d.value.isSome).length

/-- The number of observations of a result, `null` values included. -/
def WBResult.obsCount (r : WBResult) : Nat :=
  (r.data.getD []).length

/-- A payload in which exports are 24 % and manufacturing 6 % of GDP in 2023. -/
def WBResult.shares2023 : List WBResult :=
  [⟨Indicator.exports, some [⟨2023, some 24⟩]⟩, ⟨Indicator.manufacturing, some [⟨2023, some 6⟩]⟩]

/-- A payload in which each of the eight indicators has one observation, for 2024,
whose value is `null` (not yet published). -/
def WBResult.allNull : List WBResult :=
  Indicator.all.map fun k => ⟨k, some [⟨2024, none⟩]⟩

/-! ## Example environments -/

/-- Every World Bank request answers OK with one observation of the year 2020 (value
`2.5`), and the market request answers HTTP 503. -/
def Env.primaryUp : Env where
  worldBank := fun _ => .ok (some [⟨2020, some (5 / 2)⟩])
  market := .httpError 503
  random := fun _ => 0

/-- Every World Bank request fails on the network and the market request answers
HTTP 503. -/
def Env.offline : Env where
  worldBank := fun _ => .networkError
  market := .httpError 503
  random := fun _ => 0

/-- Every World Bank request fails on the network; the market request answers OK with
the error body of the market API, whose `chart.result` is `null`. -/
def Env.marketErrorBody : Env where
  worldBank := fun _ => .networkError
  market := .ok ⟨some ⟨none⟩⟩
  random := fun _ => 0

/-! ## Vocabulary for the numeric properties -/

/-- Every numeric entry of every series is non-negative; an absence marker of
`monthly.revenue2025` is not a numeric entry. -/
def NonNegative (d : AustralianData) : Prop :=
  (∀ x ∈ d.states.revenue, 0 ≤ x) ∧ (∀ x ∈ d.states.businesses, 0 ≤ x) ∧
  (∀ x ∈ d.industries.values, 0 ≤ x) ∧
  (∀ x ∈ d.quarters.revenue, 0 ≤ x) ∧ (∀ x ∈ d.quarters.profit, 0 ≤ x) ∧
  (∀ x ∈ d.employment.values, 0 ≤ x) ∧
  (∀ x ∈ d.monthly.revenue2024, 0 ≤ x) ∧
  (∀ x ∈ d.monthly.revenue2025, ∀ v, x = some v → 0 ≤ v) ∧
  (∀ x ∈ d.cities.businesses, 0 ≤ x)

/-- The number `y` is a perturbation of the entry `x` at the draw `r`: an integer
within `0.5 + x / 2^50` of the product `x * (0.95 + r * 0.1)` (half a unit for
`Math.round`, and a relative error of `2^-50` for the roundings of the operations in
double precision), and between `0.95 * x - 0.5` and `1.05 * x + 0.5`. -/
def PerturbedEntry (x r y : ℚ) : Prop :=
  ∃ z : ℤ, y = z ∧ |(z : ℚ) - x * (95 / 100 + r * (1 / 10))| ≤ 1 / 2 + x / 2 ^ 50 ∧
    95 / 100 * x - 1 / 2 ≤ (z : ℚ) ∧ (z : ℚ) ≤ 105 / 100 * x + 1 / 2

/-- The series `series random`, computed with the draws `random`, is a perturbation of
the series `old`: it has the length of `old`, and its entry at position `i` is a
perturbation of the entry of `old` there at the draw at position `start + i`, and is
the same for every other sequence of draws with that draw at that position. -/
def IsPerturbation (series : (Nat → ℚ) → List ℚ) (random : Nat → ℚ) (start : Nat)
    (old : List ℚ) : Prop :=
  (series random).length = old.length ∧
  ∀ (i : Nat) (x : ℚ), old[i]? = some x →
    ∃ y : ℚ, (series random)[i]? = some y ∧ PerturbedEntry x (random (start + i)) y ∧
      ∀ other : Nat → ℚ, other (start + i) = random (start + i) →
        (series other)[i]? = some y

/-- The entry `y` is within the drift that two perturbations in a row allow from the
baseline `x`: two factors in `[0.95, 1.05]` compound to `[0.9025, 1.1025]`, and each
of the two roundings moves the value by at most one half. -/
def WithinDrift (x y : ℚ) : Prop :=
  9025 / 10000 * x - 975 / 1000 ≤ y ∧ y ≤ 11025 / 10000 * x + 1025 / 1000

/-! ## The growth rate of `updateStats` -/

/-- A JavaScript number as the result of a division: a finite value, an infinity or
`NaN`.  The sign of a zero is not modelled: a zero divisor counts as `+0`. -/
inductive JsNumber where
  | finite (q : ℚ)
  | posInfinity
  | negInfinity
  | notANumber
deriving DecidableEq

/-- The expression `(revenue[4] - revenue[0]) / revenue[0] * 100` of `updateStats`
(and of `exportToPDF`), `revenue` being `australianData.quarters.revenue`.  An index
past the end reads `undefined`, and arithmetic on it gives `NaN`; a division by zero
gives an infinity of the sign of the numerator, or `NaN` for `0 / 0`. -/
def growthRateNumber (d : AustralianData) : JsNumber :=
  match d.quarters.revenue[4]?, d.quarters.revenue[0]? with
  | some last, some first =>
    if first = 0 then
      if 0 < last - first then .posInfinity
      else if last - first < 0 then .negInfinity
      else .notANumber
    else .finite ((last - first) / first * 100)
  | _, _ => .notANumber

/-- The string that `toFixed(1)` returns, by its content: a decimal numeral with one
fractional digit (`tenths / 10`, a point, `tenths % 10`, after a minus sign when
`negative`), or the name of a non-finite value. -/
inductive Fixed1 where
  | decimal (negative : Bool) (tenths : Nat)
  | infinity
  | negInfinity
  | notANumber
deriving DecidableEq

/-- The method `toFixed(1)`: the sign is taken off, and the magnitude is rounded to
the nearest tenth, the larger one at a tie.  Magnitudes from `10^21` on, which
JavaScript prints in exponent form, are outside the model. -/
def toFixed1 : JsNumber → Fixed1
  | .finite q => .decimal (decide (q < 0)) ⌊10 * |q| + 1 / 2⌋.toNat
  | .posInfinity => .infinity
  | .negInfinity => .negInfinity
  | .notANumber => .notANumber

/-- The text of the string that `toFixed(1)` returns. -/
def Fixed1.text : Fixed1 → String
  | .decimal negative tenths =>
    (if negative then "-" else "") ++ toString (tenths / 10) ++ "." ++ toString (tenths % 10)
  | .infinity => "Infinity"
  | .negInfinity => "-Infinity"
  | .notANumber => "NaN"

/-- The number that a decimal numeral of `toFixed(1)` denotes. -/
def Fixed1.value : Fixed1 → Option ℚ
  | .decimal negative tenths => some ((if negative then -1 else 1) * (tenths : ℚ) / 10)
  | _ => none

/-- The constant `growthRate` of `updateStats`. -/
def growthRate (d : AustralianData) : Fixed1 :=
  toFixed1 (growthRateNumber d)

/-- The text that `updateStats` writes to the element `growthRate`. -/
def growthRateText (d : AustralianData) : String :=
  "+" ++ (growthRate d).text ++ "%"

/-! ## The refresh button and the event loop -/

/-- The function `updateCharts()`: nothing while `isLoadingData` is set; otherwise
`fetchABSData()` and, when it has settled, `chart.update` on every chart and
`updateStats()`.  The feedback on the button is a DOM effect. -/
def updateCharts (cfg : ApiConfig) (env : Env) (s : State) : State :=
  if s.isLoadingData then s
  else updateStats (fetchABSData cfg env s).2

/-- The page between two tasks of the event loop, as far as the loading flag is
concerned: the flag, the runs of `fetchABSData` that are suspended at an `await`
(started and not yet settled), the runs of `exportToPDF` that are suspended, whether
the timer of the `load` listener is still to fire, and the number of runs of
`fetchABSData` that have settled. -/
structure Page where
  isLoadingData : Bool
  chains : Nat
  exports : Nat
  timerPending : Bool
  settled : Nat
deriving DecidableEq

/-- The page when the `load` listener has run: the timer is set, nothing is loading. -/
def Page.loaded : Page where
  isLoadingData := false
  chains := 0
  exports := 0
  timerPending := true
  settled := 0

/-- The tasks that touch the loading flag. -/
inductive PageEvent where
  /-- The timer of the `load` listener fires: `fetchABSData()` without a test. -/
  | timerFires
  /-- A click on the refresh button: `updateCharts()`. -/
  | refreshClick
  /-- A suspended `fetchABSData` resumes for the last time and reaches `finally`. -/
  | chainSettles
  /-- A click on the export button: `exportToPDF()` up to its first `await`. -/
  | exportClick
  /-- A suspended `exportToPDF` resumes for the last time and reaches `finally`. -/
  | exportSettles
deriving DecidableEq

/-- The effect of one task.  `fetchABSData` and `exportToPDF` both begin with
`showLoading(true)` and end with `showLoading(false)`; only `updateCharts` tests the
flag.  A task that cannot occur (the timer twice, a settlement with nothing
suspended) leaves the page as it is. -/
def Page.step (p : Page) : PageEvent → Page
  | .timerFires =>
    if p.timerPending then
      { p with timerPending := false, isLoadingData := true, chains := p.chains + 1 }
    else p
  | .refreshClick =>
    if p.isLoadingData then p
    else { p with isLoadingData := true, chains := p.chains + 1 }
  | .chainSettles =>
    if p.chains > 0 then
      { p with chains := p.chains - 1, isLoadingData := false, settled := p.settled + 1 }
    else p
  | .exportClick => { p with isLoadingData := true, exports := p.exports + 1 }
  | .exportSettles =>
    if p.exports > 0 then { p with exports := p.exports - 1, isLoadingData := false }
    else p

/-- The page after a sequence of tasks, the first of the list first. -/
def Page.run (p : Page) (events : List PageEvent) : Page :=
  events.foldl Page.step p

/-- A market payload of five monthly closes whose first close is 10, below 25. -/
def MarketData.lowFirstClose : MarketData :=
  ⟨some [], some ⟨some [⟨some [some 10, some 5000, some 5000, some 5000, some 7000]⟩]⟩⟩

/-- The series `new` has its absence markers (`null`) at the positions where `old` has
them, and nowhere else, and as many entries. -/
def SameAbsence (old new : List (Option ℚ)) : Prop :=
  new.length = old.length ∧ ∀ i : Nat, new[i]? = some none ↔ old[i]? = some none

/-- The range of the values of an indicator that keeps the mapping non-negative: a
growth of at least `-100` percent, an unemployment rate of at most `100` percent, and
non-negative values for `gdp`, `population`, `exports` and `manufacturing`; `imports`
and `inflation` are not read by the mapping. -/
def Indicator.InRange : Indicator → ℚ → Prop
  | .gdpGrowth, v => -100 ≤ v
  | .unemployment, v => v ≤ 100
  | .imports, _ => True
  | .inflation, _ => True
  | .gdp, v => 0 ≤ v
  | .population, v => 0 ≤ v
  | .exports, v => 0 ≤ v
  | .manufacturing, v => 0 ≤ v

/-- Every non-null value of a World Bank payload is in the range of its indicator. -/
def WBInRange (results : List WBResult) : Prop :=
  ∀ r ∈ results, ∀ o ∈ r.data.getD [], ∀ v, o.value = some v → r.key.InRange v

/-- The close list that `updateChartsFromMarketData` reads, `indicators.quote[0].close`,
or the empty list when a part of the path is absent. -/
def MarketData.closes (m : MarketData) : List (Option ℚ) :=
  match m.indicators with
  | some indicators =>
    match indicators.quote with
    | some (q :: _) => q.close.getD []
    | _ => []
  | none => []

/-- The payload of an adapter run is in range: World Bank values as in `WBInRange`,
market closes that are numbers non-negative, draws of `Math.random` in `[0, 1)`. -/
def Adapter.InRange : Adapter → Prop
  | .worldBank results => WBInRange results
  | .market marketData => ∀ c ∈ marketData.closes, ∀ v, c = some v → 0 ≤ v
  | .simulated random => ∀ k, 0 ≤ random k ∧ random k < 1

/-- A payload whose only result is an unemployment rate of 120 percent for 2023. -/
def WBResult.unemployment120 : List WBResult :=
  [⟨Indicator.unemployment, some [⟨2023, some 120⟩]⟩]

/-- The run from `s` to `t` enters some functions, none of them
`simulateAPIDataUpdate`, and emits no label. -/
def QuietRun (s t : State) : Prop :=
  (∃ added, t.calls = s.calls ++ added ∧ Fn.simulateAPIDataUpdate ∉ added) ∧
  t.labels = s.labels

/-- A market result lacks a part that `updateChartsFromMarketData` reads: `timestamp`,
`indicators`, `indicators.quote[0]` or its `close`. -/
def MarketData.Incomplete (m : MarketData) : Prop :=
  m.timestamp = none ∨ m.indicators = none ∨
  ∃ indicators, m.indicators = some indicators ∧
    (indicators.quote = none ∨ indicators.quote = some [] ∨
      ∃ q qs, indicators.quote = some (q :: qs) ∧ q.close = none)

/-- The market request answers OK with a result that has timestamps and an
`indicators` object without `quote`. -/
def Env.marketNoQuote : Env where
  worldBank := fun _ => .networkError
  market := .ok ⟨some ⟨some [⟨some [1700000000], some ⟨none⟩⟩]⟩⟩
  random := fun _ => 0

/-- A payload whose `gdpGrowth` list is sent newest first, as the indicator API sends
it: 2 percent for 2023 and 3 percent for 2022. -/
def WBResult.growthNewestFirst : List WBResult :=
  [⟨Indicator.gdpGrowth, some [⟨2023, some 2⟩, ⟨2022, some 3⟩]⟩]

/-- A payload with the GDP of five years, in units of `10^9`. -/
def WBResult.gdpFiveYears : List WBResult :=
  [⟨Indicator.gdp, some [⟨2019, some 1000000000⟩, ⟨2020, some 2000000000⟩,
    ⟨2021, some 3000000000⟩, ⟨2022, some 4000000000⟩, ⟨2023, some 5000000000⟩]⟩]

/-- A payload with the GDP of six years, newest first, in units of `10^9`; the value
of 2021 is `null`. -/
def WBResult.gdpWithNull : List WBResult :=
  [⟨Indicator.gdp, some [⟨2023, some 5000000000⟩, ⟨2022, some 4000000000⟩, ⟨2021, none⟩,
    ⟨2020, some 3000000000⟩, ⟨2019, some 2000000000⟩, ⟨2018, some 1000000000⟩]⟩]

/-! ## Chart creation -/

/-- The function `initCharts()`, as far as the data of the charts goes: each of the six
charts is created with the label list and the series of the dataset at that moment;
then `updateStats()`. -/
def initCharts (s : State) : State :=
  let d := s.data
  updateStats { s with charts :=
    { stateRevenue := some ⟨d.states.labels, d.states.revenue⟩
      industryPie := some ⟨d.industries.labels, d.industries.values⟩
      quarterlyGrowth := some ⟨d.quarters.labels, d.quarters.revenue, d.quarters.profit⟩
      employmentDoughnut := some ⟨d.employment.labels, d.employment.values⟩
      monthlyPerformance :=
        some ⟨d.monthly.labels, d.monthly.revenue2024, d.monthly.revenue2025⟩
      citiesBar := some ⟨d.cities.labels, d.cities.businesses⟩ } }

/-- Every chart exists and shows the current series of the dataset, and the quarterly
chart has the current quarterly labels. -/
def Synchronized (s : State) : Prop :=
  s.charts.stateRevenue.map Chart1.data = some s.data.states.revenue ∧
  s.charts.industryPie.map Chart1.data = some s.data.industries.values ∧
  s.charts.quarterlyGrowth.map ChartQuarterly.revenue = some s.data.quarters.revenue ∧
  s.charts.quarterlyGrowth.map ChartQuarterly.profit = some s.data.quarters.profit ∧
  s.charts.quarterlyGrowth.map ChartQuarterly.labels = some s.data.quarters.labels ∧
  s.charts.employmentDoughnut.map Chart1.data = some s.data.employment.values ∧
  s.charts.monthlyPerformance.map ChartMonthly.data2024 = some s.data.monthly.revenue2024 ∧
  s.charts.monthlyPerformance.map ChartMonthly.data2025 = some s.data.monthly.revenue2025 ∧
  s.charts.citiesBar.map Chart1.data = some s.data.cities.businesses

/-- Every numeric entry of every series is at most `B`. -/
def AtMost (B : ℚ) (d : AustralianData) : Prop :=
  (∀ x ∈ d.states.revenue, x ≤ B) ∧ (∀ x ∈ d.states.businesses, x ≤ B) ∧
  (∀ x ∈ d.industries.values, x ≤ B) ∧
  (∀ x ∈ d.quarters.revenue, x ≤ B) ∧ (∀ x ∈ d.quarters.profit, x ≤ B) ∧
  (∀ x ∈ d.employment.values, x ≤ B) ∧
  (∀ x ∈ d.monthly.revenue2024, x ≤ B) ∧
  (∀ x ∈ d.monthly.revenue2025, ∀ v, x = some v → v ≤ B) ∧
  (∀ x ∈ d.cities.businesses, x ≤ B)

/-- The range of `Indicator.InRange` with a bound on the magnitude: a growth between
`-100` and `B` percent, an unemployment rate between `0` and `100` percent, and values
between `0` and `B` for `gdp`, `population`, `exports` and `manufacturing`. -/
def Indicator.Within (B : ℚ) : Indicator → ℚ → Prop
  | .gdpGrowth, v => -100 ≤ v ∧ v ≤ B
  | .unemployment, v => 0 ≤ v ∧ v ≤ 100
  | .imports, _ => True
  | .inflation, _ => True
  | .gdp, v => 0 ≤ v ∧ v ≤ B
  | .population, v => 0 ≤ v ∧ v ≤ B
  | .exports, v => 0 ≤ v ∧ v ≤ B
  | .manufacturing, v => 0 ≤ v ∧ v ≤ B

/-- Every non-null value of a World Bank payload is within the bounded range of its
indicator. -/
def WBWithin (B : ℚ) (results : List WBResult) : Prop :=
  ∀ r ∈ results, ∀ o ∈ r.data.getD [], ∀ v, o.value = some v → r.key.Within B v

/-- The payload of an adapter run is in range and bounded by `B`: World Bank values as
in `WBWithin`, market closes that are numbers between `0` and `B`, draws of
`Math.random` in `[0, 1)`. -/
def Adapter.Within (B : ℚ) : Adapter → Prop
  | .worldBank results => WBWithin B results
  | .market marketData => ∀ c ∈ marketData.closes, ∀ v, c = some v → 0 ≤ v ∧ v ≤ B
  | .simulated random => ∀ k, 0 ≤ random k ∧ random k < 1

/-! ## Properties -/

theorem Math.round_intCast (z : ℤ) : Math.round (z : ℚ) = z := by
  unfold Math.round
  have h : ⌊(z : ℚ) + 1 / 2⌋ = z := by
    rw [Int.floor_eq_iff]
    constructor <;> norm_num
  rw [h]

theorem Math.round_natCast (n : ℕ) : Math.round (n : ℚ) = n := by
  have := Math.round_intCast (n : ℤ)
  simpa using this

/-! ### The controller -/

/-- A rejected element makes `promiseAll` reject. -/
theorem promiseAll_error_of_mem {α : Type} (ps : List (Except JsError α)) (e : JsError)
    (h : Except.error e ∈ ps) : ∃ e', promiseAll ps = .error e' := by
  induction ps with
  | nil => simp at h
  | cons p ps ih =>
    rcases List.mem_cons.mp h with h | h
    · subst h
      exact ⟨e, by simp [promiseAll]⟩
    · obtain ⟨e', he'⟩ := ih h
      cases p with
      | error e0 => exact ⟨e0, by simp [promiseAll]⟩
      | ok a => exact ⟨e', by simp [promiseAll, he']⟩

/-- A request that fails at the transport level gives a rejected promise. -/
theorem fetchIndicator_error (outcome : Indicator → HttpOutcome (Option (List Observation)))
    (k : Indicator) (h : (outcome k).isTransportFailure = true) :
    ∃ e, fetchIndicator outcome k = .error e := by
  unfold fetchIndicator
  cases hk : outcome k with
  | networkError => exact ⟨_, rfl⟩
  | httpError st => exact ⟨_, rfl⟩
  | invalidBody => simp [hk, HttpOutcome.isTransportFailure] at h
  | ok b => simp [hk, HttpOutcome.isTransportFailure] at h

theorem Indicator.mem_all (k : Indicator) : k ∈ Indicator.all := by
  cases k <;> simp [Indicator.all]

/-- The two shapes of a run of `fetchWorldBankData`. -/
theorem fetchWorldBankData_cases (env : Env) (s : State) :
    (∃ e, fetchWorldBankData env s = (.error e, enter Fn.fetchWorldBankData s)) ∨
    (∃ results, fetchWorldBankData env s =
      (.ok (), processWorldBankData results (enter Fn.fetchWorldBankData s))) := by
  unfold fetchWorldBankData
  cases promiseAll (Indicator.all.map (fetchIndicator env.worldBank)) with
  | error e => exact Or.inl ⟨e, rfl⟩
  | ok results => exact Or.inr ⟨results, rfl⟩

/-- The two shapes of a run of `fetchPublicAustralianData`: it never rejects. -/
theorem fetchPublicAustralianData_cases (env : Env) (s : State) :
    fetchPublicAustralianData env s = (.ok false, enter Fn.fetchPublicAustralianData s) ∨
    (∃ m, fetchPublicAustralianData env s =
      (.ok true, updateChartsFromMarketData m (enter Fn.fetchPublicAustralianData s))) := by
  unfold fetchPublicAustralianData
  cases hm : env.market with
  | ok data =>
    cases hr : (data.chart.bind MarketChart.result).bind List.head? with
    | none => left; simp [hr]
    | some m => right; exact ⟨m, by simp [hr]⟩
  | networkError => left; simp
  | httpError st => left; simp
  | invalidBody => left; simp

/-- C1: when `USE_REAL_API` is set and `fetchWorldBankData` completes without error,
`fetchABSData` enters exactly `fetchWorldBankData`, `processWorldBankData` and
`updateAllChartsWithCurrentData`, so neither `fetchPublicAustralianData` nor
`simulateAPIDataUpdate` is invoked, and the one label it emits is
`World Bank Data`. -/
theorem fetchABSData_primary_success (cfg : ApiConfig) (env : Env) (s : State)
    (hreal : cfg.USE_REAL_API = true)
    (hok : (fetchWorldBankData env (showLoading true s)).1 = .ok ()) :
    (fetchABSData cfg env s).1 = .ok () ∧
    (fetchABSData cfg env s).2.calls = s.calls ++
      [Fn.fetchWorldBankData, Fn.processWorldBankData, Fn.updateAllChartsWithCurrentData] ∧
    Fn.fetchPublicAustralianData ∉ (fetchABSData cfg env s).2.calls.drop s.calls.length ∧
    Fn.simulateAPIDataUpdate ∉ (fetchABSData cfg env s).2.calls.drop s.calls.length ∧
    (fetchABSData cfg env s).2.labels = s.labels ++ ["World Bank Data"] := by
  have hcalls : (fetchABSData cfg env s).2.calls = s.calls ++
      [Fn.fetchWorldBankData, Fn.processWorldBankData, Fn.updateAllChartsWithCurrentData] ∧
      (fetchABSData cfg env s).1 = .ok () ∧
      (fetchABSData cfg env s).2.labels = s.labels ++ ["World Bank Data"] := by
    rcases fetchWorldBankData_cases env (showLoading true s) with ⟨e, he⟩ | ⟨results, hr⟩
    · rw [he] at hok
      cases hok
    · simp only [fetchABSData, hreal, hr]
      simp [processWorldBankData, updateStats, updateAllChartsWithCurrentData, enter,
        showLoading, showError, updateDataSourceBadge]
  refine ⟨hcalls.2.1, hcalls.1, ?_, ?_, hcalls.2.2⟩
  · rw [hcalls.1]
    simp
  · rw [hcalls.1]
    simp

/-- C1 at `API_CONFIG`, `Env.primaryUp` and the initial state. -/
theorem fetchABSData_primary_success_witness :
    (fetchABSData API_CONFIG Env.primaryUp State.initial).2.calls =
      [Fn.fetchWorldBankData, Fn.processWorldBankData, Fn.updateAllChartsWithCurrentData] ∧
    (fetchABSData API_CONFIG Env.primaryUp State.initial).2.labels = ["World Bank Data"] :=
  ⟨(fetchABSData_primary_success API_CONFIG Env.primaryUp State.initial rfl rfl).2.1,
    (fetchABSData_primary_success API_CONFIG Env.primaryUp State.initial rfl rfl).2.2.2.2⟩

/-- C2, the code at a failing input: with the flags of `API_CONFIG` (`SIMULATE_API`
false), every World Bank request failing and the market request answering HTTP 503,
`fetchPublicAustralianData` resolves to `false`, and yet `fetchABSData` emits the label
`Market Data` and clears the notice, where the exhausted condition asks for the label
`Demo Mode` with the demo-data notice.  The dataset is left as it was. -/
theorem fetchABSData_offline_emits_market_label :
    (∃ e, (fetchWorldBankData Env.offline (showLoading true State.initial)).1 = .error e) ∧
    (fetchPublicAustralianData Env.offline
      (fetchWorldBankData Env.offline (showLoading true State.initial)).2).1 = .ok false ∧
    (fetchABSData API_CONFIG Env.offline State.initial).2.labels = ["Market Data"] ∧
    (fetchABSData API_CONFIG Env.offline State.initial).2.errorMessage = none ∧
    "Demo Mode" ∉ (fetchABSData API_CONFIG Env.offline State.initial).2.labels ∧
    (fetchABSData API_CONFIG Env.offline State.initial).2.data = australianData := by
  refine ⟨⟨_, rfl⟩, rfl, rfl, rfl, ?_, rfl⟩
  have h : (fetchABSData API_CONFIG Env.offline State.initial).2.labels = ["Market Data"] := rfl
  rw [h]
  decide

/-- C3, the code at a failing input: the market response is OK but carries no
`chart.result[0]`, so `fetchPublicAustralianData` resolves to `false` (the Secondary
adapter did not succeed), and `fetchABSData` still emits `Market Data`. -/
theorem fetchABSData_market_label_without_success :
    (fetchPublicAustralianData Env.marketErrorBody
      (fetchWorldBankData Env.marketErrorBody (showLoading true State.initial)).2).1 =
        .ok false ∧
    "Market Data" ∈ (fetchABSData API_CONFIG Env.marketErrorBody State.initial).2.labels := by
  refine ⟨rfl, ?_⟩
  have h : (fetchABSData API_CONFIG Env.marketErrorBody State.initial).2.labels =
      ["Market Data"] := rfl
  rw [h]
  decide

/-- C4: for every setting of the three flags, every outcome of the upstream requests
and every state, `fetchABSData` completes without an error reaching its caller, and
`isLoadingData` is false when it completes. -/
theorem fetchABSData_never_throws (cfg : ApiConfig) (env : Env) (s : State) :
    (fetchABSData cfg env s).1 = .ok () ∧
    (fetchABSData cfg env s).2.isLoadingData = false := by
  unfold fetchABSData
  simp only []
  constructor
  · split <;> rfl
  · rfl

/-! ### Atomicity of the fetching adapters -/

/-- C5: if one of the eight World Bank requests fails at the transport level (the fetch
rejects or the response is not OK), `fetchWorldBankData` rejects and the dataset is
unchanged; if the market request fails at the transport level,
`fetchPublicAustralianData` resolves to `false` and the dataset is unchanged. -/
theorem adapters_atomic_on_transport_failure (env : Env) (s : State) :
    (∀ k : Indicator, (env.worldBank k).isTransportFailure = true →
      (∃ e, (fetchWorldBankData env s).1 = .error e) ∧
      (fetchWorldBankData env s).2.data = s.data) ∧
    (env.market.isTransportFailure = true →
      (fetchPublicAustralianData env s).1 = .ok false ∧
      (fetchPublicAustralianData env s).2.data = s.data) := by
  constructor
  · intro k hk
    obtain ⟨e, he⟩ := fetchIndicator_error env.worldBank k hk
    have hmem : Except.error e ∈ Indicator.all.map (fetchIndicator env.worldBank) :=
      List.mem_map.mpr ⟨k, Indicator.mem_all k, he⟩
    obtain ⟨e', he'⟩ := promiseAll_error_of_mem _ e hmem
    unfold fetchWorldBankData
    simp only [he']
    exact ⟨⟨e', rfl⟩, rfl⟩
  · intro hm
    unfold fetchPublicAustralianData
    cases h : env.market with
    | networkError => exact ⟨rfl, rfl⟩
    | httpError st => exact ⟨rfl, rfl⟩
    | invalidBody => simp [h, HttpOutcome.isTransportFailure] at hm
    | ok b => simp [h, HttpOutcome.isTransportFailure] at hm

/-- C5 at `Env.offline` and the initial state: the request for `gdp` fails on the
network and the market request answers HTTP 503. -/
theorem adapters_atomic_on_transport_failure_witness :
    ((∃ e, (fetchWorldBankData Env.offline State.initial).1 = .error e) ∧
      (fetchWorldBankData Env.offline State.initial).2.data = australianData) ∧
    ((fetchPublicAustralianData Env.offline State.initial).1 = .ok false ∧
      (fetchPublicAustralianData Env.offline State.initial).2.data = australianData) :=
  ⟨(adapters_atomic_on_transport_failure Env.offline State.initial).1 Indicator.gdp rfl,
    (adapters_atomic_on_transport_failure Env.offline State.initial).2 rfl⟩

/-! ### Cardinality -/

theorem length_mapIdxFrom {α β : Type} (f : α → Nat → β) (i : Nat) (xs : List α) :
    (mapIdxFrom f i xs).length = xs.length := by
  induction xs generalizing i with
  | nil => rfl
  | cons x xs ih => simp [mapIdxFrom, ih]

theorem length_perturb (random : Nat → ℚ) (start : Nat) (xs : List ℚ) :
    (perturb random start xs).length = xs.length :=
  length_mapIdxFrom _ _ _

theorem length_sliceLast {α : Type} (n : Nat) (xs : List α) (h : n ≤ xs.length) :
    (sliceLast n xs).length = n := by
  simp only [sliceLast, List.length_drop]
  omega

theorem hasCardinality_wbQuarters (m : DataMap) (d : AustralianData)
    (h : HasCardinality d) : HasCardinality (wbQuarters m d) := by
  unfold wbQuarters
  split
  · split
    · rename_i gdp _ hlen
      have := length_sliceLast 5 gdp hlen
      simp_all [HasCardinality]
    · exact h
  · exact h

theorem hasCardinality_wbMonthly (m : DataMap) (d : AustralianData)
    (h : HasCardinality d) : HasCardinality (wbMonthly m d) := by
  unfold wbMonthly
  split
  · simp_all [HasCardinality, length_mapIdxFrom]
  · exact h

theorem hasCardinality_wbIndustries (m : DataMap) (d : AustralianData)
    (h : HasCardinality d) : HasCardinality (wbIndustries m d) := by
  unfold wbIndustries
  split
  · simp_all [HasCardinality]
  · exact h

theorem hasCardinality_wbEmployment (m : DataMap) (d : AustralianData)
    (h : HasCardinality d) : HasCardinality (wbEmployment m d) := by
  unfold wbEmployment
  split
  · simp_all [HasCardinality]
  · exact h

theorem hasCardinality_wbStates (m : DataMap) (d : AustralianData)
    (h : HasCardinality d) : HasCardinality (wbStates m d) := by
  unfold wbStates
  split
  · simp_all [HasCardinality, stateDistribution]
  · exact h

theorem hasCardinality_wbCities (m : DataMap) (d : AustralianData)
    (h : HasCardinality d) : HasCardinality (wbCities m d) := by
  unfold wbCities
  split
  · simp_all [HasCardinality, cityPopProportions]
  · exact h

theorem data_updateAllChartsWithCurrentData (s : State) :
    (updateAllChartsWithCurrentData s).data = s.data := rfl

theorem data_processWorldBankData (results : List WBResult) (s : State) :
    (processWorldBankData results s).data = wbMapping (buildDataMap results) s.data := rfl

theorem hasCardinality_processWorldBankData (results : List WBResult) (s : State)
    (h : HasCardinality s.data) : HasCardinality (processWorldBankData results s).data := by
  rw [data_processWorldBankData]
  unfold wbMapping
  exact hasCardinality_wbCities _ _ (hasCardinality_wbStates _ _
    (hasCardinality_wbEmployment _ _ (hasCardinality_wbIndustries _ _
      (hasCardinality_wbMonthly _ _ (hasCardinality_wbQuarters _ _ h)))))

theorem hasCardinality_updateChartsFromMarketData (m : MarketData) (s : State)
    (h : HasCardinality s.data) :
    HasCardinality (updateChartsFromMarketData m s).data := by
  unfold updateChartsFromMarketData
  simp only []
  split
  · split
    · split
      · rw [data_updateAllChartsWithCurrentData]
        split
        · rename_i hlen
          have := length_sliceLast 5 _ hlen
          simp_all [HasCardinality, enter]
        · exact h
      · exact h
    · exact h
  · exact h

theorem hasCardinality_simulateAPIDataUpdate (random : Nat → ℚ) (s : State)
    (h : HasCardinality s.data) :
    HasCardinality (simulateAPIDataUpdate random s).data := by
  unfold simulateAPIDataUpdate
  simp only [data_updateAllChartsWithCurrentData]
  simp_all [HasCardinality, enter, length_perturb]

theorem hasCardinality_run (a : Adapter) (s : State) (h : HasCardinality s.data) :
    HasCardinality (a.run s).data := by
  cases a with
  | worldBank results => exact hasCardinality_processWorldBankData results s h
  | market m => exact hasCardinality_updateChartsFromMarketData m s h
  | simulated random => exact hasCardinality_simulateAPIDataUpdate random s h

/-- C6: in the built-in `australianData` every series has the length of its label
list (states 8, industries 8, quarters 5, employment 6, monthly 12, cities 10), and
from any state whose series have these lengths, every sequence of runs of
`processWorldBankData`, `updateChartsFromMarketData` and `simulateAPIDataUpdate`, on
any payloads and random draws, leaves every series with the same length. -/
theorem cardinality_invariant :
    HasCardinality australianData ∧
    ∀ (s : State), HasCardinality s.data →
      ∀ adapters : List Adapter, HasCardinality (runAdapters adapters s).data := by
  refine ⟨by decide, ?_⟩
  intro s hs adapters
  induction adapters generalizing s with
  | nil => exact hs
  | cons a as ih => exact ih (a.run s) (hasCardinality_run a s hs)

/-- C6 at the initial state: a World Bank payload, a market payload and a simulated
run in sequence. -/
theorem cardinality_invariant_witness :
    HasCardinality (runAdapters
      [Adapter.worldBank [⟨Indicator.gdp, some [⟨2020, some 1500000000000⟩]⟩],
        Adapter.market ⟨some [], some ⟨some [⟨some [some 7000, none, some 7100, some 7200,
          some 7300, some 7400]⟩]⟩⟩,
        Adapter.simulated fun _ => 1 / 2] State.initial).data :=
  cardinality_invariant.2 State.initial (by decide) _

/-! ### The series-replacing updaters -/

/-- C7 as stated fails: a payload from which seven values are extracted, one more than
the six entries of `employment.values`, is not rejected; the series is replaced by the
first six values. -/
theorem updateEmploymentFromAPI_accepts_longer :
    extractedValues (ApiData.ofValues [1, 2, 3, 4, 5, 6, 7]) = some [1, 2, 3, 4, 5, 6, 7] ∧
    State.initial.data.employment.values.length = 6 ∧
    (updateEmploymentFromAPI (ApiData.ofValues [1, 2, 3, 4, 5, 6, 7])
      State.initial).data.employment.values = [1, 2, 3, 4, 5, 6] ∧
    (updateEmploymentFromAPI (ApiData.ofValues [1, 2, 3, 4, 5, 6, 7])
      State.initial).data.employment.values ≠ State.initial.data.employment.values := by
  have h1 : extractedValues (ApiData.ofValues [1, 2, 3, 4, 5, 6, 7]) =
      some [1, 2, 3, 4, 5, 6, 7] := by
    simp [extractedValues, ApiData.ofValues, mapIdxFrom, latestValues, latestValue,
      ApiSeries.single, truthy]
  have h2 : (updateEmploymentFromAPI (ApiData.ofValues [1, 2, 3, 4, 5, 6, 7])
      State.initial).data.employment.values = [1, 2, 3, 4, 5, 6] := by
    simp [updateEmploymentFromAPI, ApiData.ofValues, mapIdxFrom, latestValues, latestValue,
      ApiSeries.single, truthy]
  refine ⟨h1, rfl, h2, ?_⟩
  rw [h2]
  simp [State.initial, australianData]

/-- C7 amended: for every payload, `updateEmploymentFromAPI` and
`updateStateRevenueFromAPI` leave the state unchanged when the payload has no
`data.dataSets[0]`; otherwise, with `vs` the values extracted from the series of
`data.dataSets[0]`, `updateEmploymentFromAPI` leaves `employment.values` unchanged when
`vs` has fewer than 6 entries and replaces it by the first 6 entries of `vs`
otherwise, and `updateStateRevenueFromAPI` leaves `states.revenue` unchanged when `vs`
has fewer than 8 entries and replaces it by the first 8 entries of `vs` otherwise.  A
replaced series has 6, respectively 8, entries. -/
theorem series_updaters_truncate (apiData : ApiData) (s : State) :
    ((apiData.data = none ∨ ∃ inner, apiData.data = some inner ∧
        (inner.dataSets = none ∨ inner.dataSets = some [])) →
      updateEmploymentFromAPI apiData s = s ∧ updateStateRevenueFromAPI apiData s = s) ∧
    (∀ inner dataSet rest, apiData.data = some inner →
      inner.dataSets = some (dataSet :: rest) →
      ((latestValues dataSet.series).length < 6 →
        (updateEmploymentFromAPI apiData s).data.employment.values =
          s.data.employment.values) ∧
      (6 ≤ (latestValues dataSet.series).length →
        (updateEmploymentFromAPI apiData s).data.employment.values =
          (latestValues dataSet.series).take 6 ∧
        (updateEmploymentFromAPI apiData s).data.employment.values.length = 6) ∧
      ((latestValues dataSet.series).length < 8 →
        (updateStateRevenueFromAPI apiData s).data.states.revenue =
          s.data.states.revenue) ∧
      (8 ≤ (latestValues dataSet.series).length →
        (updateStateRevenueFromAPI apiData s).data.states.revenue =
          (latestValues dataSet.series).take 8 ∧
        (updateStateRevenueFromAPI apiData s).data.states.revenue.length = 8)) := by
  constructor
  · intro h
    have hd : (apiData.data.bind ApiInner.dataSets).bind List.head? = none := by
      rcases h with h | ⟨inner, hi, h | h⟩
      · simp [h]
      · simp [hi, h]
      · simp [hi, h]
    unfold updateEmploymentFromAPI updateStateRevenueFromAPI
    simp only [hd]
    exact ⟨trivial, trivial⟩
  · intro inner dataSet rest hi hds
    have hd : (apiData.data.bind ApiInner.dataSets).bind List.head? = some dataSet := by
      simp [hi, hds]
    unfold updateEmploymentFromAPI updateStateRevenueFromAPI
    simp only [hd]
    refine ⟨?_, ?_, ?_, ?_⟩
    · intro hlt
      rw [if_neg (by omega)]
    · intro hge
      rw [if_pos hge]
      exact ⟨rfl, by simp [List.length_take]; omega⟩
    · intro hlt
      rw [if_neg (by omega)]
    · intro hge
      rw [if_pos hge]
      exact ⟨rfl, by simp [List.length_take]; omega⟩

/-- C7 amended, at the initial state: a payload with seven values, and a payload
without `data`. -/
theorem series_updaters_truncate_witness :
    ((updateEmploymentFromAPI (ApiData.ofValues [1, 2, 3, 4, 5, 6, 7])
        State.initial).data.employment.values = [1, 2, 3, 4, 5, 6] ∧
      (updateStateRevenueFromAPI (ApiData.ofValues [1, 2, 3, 4, 5, 6, 7])
        State.initial).data.states.revenue = [485, 392, 287, 218, 125, 47, 89, 32]) ∧
    updateEmploymentFromAPI ⟨none⟩ State.initial = State.initial := by
  have h := (series_updaters_truncate (ApiData.ofValues [1, 2, 3, 4, 5, 6, 7])
    State.initial).2 _ _ _ rfl rfl
  have hv : latestValues (some (mapIdxFrom
      (fun (v : ℚ) i => (toString i ++ ":0", ApiSeries.single v)) 0
      [1, 2, 3, 4, 5, 6, 7])) = [1, 2, 3, 4, 5, 6, 7] := by
    simp [mapIdxFrom, latestValues, latestValue, ApiSeries.single, truthy]
  rw [hv] at h
  exact ⟨⟨by simpa using (h.2.1 (by simp)).1, h.2.2.1 (by simp)⟩,
    ((series_updaters_truncate ⟨none⟩ State.initial).1 (Or.inl rfl)).1⟩

/-! ### The mapping layer of the Primary adapter -/

theorem length_validData (data : List Observation) :
    (validData data).length = (data.filter fun d => d.value.isSome).length := by
  simp [validData, List.length_insertionSort]

/-- A property of `dataMap` that is set comes from a result with that key and a
non-empty observation list. -/
theorem foldl_dataMapStep_some (results : List WBResult) (m : DataMap) (k : Indicator)
    (l : List Observation) (h : (results.foldl dataMapStep m) k = some l) :
    m k = some l ∨ ∃ r ∈ results, r.key = k ∧ ∃ data, r.data = some data ∧
      0 < data.length ∧ l = validData data := by
  induction results generalizing m with
  | nil => exact Or.inl h
  | cons r rs ih =>
    rw [List.foldl_cons] at h
    rcases ih _ h with h1 | ⟨r', hr', hk, hd⟩
    · unfold dataMapStep at h1
      cases hdata : r.data with
      | none =>
        simp only [hdata] at h1
        exact Or.inl h1
      | some data =>
        simp only [hdata] at h1
        by_cases hlen : data.length > 0
        · rw [if_pos hlen] at h1
          by_cases hkey : k = r.key
          · rw [if_pos hkey] at h1
            right
            exact ⟨r, List.mem_cons_self _ _, hkey.symm, data, hdata, hlen,
              (Option.some.inj h1).symm⟩
          · rw [if_neg hkey] at h1
            exact Or.inl h1
        · rw [if_neg hlen] at h1
          exact Or.inl h1
    · exact Or.inr ⟨r', List.mem_cons_of_mem _ hr', hk, hd⟩

theorem buildDataMap_some (results : List WBResult) (k : Indicator) (l : List Observation)
    (h : buildDataMap results k = some l) :
    ∃ r ∈ results, r.key = k ∧ ∃ data, r.data = some data ∧
      0 < data.length ∧ l = validData data := by
  rcases foldl_dataMapStep_some results (fun _ => none) k l h with h1 | h2
  · cases h1
  · exact h2

/-- The valid observations in `dataMap[k]` are those of some result with key `k`. -/
theorem buildDataMap_length_le (results : List WBResult) (k : Indicator)
    (l : List Observation) (h : buildDataMap results k = some l) :
    ∃ r ∈ results, r.key = k ∧ 0 < r.obsCount ∧ l.length = r.validCount := by
  obtain ⟨r, hr, hk, data, hdata, hlen, hl⟩ := buildDataMap_some results k l h
  refine ⟨r, hr, hk, ?_, ?_⟩
  · simpa [WBResult.obsCount, hdata] using hlen
  · simp [WBResult.validCount, hdata, hl, length_validData]

theorem wbQuarters_frame (m : DataMap) (d : AustralianData) :
    (wbQuarters m d).states = d.states ∧ (wbQuarters m d).industries = d.industries ∧
    (wbQuarters m d).employment = d.employment ∧ (wbQuarters m d).monthly = d.monthly ∧
    (wbQuarters m d).cities = d.cities := by
  unfold wbQuarters
  split
  · split <;> simp
  · simp

theorem wbMonthly_frame (m : DataMap) (d : AustralianData) :
    (wbMonthly m d).states = d.states ∧ (wbMonthly m d).industries = d.industries ∧
    (wbMonthly m d).employment = d.employment ∧ (wbMonthly m d).quarters = d.quarters ∧
    (wbMonthly m d).cities = d.cities := by
  unfold wbMonthly
  split <;> simp

theorem wbIndustries_frame (m : DataMap) (d : AustralianData) :
    (wbIndustries m d).states = d.states ∧ (wbIndustries m d).monthly = d.monthly ∧
    (wbIndustries m d).employment = d.employment ∧
    (wbIndustries m d).quarters = d.quarters ∧ (wbIndustries m d).cities = d.cities := by
  unfold wbIndustries
  split <;> simp

theorem wbEmployment_frame (m : DataMap) (d : AustralianData) :
    (wbEmployment m d).states = d.states ∧ (wbEmployment m d).monthly = d.monthly ∧
    (wbEmployment m d).industries = d.industries ∧
    (wbEmployment m d).quarters = d.quarters ∧ (wbEmployment m d).cities = d.cities := by
  unfold wbEmployment
  split <;> simp

theorem wbStates_frame (m : DataMap) (d : AustralianData) :
    (wbStates m d).employment = d.employment ∧ (wbStates m d).monthly = d.monthly ∧
    (wbStates m d).industries = d.industries ∧
    (wbStates m d).quarters = d.quarters ∧ (wbStates m d).cities = d.cities := by
  unfold wbStates
  split <;> simp

theorem wbCities_frame (m : DataMap) (d : AustralianData) :
    (wbCities m d).employment = d.employment ∧ (wbCities m d).monthly = d.monthly ∧
    (wbCities m d).industries = d.industries ∧
    (wbCities m d).quarters = d.quarters ∧ (wbCities m d).states = d.states := by
  unfold wbCities
  split <;> simp

/-- Each field of the dataset after the mapping is the field after its own block. -/
theorem wbMapping_fields (m : DataMap) (d : AustralianData) :
    (wbMapping m d).quarters = (wbQuarters m d).quarters ∧
    (wbMapping m d).monthly = (wbMonthly m d).monthly ∧
    (wbMapping m d).industries = (wbIndustries m d).industries ∧
    (wbMapping m d).employment = (wbEmployment m d).employment ∧
    (wbMapping m d).states = (wbStates m d).states ∧
    (wbMapping m d).cities = (wbCities m d).cities := by
  unfold wbMapping
  refine ⟨?_, ?_, ?_, ?_, ?_, ?_⟩
  · rw [(wbCities_frame _ _).2.2.2.1, (wbStates_frame _ _).2.2.2.1,
      (wbEmployment_frame _ _).2.2.2.1, (wbIndustries_frame _ _).2.2.2.1,
      (wbMonthly_frame _ _).2.2.2.1]
  · rw [(wbCities_frame _ _).2.1, (wbStates_frame _ _).2.1,
      (wbEmployment_frame _ _).2.1, (wbIndustries_frame _ _).2.1]
    unfold wbMonthly
    split <;> simp [(wbQuarters_frame m d).2.2.2.1]
  · rw [(wbCities_frame _ _).2.2.1, (wbStates_frame _ _).2.2.1,
      (wbEmployment_frame _ _).2.2.1]
    unfold wbIndustries
    split <;> simp [(wbQuarters_frame m d).2.1, (wbMonthly_frame _ _).2.1]
  · rw [(wbCities_frame _ _).1, (wbStates_frame _ _).1]
    unfold wbEmployment
    split <;> simp [(wbQuarters_frame m d).2.2.1, (wbMonthly_frame _ _).2.2.1,
      (wbIndustries_frame _ _).2.2.1]
  · rw [(wbCities_frame _ _).2.2.2.2]
    unfold wbStates
    split <;> simp [(wbQuarters_frame m d).1, (wbMonthly_frame _ _).1,
      (wbIndustries_frame _ _).1, (wbEmployment_frame _ _).1]
  · unfold wbCities
    split <;> simp [(wbQuarters_frame m d).2.2.2.2, (wbMonthly_frame _ _).2.2.2.2,
      (wbIndustries_frame _ _).2.2.2.2, (wbEmployment_frame _ _).2.2.2.2,
      (wbStates_frame _ _).2.2.2.2]

/-- C8 as stated fails: after a refresh that set `industries.values` from real shares
(exports 24, manufacturing 6), a payload in which every indicator has only a `null`
observation (so neither `manufacturing` nor `exports` has a valid observation) still
rewrites `industries.values`, to the default shares 22 and 11. -/
theorem processWorldBankData_all_null_rewrites_industries :
    (∀ r ∈ WBResult.allNull, r.validCount = 0) ∧
    (processWorldBankData WBResult.shares2023 State.initial).data.industries.values =
      [24, 18, 15, 12, 6, 9, 8, 5] ∧
    (processWorldBankData WBResult.allNull
      (processWorldBankData WBResult.shares2023 State.initial)).data.industries.values =
      [22, 18, 15, 12, 11, 9, 8, 5] ∧
    (processWorldBankData WBResult.allNull
      (processWorldBankData WBResult.shares2023 State.initial)).data.industries.values ≠
      (processWorldBankData WBResult.shares2023 State.initial).data.industries.values := by
  have h0 : ∀ r ∈ WBResult.allNull, r.validCount = 0 := by
    simp [WBResult.allNull, Indicator.all, WBResult.validCount]
  have h1 : (processWorldBankData WBResult.shares2023 State.initial).data.industries.values =
      [24, 18, 15, 12, 6, 9, 8, 5] := by
    rw [data_processWorldBankData, (wbMapping_fields _ _).2.2.1]
    simp [wbIndustries, buildDataMap, dataMapStep, WBResult.shares2023, validData,
      firstValueOr, truthy, toNumber]
    exact ⟨Math.round_natCast 24, Math.round_natCast 6⟩
  have h2 : (processWorldBankData WBResult.allNull
      (processWorldBankData WBResult.shares2023 State.initial)).data.industries.values =
      [22, 18, 15, 12, 11, 9, 8, 5] := by
    rw [data_processWorldBankData, (wbMapping_fields _ _).2.2.1]
    simp [wbIndustries, buildDataMap, dataMapStep, WBResult.allNull, Indicator.all,
      validData, firstValueOr, truthy, toNumber]
    exact ⟨Math.round_natCast 22, Math.round_natCast 11⟩
  refine ⟨h0, h1, h2, ?_⟩
  rw [h1, h2]
  simp

/-- C8 amended: `processWorldBankData` leaves the quarterly series unchanged unless a
`gdp` result has at least 5 valid observations, the monthly series unless a
`gdpGrowth` result has a valid observation, `employment` unless an `unemployment`
result has one, `states` unless a `gdp` result has one, and `cities` unless a
`population` result has one; it leaves `industries` unchanged unless a
`manufacturing` or `exports` result has a non-empty observation list, whose values may
all be `null`. -/
theorem processWorldBankData_rewrites_only_on_data (results : List WBResult) (s : State) :
    ((∀ r ∈ results, r.key = Indicator.gdp → r.validCount < 5) →
      (processWorldBankData results s).data.quarters = s.data.quarters) ∧
    ((∀ r ∈ results, r.key = Indicator.gdpGrowth → r.validCount = 0) →
      (processWorldBankData results s).data.monthly = s.data.monthly) ∧
    ((∀ r ∈ results, r.key = Indicator.manufacturing ∨ r.key = Indicator.exports →
        r.obsCount = 0) →
      (processWorldBankData results s).data.industries = s.data.industries) ∧
    ((∀ r ∈ results, r.key = Indicator.unemployment → r.validCount = 0) →
      (processWorldBankData results s).data.employment = s.data.employment) ∧
    ((∀ r ∈ results, r.key = Indicator.gdp → r.validCount = 0) →
      (processWorldBankData results s).data.states = s.data.states) ∧
    ((∀ r ∈ results, r.key = Indicator.population → r.validCount = 0) →
      (processWorldBankData results s).data.cities = s.data.cities) := by
  have hzero : ∀ k : Indicator, (∀ r ∈ results, r.key = k → r.validCount = 0) →
      buildDataMap results k = none ∨ buildDataMap results k = some [] := by
    intro k hk
    cases hm : buildDataMap results k with
    | none => exact Or.inl rfl
    | some l =>
      obtain ⟨r, hr, hkey, _, hlen⟩ := buildDataMap_length_le results k l hm
      have := hk r hr hkey
      right
      have hl : l = [] := List.eq_nil_of_length_eq_zero (by omega)
      rw [hl]
  rw [data_processWorldBankData]
  obtain ⟨hq, hmo, hi, he, hs, hc⟩ := wbMapping_fields (buildDataMap results) s.data
  rw [hq, hmo, hi, he, hs, hc]
  refine ⟨?_, ?_, ?_, ?_, ?_, ?_⟩
  · intro h
    unfold wbQuarters
    cases hm : buildDataMap results Indicator.gdp with
    | none => rfl
    | some l =>
      obtain ⟨r, hr, hkey, _, hlen⟩ := buildDataMap_length_le results _ l hm
      have := h r hr hkey
      simp only []
      rw [if_neg (by omega)]
  · intro h
    unfold wbMonthly
    rcases hzero _ h with hm | hm <;> simp [hm]
  · intro h
    unfold wbIndustries
    have hnone : ∀ k, (k = Indicator.manufacturing ∨ k = Indicator.exports) →
        buildDataMap results k = none := by
      intro k hk
      cases hm : buildDataMap results k with
      | none => rfl
      | some l =>
        obtain ⟨r, hr, hkey, hpos, _⟩ := buildDataMap_length_le results k l hm
        have := h r hr (by rw [hkey]; exact hk)
        omega
    simp [hnone _ (Or.inl rfl), hnone _ (Or.inr rfl)]
  · intro h
    unfold wbEmployment
    rcases hzero _ h with hm | hm <;> simp [hm]
  · intro h
    unfold wbStates
    rcases hzero _ h with hm | hm <;> simp [hm]
  · intro h
    unfold wbCities
    rcases hzero _ h with hm | hm <;> simp [hm]

/-- C8 amended, at a payload whose only result is a `gdp` list of four valid
observations: too few for the quarterly series, which stays as built in. -/
theorem processWorldBankData_rewrites_only_on_data_witness :
    (processWorldBankData
      [⟨Indicator.gdp, some [⟨2020, some 1⟩, ⟨2021, some 2⟩, ⟨2022, some 3⟩, ⟨2023, some 4⟩]⟩]
      State.initial).data.quarters = australianData.quarters ∧
    (processWorldBankData
      [⟨Indicator.gdp, some [⟨2020, some 1⟩, ⟨2021, some 2⟩, ⟨2022, some 3⟩, ⟨2023, some 4⟩]⟩]
      State.initial).data.industries = australianData.industries :=
  ⟨(processWorldBankData_rewrites_only_on_data _ State.initial).1
      (by simp [WBResult.validCount]),
    (processWorldBankData_rewrites_only_on_data _ State.initial).2.2.1 (by simp)⟩

/-! ### Filtering and ordering of the observations -/

instance : IsTotal Observation dateLE := ⟨fun a b => Nat.le_total a.date b.date⟩

instance : IsTrans Observation dateLE := ⟨fun _ _ _ hab hbc => Nat.le_trans hab hbc⟩

theorem validData_no_null (data : List Observation) :
    ∀ o ∈ validData data, o.value ≠ none := by
  intro o ho
  have hmem : o ∈ data.filter fun d => d.value.isSome :=
    (List.perm_insertionSort dateLE _).mem_iff.mp ho
  have hsome := (List.mem_filter.mp hmem).2
  intro hnone
  simp [hnone] at hsome

theorem validData_perm (data : List Observation) :
    (validData data).Perm (data.filter fun d => d.value.isSome) :=
  List.perm_insertionSort dateLE _

theorem validData_sorted (data : List Observation) :
    (validData data).Pairwise fun a b => a.date ≤ b.date :=
  List.sorted_insertionSort dateLE _

/-- A key that no later result carries keeps its property of `dataMap`. -/
theorem foldl_dataMapStep_of_not_mem (results : List WBResult) (m : DataMap)
    (k : Indicator) (h : k ∉ results.map WBResult.key) :
    (results.foldl dataMapStep m) k = m k := by
  induction results generalizing m with
  | nil => rfl
  | cons r rs ih =>
    simp only [List.map_cons, List.mem_cons, not_or] at h
    rw [List.foldl_cons, ih _ h.2]
    unfold dataMapStep
    cases r.data with
    | none => rfl
    | some data =>
      simp only []
      split
      · simp [h.1]
      · rfl

/-- With distinct keys, the property of `dataMap` for a result with a non-empty
observation list is the valid data of that list. -/
theorem foldl_dataMapStep_of_mem (results : List WBResult) (m : DataMap) (r : WBResult)
    (data : List Observation) (hnodup : (results.map WBResult.key).Nodup)
    (hr : r ∈ results) (hdata : r.data = some data) (hne : data ≠ []) :
    (results.foldl dataMapStep m) r.key = some (validData data) := by
  induction results generalizing m with
  | nil => simp at hr
  | cons r0 rs ih =>
    simp only [List.map_cons, List.nodup_cons] at hnodup
    rw [List.foldl_cons]
    rcases List.mem_cons.mp hr with h | h
    · subst h
      rw [foldl_dataMapStep_of_not_mem rs _ _ hnodup.1]
      have hpos : data.length > 0 := List.length_pos.mpr hne
      simp [dataMapStep, hdata, hpos]
    · exact ih _ hnodup.2 h

/-- C9: for a payload with one result per indicator, and a result whose observation
list is non-empty, the list `dataMap[key]` that `processWorldBankData` uses has no
`null` value, is a permutation of the observations of the input whose value is not
`null`, and is sorted by non-decreasing date. -/
theorem dataMap_filtered_sorted (results : List WBResult) (r : WBResult)
    (data : List Observation) (hnodup : (results.map WBResult.key).Nodup)
    (hr : r ∈ results) (hdata : r.data = some data) (hne : data ≠ []) :
    ∃ l, buildDataMap results r.key = some l ∧
      (∀ o ∈ l, o.value ≠ none) ∧
      l.Perm (data.filter fun o => o.value.isSome) ∧
      l.Pairwise fun a b => a.date ≤ b.date :=
  ⟨validData data, foldl_dataMapStep_of_mem results _ r data hnodup hr hdata hne,
    validData_no_null data, validData_perm data, validData_sorted data⟩

/-- C9 at a payload whose `gdp` list is sent newest first with a `null` value in it. -/
theorem dataMap_filtered_sorted_witness :
    ∃ l, buildDataMap
        [⟨Indicator.gdp, some [⟨2023, some 3⟩, ⟨2022, none⟩, ⟨2021, some 1⟩]⟩,
          ⟨Indicator.population, some [⟨2023, some 26⟩]⟩] Indicator.gdp = some l ∧
      (∀ o ∈ l, o.value ≠ none) ∧
      l.Perm ([⟨2023, some 3⟩, ⟨2022, none⟩, ⟨2021, some 1⟩].filter fun o =>
        o.value.isSome) ∧
      l.Pairwise fun a b => a.date ≤ b.date :=
  dataMap_filtered_sorted
    [⟨Indicator.gdp, some [⟨2023, some 3⟩, ⟨2022, none⟩, ⟨2021, some 1⟩]⟩,
      ⟨Indicator.population, some [⟨2023, some 26⟩]⟩]
    ⟨Indicator.gdp, some [⟨2023, some 3⟩, ⟨2022, none⟩, ⟨2021, some 1⟩]⟩
    [⟨2023, some 3⟩, ⟨2022, none⟩, ⟨2021, some 1⟩]
    (by decide) (by simp) rfl (by simp)

/-! ### The mapping of the Secondary adapter -/

/-- The value of `Math.round` is the integer within one half of its argument, the
upper one at a tie. -/
theorem Math.round_spec (x : ℚ) :
    ∃ z : ℤ, Math.round x = z ∧ (z : ℚ) - 1 / 2 ≤ x ∧ x < z + 1 / 2 := by
  refine ⟨⌊x + 1 / 2⌋, rfl, ?_, ?_⟩
  · have := Int.floor_le (x + 1 / 2)
    linarith
  · have := Int.lt_floor_add_one (x + 1 / 2)
    linarith

/-- C10: for a market payload with `timestamp`, `indicators` and a close list,
`updateChartsFromMarketData` leaves `quarters.revenue` unchanged when the list has
fewer than 5 entries; when it has at least 5, `quarters.revenue` becomes the list of
its trailing five closes, in their order, each multiplied by 0.02 and rounded to the
integer within one half of the product. -/
theorem updateChartsFromMarketData_quarterly_revenue (s : State) (timestamp : List Nat)
    (closes : List (Option ℚ)) (quotes : List Quote) :
    (closes.length < 5 →
      (updateChartsFromMarketData ⟨some timestamp, some ⟨some (⟨some closes⟩ :: quotes)⟩⟩
        s).data.quarters.revenue = s.data.quarters.revenue) ∧
    (5 ≤ closes.length →
      (updateChartsFromMarketData ⟨some timestamp, some ⟨some (⟨some closes⟩ :: quotes)⟩⟩
        s).data.quarters.revenue =
        (closes.drop (closes.length - 5)).map (fun c => Math.round (toNumber c * (2 / 100))) ∧
      (updateChartsFromMarketData ⟨some timestamp, some ⟨some (⟨some closes⟩ :: quotes)⟩⟩
        s).data.quarters.revenue.length = 5 ∧
      ∃ zs : List ℤ,
        (updateChartsFromMarketData ⟨some timestamp, some ⟨some (⟨some closes⟩ :: quotes)⟩⟩
          s).data.quarters.revenue = zs.map (fun (z : ℤ) => (z : ℚ)) ∧
        List.Forall₂ (fun (c : Option ℚ) (z : ℤ) => (z : ℚ) - 1 / 2 ≤ toNumber c * (2 / 100) ∧
          toNumber c * (2 / 100) < z + 1 / 2) (closes.drop (closes.length - 5)) zs) := by
  unfold updateChartsFromMarketData
  simp only [data_updateAllChartsWithCurrentData]
  constructor
  · intro hlt
    rw [if_neg (by omega)]
    rfl
  · intro hge
    rw [if_pos hge]
    refine ⟨rfl, ?_, ?_⟩
    · simp only [sliceLast, List.length_map, List.length_drop]
      omega
    · refine ⟨(closes.drop (closes.length - 5)).map
        (fun c => Int.floor (toNumber c * (2 / 100) + 1 / 2)), ?_, ?_⟩
      · simp [sliceLast, Math.round, Function.comp_def]
      · rw [List.forall₂_map_right_iff]
        apply List.forall₂_same.mpr
        intro c _
        constructor
        · have := Int.floor_le (toNumber c * (2 / 100) + 1 / 2)
          linarith
        · have := Int.lt_floor_add_one (toNumber c * (2 / 100) + 1 / 2)
          linarith

/-- C10 at the initial state and a payload with six closes, one of them `null`. -/
theorem updateChartsFromMarketData_quarterly_revenue_witness :
    (updateChartsFromMarketData
      ⟨some [], some ⟨some [⟨some [some 7000, some 7050, none, some 7100, some 7125,
        some 7200]⟩]⟩⟩ State.initial).data.quarters.revenue =
      [Math.round (7050 * (2 / 100)), Math.round (0 * (2 / 100)),
        Math.round (7100 * (2 / 100)), Math.round (7125 * (2 / 100)),
        Math.round (7200 * (2 / 100))] :=
  ((updateChartsFromMarketData_quarterly_revenue State.initial []
    [some 7000, some 7050, none, some 7100, some 7125, some 7200] []).2 (by decide)).1

/-! ### Frames of the Secondary and the Simulated adapter -/

/-- C11: for every market payload and every state, `updateChartsFromMarketData`
leaves `states`, `industries`, `employment`, `monthly`, `cities`, `quarters.labels`
and `quarters.profit` unchanged, and so does `fetchPublicAustralianData` for every
outcome of the market request: only `quarters.revenue` can change. -/
theorem secondary_adapter_frame (marketData : MarketData) (env : Env) (s : State) :
    ((updateChartsFromMarketData marketData s).data.states = s.data.states ∧
      (updateChartsFromMarketData marketData s).data.industries = s.data.industries ∧
      (updateChartsFromMarketData marketData s).data.employment = s.data.employment ∧
      (updateChartsFromMarketData marketData s).data.monthly = s.data.monthly ∧
      (updateChartsFromMarketData marketData s).data.cities = s.data.cities ∧
      (updateChartsFromMarketData marketData s).data.quarters.labels =
        s.data.quarters.labels ∧
      (updateChartsFromMarketData marketData s).data.quarters.profit =
        s.data.quarters.profit) ∧
    ((fetchPublicAustralianData env s).2.data.states = s.data.states ∧
      (fetchPublicAustralianData env s).2.data.industries = s.data.industries ∧
      (fetchPublicAustralianData env s).2.data.employment = s.data.employment ∧
      (fetchPublicAustralianData env s).2.data.monthly = s.data.monthly ∧
      (fetchPublicAustralianData env s).2.data.cities = s.data.cities ∧
      (fetchPublicAustralianData env s).2.data.quarters.labels = s.data.quarters.labels ∧
      (fetchPublicAustralianData env s).2.data.quarters.profit =
        s.data.quarters.profit) := by
  have key : ∀ (m : MarketData) (t : State),
      (updateChartsFromMarketData m t).data.states = t.data.states ∧
      (updateChartsFromMarketData m t).data.industries = t.data.industries ∧
      (updateChartsFromMarketData m t).data.employment = t.data.employment ∧
      (updateChartsFromMarketData m t).data.monthly = t.data.monthly ∧
      (updateChartsFromMarketData m t).data.cities = t.data.cities ∧
      (updateChartsFromMarketData m t).data.quarters.labels = t.data.quarters.labels ∧
      (updateChartsFromMarketData m t).data.quarters.profit = t.data.quarters.profit := by
    intro m t
    unfold updateChartsFromMarketData
    simp only []
    split
    · split
      · split
        · rw [data_updateAllChartsWithCurrentData]
          split <;> simp [enter]
        · simp [enter]
      · simp [enter]
    · simp [enter]
  refine ⟨key marketData s, ?_⟩
  rcases fetchPublicAustralianData_cases env s with h | ⟨m, h⟩
  · rw [h]
    simp [enter]
  · rw [h]
    exact key m (enter Fn.fetchPublicAustralianData s)

/-- C13: for every state and every sequence of random draws, `simulateAPIDataUpdate`
leaves `states.businesses`, `industries`, `monthly`, `quarters.labels` and every
label list and colour list unchanged: only `states.revenue`, `employment.values`,
`quarters.revenue`, `quarters.profit` and `cities.businesses` can change. -/
theorem simulated_adapter_frame (random : Nat → ℚ) (s : State) :
    (simulateAPIDataUpdate random s).data.states.businesses = s.data.states.businesses ∧
    (simulateAPIDataUpdate random s).data.states.labels = s.data.states.labels ∧
    (simulateAPIDataUpdate random s).data.industries = s.data.industries ∧
    (simulateAPIDataUpdate random s).data.monthly = s.data.monthly ∧
    (simulateAPIDataUpdate random s).data.quarters.labels = s.data.quarters.labels ∧
    (simulateAPIDataUpdate random s).data.employment.labels = s.data.employment.labels ∧
    (simulateAPIDataUpdate random s).data.employment.colors = s.data.employment.colors ∧
    (simulateAPIDataUpdate random s).data.cities.labels = s.data.cities.labels ∧
    (simulateAPIDataUpdate random s).data.cities.colors = s.data.cities.colors := by
  unfold simulateAPIDataUpdate
  simp [data_updateAllChartsWithCurrentData, enter]

/-! ### The perturbation of the Simulated adapter -/

theorem getElem?_mapIdxFrom {α β : Type} (f : α → Nat → β) (k : Nat) (xs : List α)
    (i : Nat) : (mapIdxFrom f k xs)[i]? = (xs[i]?).map fun x => f x (k + i) := by
  induction xs generalizing k i with
  | nil => simp [mapIdxFrom]
  | cons x xs ih =>
    cases i with
    | zero => simp [mapIdxFrom]
    | succ i =>
      simp only [mapIdxFrom, List.getElem?_cons_succ, ih]
      congr 1
      funext y
      congr 1
      omega

theorem Math.round_le (x : ℚ) : Math.round x ≤ x + 1 / 2 := by
  unfold Math.round
  exact Int.floor_le (x + 1 / 2)

theorem Math.lt_round (x : ℚ) : x - 1 / 2 < Math.round x := by
  unfold Math.round
  have := Int.lt_floor_add_one (x + 1 / 2)
  linarith

theorem Math.round_nonneg (x : ℚ) (h : 0 ≤ x) : 0 ≤ Math.round x := by
  unfold Math.round
  have h0 : (0 : ℤ) ≤ ⌊x + 1 / 2⌋ := Int.floor_nonneg.mpr (by linarith)
  exact_mod_cast h0

theorem variation_bounds (r : ℚ) (h0 : 0 ≤ r) (h1 : r ≤ 1) :
    95 / 100 ≤ variation r ∧ variation r ≤ 105 / 100 := by
  unfold variation
  constructor <;> linarith

/-- One perturbed entry is within one half of the interval `[0.95 * x, 1.05 * x]`. -/
theorem round_variation_bounds (x r : ℚ) (hx : 0 ≤ x) (h0 : 0 ≤ r) (h1 : r ≤ 1) :
    95 / 100 * x - 1 / 2 ≤ Math.round (x * variation r) ∧
    Math.round (x * variation r) ≤ 105 / 100 * x + 1 / 2 := by
  obtain ⟨hlo, hhi⟩ := variation_bounds r h0 h1
  have h1 := Math.round_le (x * variation r)
  have h2 := Math.lt_round (x * variation r)
  have h3 : x * (95 / 100) ≤ x * variation r := mul_le_mul_of_nonneg_left hlo hx
  have h4 : x * variation r ≤ x * (105 / 100) := mul_le_mul_of_nonneg_left hhi hx
  constructor <;> linarith

theorem Math.round_eq_of (x : ℚ) (z : ℤ) (h1 : (z : ℚ) - 1 / 2 ≤ x)
    (h2 : x < (z : ℚ) + 1 / 2) : Math.round x = z := by
  unfold Math.round
  have h : ⌊x + 1 / 2⌋ = z := by
    rw [Int.floor_eq_iff]
    constructor <;> linarith
  rw [h]

theorem perturbedEntry_round (x r : ℚ) (hx : 0 ≤ x) (h0 : 0 ≤ r) (h1 : r ≤ 1) :
    PerturbedEntry x r (Math.round (x * variation r)) := by
  have hb := round_variation_bounds x r hx h0 h1
  have hle := Math.round_le (x * variation r)
  have hlt := Math.lt_round (x * variation r)
  have hx50 : (0 : ℚ) ≤ x / 2 ^ 50 := by positivity
  refine ⟨⌊x * variation r + 1 / 2⌋, rfl, ?_, hb.1, hb.2⟩
  unfold Math.round at hle hlt
  unfold variation at hle hlt ⊢
  rw [abs_le]
  constructor <;> linarith

theorem isPerturbation_perturb (random : Nat → ℚ) (start : Nat) (xs : List ℚ)
    (hr : ∀ k, 0 ≤ random k ∧ random k < 1) (hx : ∀ x ∈ xs, 0 ≤ x) :
    IsPerturbation (fun rnd => perturb rnd start xs) random start xs := by
  refine ⟨length_perturb _ _ _, ?_⟩
  intro i x hi
  have hmem : x ∈ xs := List.getElem?_mem hi
  refine ⟨Math.round (x * variation (random (start + i))), ?_,
    perturbedEntry_round x _ (hx x hmem) (hr _).1 (le_of_lt (hr _).2), ?_⟩
  · simp [perturb, getElem?_mapIdxFrom, hi]
  · intro other ho
    simp [perturb, getElem?_mapIdxFrom, hi, ho]

/-! ### The perturbation in double precision -/

theorem roundHalfEven_eq_of_lt (x : ℚ) (m : ℤ) (h1 : (m : ℚ) - 1 / 2 < x)
    (h2 : x < m + 1 / 2) : roundHalfEven x = m := by
  unfold roundHalfEven
  by_cases hx : (m : ℚ) ≤ x
  · have hf : ⌊x⌋ = m := by
      rw [Int.floor_eq_iff]
      exact ⟨hx, by linarith⟩
    rw [hf, if_pos (by linarith)]
  · have hf : ⌊x⌋ = m - 1 := by
      rw [Int.floor_eq_iff]
      push_cast
      exact ⟨by linarith, by linarith⟩
    rw [hf]
    push_cast
    rw [if_neg (by linarith), if_pos (by linarith)]
    ring

/-- A tie above an odd integer goes up, to the even one. -/
theorem roundHalfEven_tie_odd (f : ℤ) (hf : f % 2 = 1) :
    roundHalfEven ((f : ℚ) + 1 / 2) = f + 1 := by
  unfold roundHalfEven
  have hfl : ⌊(f : ℚ) + 1 / 2⌋ = f := by
    rw [Int.floor_eq_iff]
    exact ⟨by linarith, by linarith⟩
  rw [hfl, if_neg (by linarith), if_neg (by linarith), if_neg (by omega)]

theorem roundHalfEven_err (x : ℚ) : |(roundHalfEven x : ℚ) - x| ≤ 1 / 2 := by
  have h1 := Int.floor_le x
  have h2 := Int.lt_floor_add_one x
  unfold roundHalfEven
  rw [abs_le]
  split_ifs <;> push_cast <;> constructor <;> linarith

theorem log_two_eq (q : ℚ) (l : ℤ) (hq : 0 < q) (h1 : (2 : ℚ) ^ l ≤ q)
    (h2 : q < 2 ^ (l + 1)) : Int.log 2 q = l := by
  have a : l ≤ Int.log 2 q :=
    (Int.zpow_le_iff_le_log (by norm_num) hq).mp (by exact_mod_cast h1)
  have b : Int.log 2 q < l + 1 :=
    (Int.lt_zpow_iff_log_lt (by norm_num) hq).mp (by exact_mod_cast h2)
  omega

/-- The double of a positive normal number, from its binade and its rounded
significand. -/
theorem toDouble_eq_of (q : ℚ) (e m : ℤ) (hq : 0 < q) (h1 : (2 : ℚ) ^ (e + 52) ≤ q)
    (h2 : q < 2 ^ (e + 52 + 1)) (he : -1022 ≤ e + 52)
    (hm : roundHalfEven (q / 2 ^ e) = m) : toDouble q = m * 2 ^ e := by
  unfold toDouble
  rw [if_neg (ne_of_gt hq), abs_of_pos hq, log_two_eq q (e + 52) hq h1 h2]
  simp only []
  rw [max_eq_left he, add_sub_cancel_right, hm]

/-- The literal `0.95` is the double `0x3FEE666666666666`. -/
theorem toDouble_95 : toDouble (95 / 100) = 8556839292003942 / 2 ^ 53 := by
  rw [toDouble_eq_of (95 / 100) (-53) 8556839292003942 (by norm_num) (by norm_num)
    (by norm_num) (by norm_num)
    (roundHalfEven_eq_of_lt _ _ (by norm_num) (by norm_num))]
  norm_num

/-- The literal `0.1` is the double `0x3FB999999999999A`. -/
theorem toDouble_10 : toDouble (1 / 10) = 7205759403792794 / 2 ^ 56 := by
  rw [toDouble_eq_of (1 / 10) (-56) 7205759403792794 (by norm_num) (by norm_num)
    (by norm_num) (by norm_num)
    (roundHalfEven_eq_of_lt _ _ (by norm_num) (by norm_num))]
  norm_num

/-- At the draw `0.75` the variation is the double just below `1.025`: the product
`0.75 * 0.1` is a tie and goes to the even significand, and the sum is rounded down. -/
theorem variationDouble_three_quarters :
    variationDouble (3 / 4) = 4616189618054758 / 2 ^ 52 := by
  unfold variationDouble
  rw [toDouble_95, toDouble_10]
  have h : toDouble (3 / 4 * (7205759403792794 / 2 ^ 56)) =
      5404319552844596 / 2 ^ 56 := by
    rw [toDouble_eq_of _ (-56) 5404319552844596 (by norm_num) (by norm_num)
      (by norm_num) (by norm_num)
      (by
        have := roundHalfEven_tie_odd 5404319552844595 (by norm_num)
        norm_num at this ⊢
        exact this)]
    norm_num
  rw [h]
  rw [toDouble_eq_of _ (-52) 4616189618054758 (by norm_num) (by norm_num)
    (by norm_num) (by norm_num)
    (roundHalfEven_eq_of_lt _ _ (by norm_num) (by norm_num))]
  norm_num

/-- The rounding error of `toDouble`: half a unit in the last place, which is a
relative error of `2^-53` for a normal number and at most `2^-1075` below. -/
theorem toDouble_err (q : ℚ) :
    |toDouble q - q| ≤ |q| * (1 / 2 ^ 53) + 1 / 2 ^ 1075 := by
  by_cases hq : q = 0
  · subst hq
    simp only [toDouble, if_true, sub_self, abs_zero, zero_mul, zero_add]
    positivity
  · unfold toDouble
    rw [if_neg hq]
    simp only []
    have hpos : 0 < |q| := abs_pos.mpr hq
    generalize he : max (Int.log 2 |q|) (-1022) - 52 = e
    have h2e : (0 : ℚ) < 2 ^ e := by positivity
    have key : (roundHalfEven (q / 2 ^ e) : ℚ) * 2 ^ e - q =
        ((roundHalfEven (q / 2 ^ e) : ℚ) - q / 2 ^ e) * 2 ^ e := by
      field_simp
    rw [key, abs_mul, abs_of_pos h2e]
    have herr := roundHalfEven_err (q / 2 ^ e)
    have h1 : |(roundHalfEven (q / 2 ^ e) : ℚ) - q / 2 ^ e| * 2 ^ e ≤ 1 / 2 * 2 ^ e :=
      mul_le_mul_of_nonneg_right herr (le_of_lt h2e)
    have h2 : (1 / 2 : ℚ) * 2 ^ e ≤ |q| * (1 / 2 ^ 53) + 1 / 2 ^ 1075 := by
      rcases le_total (-1022) (Int.log 2 |q|) with hl | hl
      · have hlog : (2 : ℚ) ^ Int.log 2 |q| ≤ |q| := by
          have := Int.zpow_log_le_self (b := 2) (by norm_num) hpos
          exact_mod_cast this
        have hee : e = Int.log 2 |q| + (-52) := by
          rw [← he, max_eq_left hl]
          ring
        have h3 : (1 / 2 : ℚ) * 2 ^ e = 2 ^ Int.log 2 |q| * (1 / 2 ^ 53) := by
          rw [hee, zpow_add₀ (by norm_num : (2 : ℚ) ≠ 0)]
          norm_num
          ring
        rw [h3]
        have h4 : (2 : ℚ) ^ Int.log 2 |q| * (1 / 2 ^ 53) ≤ |q| * (1 / 2 ^ 53) :=
          mul_le_mul_of_nonneg_right hlog (by positivity)
        have h5 : (0 : ℚ) ≤ 1 / 2 ^ 1075 := by positivity
        linarith
      · have hee : e = -1074 := by
          rw [← he, max_eq_right hl]
          norm_num
        have h3 : (1 / 2 : ℚ) * 2 ^ e = 1 / 2 ^ 1075 := by
          rw [hee]
          norm_num
        rw [h3]
        have h5 : (0 : ℚ) ≤ |q| * (1 / 2 ^ 53) := by positivity
        linarith
    linarith

theorem tiny_le : (1 : ℚ) / 2 ^ 1075 ≤ 1 / 2 ^ 60 :=
  one_div_le_one_div_of_le (by positivity) (pow_le_pow_right₀ (by norm_num) (by norm_num))

/-- The variation in double precision is within `5 * 2^-53` of the exact one. -/
theorem variationDouble_err (r : ℚ) (hr0 : 0 ≤ r) (hr1 : r < 1) :
    |variationDouble r - (95 / 100 + r * (1 / 10))| ≤ 5 / 2 ^ 53 := by
  unfold variationDouble
  rw [toDouble_95, toDouble_10]
  have ht := toDouble_err (r * (7205759403792794 / 2 ^ 56))
  have hrc : (0 : ℚ) ≤ r * (7205759403792794 / 2 ^ 56) := by positivity
  rw [abs_of_nonneg hrc] at ht
  generalize toDouble (r * (7205759403792794 / 2 ^ 56)) = t at ht ⊢
  obtain ⟨ht1, ht2⟩ := abs_le.mp ht
  have hs := toDouble_err (8556839292003942 / 2 ^ 53 + t)
  have hη := tiny_le
  generalize (1 : ℚ) / 2 ^ 1075 = η at ht1 ht2 hs hη
  have hs0 : (0 : ℚ) ≤ 8556839292003942 / 2 ^ 53 + t := by
    norm_num at ht1 hη ⊢
    linarith
  rw [abs_of_nonneg hs0] at hs
  generalize toDouble (8556839292003942 / 2 ^ 53 + t) = v at hs ⊢
  obtain ⟨hs1, hs2⟩ := abs_le.mp hs
  rw [abs_le]
  norm_num at ht1 ht2 hs1 hs2 hη ⊢
  constructor <;> linarith

/-- In double precision an integer entry of at most `2^40` is perturbed as the exact
arithmetic says, up to the rounding errors: the new entry is an integer within
`0.5 + x / 2^50` of the exact product, and between `0.95 * x - 0.5` and
`1.05 * x + 0.5`. -/
theorem perturbedEntry_double (x : ℕ) (r : ℚ) (hx : x ≤ 2 ^ 40) (hr0 : 0 ≤ r)
    (hr1 : r < 1) : PerturbedEntry x r (perturbEntryDouble x r) := by
  rcases Nat.eq_zero_or_pos x with h0 | hpos
  · subst h0
    refine ⟨0, ?_, ?_, ?_, ?_⟩
    · simp only [perturbEntryDouble, Nat.cast_zero, zero_mul, toDouble, if_true, zero_add,
        Int.cast_zero]
      have := Math.round_eq_of 0 0 (by norm_num) (by norm_num)
      simpa using this
    · norm_num
    · norm_num
    · norm_num
  have hv := variationDouble_err r hr0 hr1
  unfold perturbEntryDouble Math.round
  generalize variationDouble r = v at hv ⊢
  obtain ⟨hva, hvb⟩ := abs_le.mp hv
  have hx1 : (1 : ℚ) ≤ x := by exact_mod_cast hpos
  have hx0 : (0 : ℚ) ≤ x := by linarith
  have hxq : (x : ℚ) ≤ 1099511627776 := by exact_mod_cast hx
  have hv0 : (0 : ℚ) ≤ v := by
    norm_num at hva
    linarith
  have hv1 : v ≤ 106 / 100 := by
    norm_num at hvb
    linarith
  have hp := toDouble_err (x * v)
  rw [abs_of_nonneg (mul_nonneg hx0 hv0)] at hp
  generalize toDouble (x * v) = p at hp ⊢
  obtain ⟨hp1, hp2⟩ := abs_le.mp hp
  have hxv : (x : ℚ) * v ≤ x * (106 / 100) := mul_le_mul_of_nonneg_left hv1 hx0
  have hd1 : (x : ℚ) * (v - (95 / 100 + r * (1 / 10))) ≤ x * (5 / 2 ^ 53) :=
    mul_le_mul_of_nonneg_left hvb hx0
  have hd2 : (x : ℚ) * (-(5 / 2 ^ 53)) ≤ x * (v - (95 / 100 + r * (1 / 10))) :=
    mul_le_mul_of_nonneg_left hva hx0
  have hw0 : (x : ℚ) * (95 / 100) ≤ x * (95 / 100 + r * (1 / 10)) :=
    mul_le_mul_of_nonneg_left (by linarith) hx0
  have hw1 : (x : ℚ) * (95 / 100 + r * (1 / 10)) ≤ x * (105 / 100) :=
    mul_le_mul_of_nonneg_left (by linarith) hx0
  have hη := tiny_le
  generalize (1 : ℚ) / 2 ^ 1075 = η at hp1 hp2 hη
  have hf1 := Int.floor_le (p + 1 / 2)
  have hf2 := Int.lt_floor_add_one (p + 1 / 2)
  have hclose : |p - x * (95 / 100 + r * (1 / 10))| ≤ x / 2 ^ 50 := by
    rw [abs_le]
    rw [mul_sub] at hd1 hd2
    norm_num at hp1 hp2 hη hd1 hd2 ⊢
    constructor <;> linarith
  obtain ⟨hc1, hc2⟩ := abs_le.mp hclose
  have hsmall : (x : ℚ) / 2 ^ 50 ≤ 1 / 1000 := by
    norm_num
    linarith
  refine ⟨⌊p + 1 / 2⌋, rfl, ?_, ?_, ?_⟩
  · rw [abs_le]
    constructor <;> linarith
  · have h : (19 * (x : ℤ) - 11 : ℚ) < 20 * (⌊p + 1 / 2⌋ : ℤ) := by
      push_cast
      linarith
    have h' : 19 * (x : ℤ) - 11 < 20 * ⌊p + 1 / 2⌋ := by exact_mod_cast h
    have h'' : 19 * (x : ℤ) - 10 ≤ 20 * ⌊p + 1 / 2⌋ := by omega
    have h3 : (19 * (x : ℤ) - 10 : ℚ) ≤ 20 * (⌊p + 1 / 2⌋ : ℤ) := by exact_mod_cast h''
    push_cast at h3
    linarith
  · have h : (20 * (⌊p + 1 / 2⌋ : ℤ) : ℚ) < 21 * (x : ℤ) + 11 := by
      push_cast
      linarith
    have h' : 20 * ⌊p + 1 / 2⌋ < 21 * (x : ℤ) + 11 := by exact_mod_cast h
    have h'' : 20 * ⌊p + 1 / 2⌋ ≤ 21 * (x : ℤ) + 10 := by omega
    have h3 : (20 * (⌊p + 1 / 2⌋ : ℤ) : ℚ) ≤ 21 * (x : ℤ) + 10 := by exact_mod_cast h''
    push_cast at h3
    linarith

/-- C12 as stated fails: the entry 780 of `cities.businesses` (Adelaide) becomes 799 at
the draw `0.75`, because the literal `0.1`, the product `0.75 * 0.1` and the sum with
`0.95` are rounded to doubles and `780 * variation()` falls just below `799.5`, whereas
`round (780 * (0.95 + 0.1 * 0.75))` is `round 799.5 = 800`. -/
theorem perturbEntryDouble_differs_from_exact :
    State.initial.data.cities.businesses[4]? = some 780 ∧
    perturbEntryDouble 780 (3 / 4) = 799 ∧
    Math.round (780 * (95 / 100 + 1 / 10 * (3 / 4))) = 800 := by
  refine ⟨rfl, ?_, ?_⟩
  · unfold perturbEntryDouble
    rw [variationDouble_three_quarters]
    rw [toDouble_eq_of _ (-43) 7032476371255295 (by norm_num) (by norm_num)
      (by norm_num) (by norm_num)
      (roundHalfEven_eq_of_lt _ _ (by norm_num) (by norm_num))]
    have := Math.round_eq_of (((7032476371255295 : ℤ) : ℚ) * 2 ^ (-43 : ℤ)) 799
      (by norm_num) (by norm_num)
    simpa using this
  · have := Math.round_eq_of (780 * (95 / 100 + 1 / 10 * (3 / 4))) 800
      (by norm_num) (by norm_num)
    simpa using this

/-- C12 amended: for a dataset with non-negative entries and draws of `Math.random` in
`[0, 1)`, `simulateAPIDataUpdate` (a total function) keeps the length of
`states.revenue`, `employment.values`, `quarters.revenue`, `quarters.profit` and
`cities.businesses` and replaces each entry `x` of them by an integer `y` within
`0.5 + x / 2^50` of `x * (0.95 + 0.1 * r)`, with `0.95 * x - 0.5 ≤ y ≤ 1.05 * x + 0.5`,
where `r` is a draw used for no other entry (the series take consecutive stretches of
the draws) and `y` is the same for every sequence of draws with that `r` at that
position.  The same holds of `Math.round(val * variation())` evaluated in double
precision, for every integer entry of at most `2^40`. -/
theorem simulateAPIDataUpdate_perturbs (random : Nat → ℚ) (s : State)
    (hr : ∀ k, 0 ≤ random k ∧ random k < 1) (hs : NonNegative s.data) :
    IsPerturbation (fun rnd => (simulateAPIDataUpdate rnd s).data.states.revenue)
      random 0 s.data.states.revenue ∧
    IsPerturbation (fun rnd => (simulateAPIDataUpdate rnd s).data.employment.values)
      random s.data.states.revenue.length s.data.employment.values ∧
    IsPerturbation (fun rnd => (simulateAPIDataUpdate rnd s).data.quarters.revenue)
      random (s.data.states.revenue.length + s.data.employment.values.length)
      s.data.quarters.revenue ∧
    IsPerturbation (fun rnd => (simulateAPIDataUpdate rnd s).data.quarters.profit)
      random (s.data.states.revenue.length + s.data.employment.values.length +
        s.data.quarters.revenue.length)
      s.data.quarters.profit ∧
    IsPerturbation (fun rnd => (simulateAPIDataUpdate rnd s).data.cities.businesses)
      random (s.data.states.revenue.length + s.data.employment.values.length +
        s.data.quarters.revenue.length + s.data.quarters.profit.length)
      s.data.cities.businesses ∧
    ∀ (x : ℕ) (r : ℚ), x ≤ 2 ^ 40 → 0 ≤ r → r < 1 →
      PerturbedEntry x r (perturbEntryDouble x r) := by
  obtain ⟨h1, _, _, h4, h5, h6, _, _, h9⟩ := hs
  unfold simulateAPIDataUpdate
  simp only [data_updateAllChartsWithCurrentData, enter, length_perturb, Nat.zero_add]
  exact ⟨isPerturbation_perturb random 0 _ hr h1, isPerturbation_perturb random _ _ hr h6,
    isPerturbation_perturb random _ _ hr h4, isPerturbation_perturb random _ _ hr h5,
    isPerturbation_perturb random _ _ hr h9, perturbedEntry_double⟩

/-- C12 amended, at the initial state with every draw equal to `0.25` (a variation of
`0.975`): `quarters.revenue` goes from `[1245, 1358, 1425, 1532, 1675]` to
`[1214, 1324, 1389, 1494, 1633]`, a perturbation with the draws at the positions
`8 + 6` to `8 + 6 + 4`. -/
theorem simulateAPIDataUpdate_perturbs_witness :
    (simulateAPIDataUpdate (fun _ => 1 / 4) State.initial).data.quarters.revenue =
      [1214, 1324, 1389, 1494, 1633] ∧
    IsPerturbation
      (fun rnd => (simulateAPIDataUpdate rnd State.initial).data.quarters.revenue)
      (fun _ => 1 / 4) (8 + 6) [1245, 1358, 1425, 1532, 1675] := by
  refine ⟨?_, (simulateAPIDataUpdate_perturbs (fun _ => 1 / 4) State.initial
    (fun _ => by norm_num) (by simp [NonNegative, State.initial, australianData])).2.2.1⟩
  have h : (simulateAPIDataUpdate (fun _ => 1 / 4) State.initial).data.quarters.revenue =
      [Math.round (1245 * variation (1 / 4)), Math.round (1358 * variation (1 / 4)),
        Math.round (1425 * variation (1 / 4)), Math.round (1532 * variation (1 / 4)),
        Math.round (1675 * variation (1 / 4))] := rfl
  rw [h, Math.round_eq_of (1245 * variation (1 / 4)) 1214 (by norm_num [variation])
      (by norm_num [variation]),
    Math.round_eq_of (1358 * variation (1 / 4)) 1324 (by norm_num [variation])
      (by norm_num [variation]),
    Math.round_eq_of (1425 * variation (1 / 4)) 1389 (by norm_num [variation])
      (by norm_num [variation]),
    Math.round_eq_of (1532 * variation (1 / 4)) 1494 (by norm_num [variation])
      (by norm_num [variation]),
    Math.round_eq_of (1675 * variation (1 / 4)) 1633 (by norm_num [variation])
      (by norm_num [variation])]
  norm_num

/-! ### Drift under two perturbations -/

theorem perturb_cons (random : Nat → ℚ) (start : Nat) (x : ℚ) (xs : List ℚ) :
    perturb random start (x :: xs) =
      Math.round (x * variation (random start)) :: perturb random (start + 1) xs := rfl

/-- One entry perturbed twice stays within the compounded drift. -/
theorem withinDrift_round_round (x r1 r2 : ℚ) (hx : 0 ≤ x) (h1 : 0 ≤ r1 ∧ r1 ≤ 1)
    (h2 : 0 ≤ r2 ∧ r2 ≤ 1) :
    WithinDrift x (Math.round (Math.round (x * variation r1) * variation r2)) := by
  have hv := variation_bounds r1 h1.1 h1.2
  have hy : 0 ≤ Math.round (x * variation r1) :=
    Math.round_nonneg _ (mul_nonneg hx (by linarith [hv.1]))
  have hb1 := round_variation_bounds x r1 hx h1.1 h1.2
  have hb2 := round_variation_bounds (Math.round (x * variation r1)) r2 hy h2.1 h2.2
  unfold WithinDrift
  constructor <;> linarith [hb1.1, hb1.2, hb2.1, hb2.2]

theorem forall₂_withinDrift_perturb (random1 random2 : Nat → ℚ) (xs : List ℚ)
    (k1 k2 : Nat) (h1 : ∀ k, 0 ≤ random1 k ∧ random1 k ≤ 1)
    (h2 : ∀ k, 0 ≤ random2 k ∧ random2 k ≤ 1) (hx : ∀ x ∈ xs, 0 ≤ x) :
    List.Forall₂ WithinDrift xs (perturb random2 k2 (perturb random1 k1 xs)) := by
  induction xs generalizing k1 k2 with
  | nil => exact List.Forall₂.nil
  | cons x xs ih =>
    rw [perturb_cons, perturb_cons]
    exact List.Forall₂.cons
      (withinDrift_round_round x _ _ (hx x (List.mem_cons_self _ _)) (h1 _) (h2 _))
      (ih _ _ fun y hy => hx y (List.mem_cons_of_mem _ hy))

/-- C14 as stated fails: from the built-in dataset, two runs of
`simulateAPIDataUpdate` whose draws are all `0.99` (a variation of `1.049` each time) take
the first entry of `employment.values` from 285000 to 313614, above
`1.10 * 285000 = 313500`. -/
theorem simulateAPIDataUpdate_twice_exceeds_ten_percent :
    State.initial.data.employment.values[0]? = some 285000 ∧
    (simulateAPIDataUpdate (fun _ => 99 / 100)
      (simulateAPIDataUpdate (fun _ => 99 / 100)
        State.initial)).data.employment.values[0]? = some 313614 ∧
    (110 / 100 : ℚ) * 285000 < 313614 := by
  have e1 : Math.round (285000 * variation (99 / 100)) = 298965 := by
    have := Math.round_eq_of (285000 * variation (99 / 100)) 298965
      (by norm_num [variation]) (by norm_num [variation])
    simpa using this
  have e2 : Math.round (298965 * variation (99 / 100)) = 313614 := by
    have := Math.round_eq_of (298965 * variation (99 / 100)) 313614
      (by norm_num [variation]) (by norm_num [variation])
    simpa using this
  have h : (simulateAPIDataUpdate (fun _ => 99 / 100)
      (simulateAPIDataUpdate (fun _ => 99 / 100)
        State.initial)).data.employment.values =
      perturb (fun _ => 99 / 100) 8 (perturb (fun _ => 99 / 100) 8
        [285000, 312000, 268000, 195000, 178000, 145000]) := rfl
  refine ⟨rfl, ?_, by norm_num⟩
  rw [h, perturb_cons, perturb_cons, e1, e2]
  rfl

/-- C14 amended: for a dataset with non-negative entries and draws in `[0, 1]`, two
runs of `simulateAPIDataUpdate` in a row leave every entry of the five perturbed
series between `0.9025 * x - 0.975` and `1.1025 * x + 1.025`, where `x` is the entry
before the two runs. -/
theorem simulateAPIDataUpdate_twice_drift (random1 random2 : Nat → ℚ) (s : State)
    (h1 : ∀ k, 0 ≤ random1 k ∧ random1 k ≤ 1) (h2 : ∀ k, 0 ≤ random2 k ∧ random2 k ≤ 1)
    (hs : NonNegative s.data) :
    List.Forall₂ WithinDrift s.data.states.revenue
      (simulateAPIDataUpdate random2 (simulateAPIDataUpdate random1 s)).data.states.revenue ∧
    List.Forall₂ WithinDrift s.data.employment.values
      (simulateAPIDataUpdate random2
        (simulateAPIDataUpdate random1 s)).data.employment.values ∧
    List.Forall₂ WithinDrift s.data.quarters.revenue
      (simulateAPIDataUpdate random2
        (simulateAPIDataUpdate random1 s)).data.quarters.revenue ∧
    List.Forall₂ WithinDrift s.data.quarters.profit
      (simulateAPIDataUpdate random2
        (simulateAPIDataUpdate random1 s)).data.quarters.profit ∧
    List.Forall₂ WithinDrift s.data.cities.businesses
      (simulateAPIDataUpdate random2
        (simulateAPIDataUpdate random1 s)).data.cities.businesses := by
  obtain ⟨hsr, _, _, hqr, hqp, hev, _, _, hcb⟩ := hs
  unfold simulateAPIDataUpdate
  simp only [data_updateAllChartsWithCurrentData, enter]
  exact ⟨forall₂_withinDrift_perturb _ _ _ _ _ h1 h2 hsr,
    forall₂_withinDrift_perturb _ _ _ _ _ h1 h2 hev,
    forall₂_withinDrift_perturb _ _ _ _ _ h1 h2 hqr,
    forall₂_withinDrift_perturb _ _ _ _ _ h1 h2 hqp,
    forall₂_withinDrift_perturb _ _ _ _ _ h1 h2 hcb⟩

/-- C14 amended, at the initial state with every draw equal to `0.99`. -/
theorem simulateAPIDataUpdate_twice_drift_witness :
    List.Forall₂ WithinDrift [285000, 312000, 268000, 195000, 178000, 145000]
      (simulateAPIDataUpdate (fun _ => 99 / 100)
        (simulateAPIDataUpdate (fun _ => 99 / 100) State.initial)).data.employment.values :=
  (simulateAPIDataUpdate_twice_drift (fun _ => 99 / 100) (fun _ => 99 / 100) State.initial
    (fun _ => by norm_num) (fun _ => by norm_num)
    (by simp [NonNegative, State.initial, australianData])).2.1

/-! ### The growth rate -/

/-- The decimal of `toFixed(1)` is within one twentieth of the number. -/
theorem toFixed1_finite (q : ℚ) :
    ∃ negative tenths, toFixed1 (.finite q) = .decimal negative tenths ∧
      ∃ v, (toFixed1 (.finite q)).value = some v ∧ |v - q| ≤ 1 / 20 := by
  have hnn : (0 : ℤ) ≤ ⌊10 * |q| + 1 / 2⌋ :=
    Int.floor_nonneg.mpr (by have := abs_nonneg q; linarith)
  have hcast : ((⌊10 * |q| + 1 / 2⌋.toNat : ℕ) : ℚ) = ((⌊10 * |q| + 1 / 2⌋ : ℤ) : ℚ) := by
    have h := Int.toNat_of_nonneg hnn
    exact_mod_cast h
  have h1 := Int.floor_le (10 * |q| + 1 / 2)
  have h2 := Int.lt_floor_add_one (10 * |q| + 1 / 2)
  refine ⟨decide (q < 0), ⌊10 * |q| + 1 / 2⌋.toNat, rfl, _, rfl, ?_⟩
  rw [hcast, abs_le]
  by_cases hq : q < 0
  · have habs : |q| = -q := abs_of_neg hq
    simp only [hq, decide_True, if_true]
    constructor <;> linarith
  · have habs : |q| = q := abs_of_nonneg (not_lt.mp hq)
    simp only [hq, decide_False, Bool.false_eq_true, if_false]
    constructor <;> linarith

/-- C15: for a dataset whose quarterly revenue is the five-entry series
`[a, b, c, e, f]` with `a` not zero, the growth rate of `updateStats` is
`(f - a) / a * 100`, from the first and the last entry, shown as a decimal with one
fractional digit within `0.05` of it; for the built-in series
`[1245, 1358, 1425, 1532, 1675]` it is shown as `34.5`, within `0.1` of
`(1675 - 1245) / 1245 * 100`. -/
theorem growthRate_first_to_last :
    (∀ (d : AustralianData) (a b c e f : ℚ), d.quarters.revenue = [a, b, c, e, f] →
      a ≠ 0 →
      growthRateNumber d = .finite ((f - a) / a * 100) ∧
      ∃ negative tenths, growthRate d = .decimal negative tenths ∧
        ∃ v, (growthRate d).value = some v ∧ |v - (f - a) / a * 100| ≤ 1 / 20) ∧
    growthRate australianData = .decimal false 345 ∧
    (growthRate australianData).text = "34.5" ∧
    growthRateText australianData = "+34.5%" ∧
    |(345 / 10 : ℚ) - (1675 - 1245) / 1245 * 100| ≤ 1 / 10 := by
  have hgen : ∀ (d : AustralianData) (a b c e f : ℚ), d.quarters.revenue = [a, b, c, e, f] →
      a ≠ 0 → growthRateNumber d = .finite ((f - a) / a * 100) := by
    intro d a b c e f hrev ha
    simp [growthRateNumber, hrev, ha]
  have hbuilt : growthRate australianData = .decimal false 345 := by
    have hn := hgen australianData 1245 1358 1425 1532 1675 rfl (by norm_num)
    have hfloor : ⌊10 * |((1675 - 1245) / 1245 * 100 : ℚ)| + 1 / 2⌋ = 345 := by
      rw [abs_of_pos (by norm_num), Int.floor_eq_iff]
      constructor <;> norm_num
    unfold growthRate
    rw [hn]
    simp only [toFixed1, hfloor]
    have hneg : ¬ ((1675 - 1245) / 1245 * 100 : ℚ) < 0 := by norm_num
    simp only [hneg, decide_False]
    rfl
  refine ⟨?_, hbuilt, ?_, ?_, ?_⟩
  · intro d a b c e f hrev ha
    refine ⟨hgen d a b c e f hrev ha, ?_⟩
    unfold growthRate
    rw [hgen d a b c e f hrev ha]
    exact toFixed1_finite _
  · rw [hbuilt]
    decide
  · unfold growthRateText
    rw [hbuilt]
    decide
  · rw [abs_le]
    constructor <;> norm_num

/-- C15 at the dataset whose quarterly revenue is `[100, 100, 100, 100, 140]`: the
growth rate is `(140 - 100) / 100 * 100`. -/
theorem growthRate_first_to_last_witness :
    growthRateNumber { australianData with quarters :=
      { australianData.quarters with revenue := [100, 100, 100, 100, 140] } } =
      .finite ((140 - 100) / 100 * 100) :=
  (growthRate_first_to_last.1 _ 100 100 100 100 140 rfl (by norm_num)).1

/-- C16 as stated fails: after a market payload whose first close is 10, the quarterly
revenue is `[0, 100, 100, 100, 140]`, and the growth rate of `updateStats` is the
division `140 / 0`: the value is `Infinity`, shown as `+Infinity%`, not a sentinel. -/
theorem growthRate_division_by_zero_propagates :
    (updateChartsFromMarketData MarketData.lowFirstClose State.initial).data.quarters.revenue =
      [0, 100, 100, 100, 140] ∧
    growthRateNumber
      (updateChartsFromMarketData MarketData.lowFirstClose State.initial).data =
      .posInfinity ∧
    growthRate (updateChartsFromMarketData MarketData.lowFirstClose State.initial).data =
      .infinity ∧
    growthRateText (updateChartsFromMarketData MarketData.lowFirstClose State.initial).data =
      "+Infinity%" := by
  have e0 : Math.round ((10 : ℚ) * (2 / 100)) = 0 := by
    have := Math.round_eq_of ((10 : ℚ) * (2 / 100)) 0 (by norm_num) (by norm_num)
    simpa using this
  have e1 : Math.round ((5000 : ℚ) * (2 / 100)) = 100 := by
    have := Math.round_eq_of ((5000 : ℚ) * (2 / 100)) 100 (by norm_num) (by norm_num)
    simpa using this
  have e2 : Math.round ((7000 : ℚ) * (2 / 100)) = 140 := by
    have := Math.round_eq_of ((7000 : ℚ) * (2 / 100)) 140 (by norm_num) (by norm_num)
    simpa using this
  have hrev : (updateChartsFromMarketData MarketData.lowFirstClose
      State.initial).data.quarters.revenue = [0, 100, 100, 100, 140] := by
    have h : (updateChartsFromMarketData MarketData.lowFirstClose
        State.initial).data.quarters.revenue =
        [Math.round ((10 : ℚ) * (2 / 100)), Math.round ((5000 : ℚ) * (2 / 100)),
          Math.round ((5000 : ℚ) * (2 / 100)), Math.round ((5000 : ℚ) * (2 / 100)),
          Math.round ((7000 : ℚ) * (2 / 100))] := rfl
    rw [h, e0, e1, e2]
  have hnum : growthRateNumber
      (updateChartsFromMarketData MarketData.lowFirstClose State.initial).data =
      .posInfinity := by
    unfold growthRateNumber
    rw [hrev]
    norm_num
  have hrate : growthRate
      (updateChartsFromMarketData MarketData.lowFirstClose State.initial).data =
      .infinity := by
    unfold growthRate
    rw [hnum]
    rfl
  refine ⟨hrev, hnum, hrate, ?_⟩
  unfold growthRateText
  rw [hrate]
  decide

/-- C16 amended: for a dataset whose first quarterly revenue entry is 0, the growth
rate of `updateStats` is the unguarded division by zero: it is `Infinity` when the
entry at index 4 is positive, `-Infinity` when it is negative, and `NaN` when it is 0
or absent; it is never a decimal numeral. -/
theorem growthRate_zero_first (d : AustralianData)
    (h0 : d.quarters.revenue[0]? = some 0) :
    (∀ last, d.quarters.revenue[4]? = some last →
      growthRate d =
        if 0 < last then .infinity else if last < 0 then .negInfinity else .notANumber) ∧
    (d.quarters.revenue[4]? = none → growthRate d = .notANumber) ∧
    (∀ negative tenths, growthRate d ≠ .decimal negative tenths) := by
  have hlast : ∀ last, d.quarters.revenue[4]? = some last →
      growthRate d =
        if 0 < last then .infinity else if last < 0 then .negInfinity else .notANumber := by
    intro last h4
    unfold growthRate growthRateNumber
    rw [h0, h4]
    simp only [if_true, sub_zero]
    by_cases hpos : 0 < last
    · simp [hpos, toFixed1]
    · by_cases hneg : last < 0
      · simp [hpos, hneg, toFixed1]
      · simp [hpos, hneg, toFixed1]
  have hnone : d.quarters.revenue[4]? = none → growthRate d = .notANumber := by
    intro h4
    unfold growthRate growthRateNumber
    rw [h0, h4]
    rfl
  refine ⟨hlast, hnone, ?_⟩
  intro negative tenths
  cases h4 : d.quarters.revenue[4]? with
  | none =>
    rw [hnone h4]
    simp
  | some last =>
    rw [hlast last h4]
    split
    · simp
    · split <;> simp

/-- C16 amended, at the dataset whose quarterly revenue is `[0, 100, 100, 100, 140]`. -/
theorem growthRate_zero_first_witness :
    growthRate { australianData with quarters :=
      { australianData.quarters with revenue := [0, 100, 100, 100, 140] } } =
      .infinity := by
  have h := (growthRate_zero_first { australianData with quarters :=
    { australianData.quarters with revenue := [0, 100, 100, 100, 140] } } rfl).1 140 rfl
  simpa using h

/-! ### The re-entrancy guard -/

/-- C17: when `updateCharts` is invoked while `isLoadingData` is true it returns at
once: the whole state is as before, so no function was entered (neither
`fetchABSData` nor an adapter), and the dataset, the loading flag and the emitted
labels are unchanged. -/
theorem updateCharts_noop_while_loading (cfg : ApiConfig) (env : Env) (s : State)
    (h : s.isLoadingData = true) :
    updateCharts cfg env s = s ∧
    (updateCharts cfg env s).calls = s.calls ∧
    (updateCharts cfg env s).data = s.data ∧
    (updateCharts cfg env s).isLoadingData = true ∧
    (updateCharts cfg env s).labels = s.labels := by
  have hs : updateCharts cfg env s = s := by
    unfold updateCharts
    rw [if_pos h]
  rw [hs]
  exact ⟨rfl, rfl, rfl, h, rfl⟩

/-- C17 at the initial state with the loading flag set, the network answering. -/
theorem updateCharts_noop_while_loading_witness :
    updateCharts API_CONFIG Env.primaryUp (showLoading true State.initial) =
      showLoading true State.initial :=
  (updateCharts_noop_while_loading API_CONFIG Env.primaryUp
    (showLoading true State.initial) rfl).1

/-- C18, the code at two failing interleavings: a refresh click before the timer of
the `load` listener fires, and a refresh click after an export that ran while the
first fetch was in flight, each leave two runs of `fetchABSData` in flight at once;
the timer does not test `isLoadingData`, and `exportToPDF` clears it. -/
theorem page_two_chains_in_flight :
    (Page.loaded.run [PageEvent.refreshClick, PageEvent.timerFires]).chains = 2 ∧
    (Page.loaded.run [PageEvent.timerFires, PageEvent.exportClick, PageEvent.exportSettles,
      PageEvent.refreshClick]).chains = 2 := by
  decide

/-! ### Absence markers -/

theorem sameAbsence_refl (xs : List (Option ℚ)) : SameAbsence xs xs :=
  ⟨rfl, fun _ => Iff.rfl⟩

theorem sameAbsence_trans {xs ys zs : List (Option ℚ)} (h1 : SameAbsence xs ys)
    (h2 : SameAbsence ys zs) : SameAbsence xs zs :=
  ⟨h2.1.trans h1.1, fun i => (h2.2 i).trans (h1.2 i)⟩

theorem sameAbsence_wbMonthly (m : DataMap) (d : AustralianData) :
    SameAbsence d.monthly.revenue2025 (wbMonthly m d).monthly.revenue2025 ∧
    (wbMonthly m d).monthly.revenue2024.length = d.monthly.revenue2024.length := by
  unfold wbMonthly
  split
  · refine ⟨⟨length_mapIdxFrom _ _ _, ?_⟩, length_mapIdxFrom _ _ _⟩
    intro i
    simp only [getElem?_mapIdxFrom]
    cases hi : d.monthly.revenue2025[i]? with
    | none => simp
    | some val =>
      cases val with
      | none => simp
      | some v => simp
  · exact ⟨sameAbsence_refl _, rfl⟩

theorem monthly_simulateAPIDataUpdate (random : Nat → ℚ) (s : State) :
    (simulateAPIDataUpdate random s).data.monthly = s.data.monthly := by
  unfold simulateAPIDataUpdate
  simp [data_updateAllChartsWithCurrentData, enter]

theorem monthly_updateChartsFromMarketData (m : MarketData) (s : State) :
    (updateChartsFromMarketData m s).data.monthly = s.data.monthly := by
  unfold updateChartsFromMarketData
  simp only []
  split
  · split
    · split
      · rw [data_updateAllChartsWithCurrentData]
        split <;> simp [enter]
      · simp [enter]
    · simp [enter]
  · simp [enter]

theorem sameAbsence_run (a : Adapter) (s : State) :
    SameAbsence s.data.monthly.revenue2025 (a.run s).data.monthly.revenue2025 ∧
    (a.run s).data.monthly.revenue2024.length = s.data.monthly.revenue2024.length := by
  cases a with
  | worldBank results =>
    simp only [Adapter.run, data_processWorldBankData, (wbMapping_fields _ _).2.1]
    exact sameAbsence_wbMonthly _ _
  | market m =>
    have h := monthly_updateChartsFromMarketData m s
    simp only [Adapter.run]
    rw [h]
    exact ⟨sameAbsence_refl _, rfl⟩
  | simulated random =>
    have h := monthly_simulateAPIDataUpdate random s
    simp only [Adapter.run]
    rw [h]
    exact ⟨sameAbsence_refl _, rfl⟩

/-- C20: after any sequence of runs of `processWorldBankData`,
`updateChartsFromMarketData` and `simulateAPIDataUpdate`, on any payloads,
`monthly.revenue2025` has as many entries as before and position `i` holds an absence
marker if and only if it held one before, so no absent entry is replaced by a number;
`monthly.revenue2024`, a list of numbers, keeps its number of entries. -/
theorem absence_markers_preserved (adapters : List Adapter) (s : State) :
    (runAdapters adapters s).data.monthly.revenue2025.length =
      s.data.monthly.revenue2025.length ∧
    (∀ i : Nat, (runAdapters adapters s).data.monthly.revenue2025[i]? = some none ↔
      s.data.monthly.revenue2025[i]? = some none) ∧
    (runAdapters adapters s).data.monthly.revenue2024.length =
      s.data.monthly.revenue2024.length := by
  have key : SameAbsence s.data.monthly.revenue2025
      (runAdapters adapters s).data.monthly.revenue2025 ∧
      (runAdapters adapters s).data.monthly.revenue2024.length =
        s.data.monthly.revenue2024.length := by
    induction adapters generalizing s with
    | nil => exact ⟨sameAbsence_refl _, rfl⟩
    | cons a as ih =>
      have h1 := sameAbsence_run a s
      have h2 := ih (a.run s)
      exact ⟨sameAbsence_trans h1.1 h2.1, h2.2.trans h1.2⟩
  exact ⟨key.1.1, key.1.2, key.2⟩

/-! ### Non-negative values -/

theorem mem_mapIdxFrom {α β : Type} (f : α → Nat → β) (k : Nat) (xs : List α) (y : β)
    (h : y ∈ mapIdxFrom f k xs) : ∃ x ∈ xs, ∃ i, y = f x i := by
  induction xs generalizing k with
  | nil => simp [mapIdxFrom] at h
  | cons x xs ih =>
    simp only [mapIdxFrom, List.mem_cons] at h
    rcases h with h | h
    · exact ⟨x, List.mem_cons_self _ _, k, h⟩
    · obtain ⟨x', hx', i, hi⟩ := ih _ h
      exact ⟨x', List.mem_cons_of_mem _ hx', i, hi⟩

/-- An observation of `dataMap[k]` is a valid observation of a result with key `k`. -/
theorem buildDataMap_mem (results : List WBResult) (k : Indicator) (l : List Observation)
    (h : buildDataMap results k = some l) (o : Observation) (ho : o ∈ l) :
    ∃ r ∈ results, r.key = k ∧ o ∈ r.data.getD [] ∧ ∃ v, o.value = some v := by
  obtain ⟨r, hr, hk, data, hdata, _, hl⟩ := buildDataMap_some results k l h
  subst hl
  have hmem : o ∈ data.filter fun d => d.value.isSome :=
    (validData_perm data).mem_iff.mp ho
  obtain ⟨hin, hsome⟩ := List.mem_filter.mp hmem
  refine ⟨r, hr, hk, by simpa [hdata] using hin, ?_⟩
  cases hv : o.value with
  | none => simp [hv] at hsome
  | some v => exact ⟨v, rfl⟩

/-- The number read from an observation of `dataMap[k]` is in the range of `k`. -/
theorem inRange_of_dataMap (results : List WBResult) (hr : WBInRange results)
    (k : Indicator) (l : List Observation) (h : buildDataMap results k = some l)
    (o : Observation) (ho : o ∈ l) : k.InRange (toNumber o.value) := by
  obtain ⟨r, hrm, hk, hin, v, hv⟩ := buildDataMap_mem results k l h o ho
  have := hr r hrm o hin v hv
  rw [hk] at this
  rw [hv]
  exact this


theorem nonNegative_wbQuarters (results : List WBResult) (hr : WBInRange results)
    (d : AustralianData) (h : NonNegative d) :
    NonNegative (wbQuarters (buildDataMap results) d) := by
  unfold wbQuarters
  cases hm : buildDataMap results Indicator.gdp with
  | none => exact h
  | some gdp =>
    simp only []
    split
    · obtain ⟨h1, h2, h3, _, _, h6, h7, h8, h9⟩ := h
      have hv : ∀ x ∈ (sliceLast 5 gdp).map
          (fun o => Math.round (toNumber o.value / 1000000000)), 0 ≤ x := by
        intro x hx
        obtain ⟨o, ho, rfl⟩ := List.mem_map.mp hx
        have hin : Indicator.gdp.InRange (toNumber o.value) :=
          inRange_of_dataMap results hr _ gdp hm o (List.mem_of_mem_drop ho)
        exact Math.round_nonneg _ (div_nonneg hin (by norm_num))
      refine ⟨h1, h2, h3, hv, ?_, h6, h7, h8, h9⟩
      intro x hx
      obtain ⟨v, hvm, rfl⟩ := List.mem_map.mp hx
      exact Math.round_nonneg _ (mul_nonneg (hv v hvm) (by norm_num))
    · exact h

theorem nonNegative_wbMonthly (results : List WBResult) (hr : WBInRange results)
    (d : AustralianData) (h : NonNegative d) :
    NonNegative (wbMonthly (buildDataMap results) d) := by
  unfold wbMonthly
  cases hm : buildDataMap results Indicator.gdpGrowth with
  | none => exact h
  | some l =>
    cases l with
    | nil => exact h
    | cons first rest =>
      simp only []
      obtain ⟨h1, h2, h3, h4, h5, h6, _, _, h9⟩ := h
      have hin : Indicator.gdpGrowth.InRange (toNumber first.value) :=
        inRange_of_dataMap results hr _ _ hm first (List.mem_cons_self _ _)
      have hgf : (0 : ℚ) ≤ 1 + toNumber first.value / 100 := by
        have h100 : (-100 : ℚ) ≤ toNumber first.value := hin
        linarith
      refine ⟨h1, h2, h3, h4, h5, h6, ?_, ?_, h9⟩
      · intro x hx
        obtain ⟨_, _, i, rfl⟩ := mem_mapIdxFrom _ _ _ _ hx
        refine Math.round_nonneg _ (mul_nonneg (mul_nonneg (by norm_num) hgf) ?_)
        have hi : (0 : ℚ) ≤ (i : ℚ) := Nat.cast_nonneg i
        linarith
      · intro x hx v hxv
        obtain ⟨val, _, i, hval⟩ := mem_mapIdxFrom _ _ _ _ hx
        cases val with
        | none =>
          rw [hxv] at hval
          cases hval
        | some w =>
          rw [hxv] at hval
          simp only [Option.some.injEq] at hval
          rw [hval]
          refine Math.round_nonneg _ (mul_nonneg (mul_nonneg (by norm_num) hgf) ?_)
          have hi : (0 : ℚ) ≤ (i : ℚ) := Nat.cast_nonneg i
          linarith

theorem firstValueOr_nonneg (results : List WBResult) (hr : WBInRange results)
    (k : Indicator) (hk : ∀ v, k.InRange v → 0 ≤ v) (dflt : ℚ) (hd : 0 ≤ dflt) :
    0 ≤ firstValueOr (buildDataMap results k) dflt := by
  unfold firstValueOr
  simp only []
  split
  · cases hm : buildDataMap results k with
    | none => simp [toNumber]
    | some l =>
      cases l with
      | nil => simp [toNumber]
      | cons first rest =>
        have := inRange_of_dataMap results hr k _ hm first (List.mem_cons_self _ _)
        simpa using hk _ this
  · exact hd

theorem nonNegative_wbIndustries (results : List WBResult) (hr : WBInRange results)
    (d : AustralianData) (h : NonNegative d) :
    NonNegative (wbIndustries (buildDataMap results) d) := by
  unfold wbIndustries
  split
  · obtain ⟨h1, h2, _, h4, h5, h6, h7, h8, h9⟩ := h
    have he := Math.round_nonneg _
      (firstValueOr_nonneg results hr Indicator.exports (fun _ hv => hv) 22 (by norm_num))
    have hmf := Math.round_nonneg _
      (firstValueOr_nonneg results hr Indicator.manufacturing (fun _ hv => hv) 11
        (by norm_num))
    refine ⟨h1, h2, ?_, h4, h5, h6, h7, h8, h9⟩
    intro x hx
    simp only [List.mem_cons, List.mem_singleton, List.not_mem_nil, or_false] at hx
    rcases hx with rfl | rfl | rfl | rfl | rfl | rfl | rfl | rfl
    · exact he
    · norm_num
    · norm_num
    · norm_num
    · exact hmf
    · norm_num
    · norm_num
    · norm_num
  · exact h

theorem nonNegative_wbEmployment (results : List WBResult) (hr : WBInRange results)
    (d : AustralianData) (h : NonNegative d) :
    NonNegative (wbEmployment (buildDataMap results) d) := by
  unfold wbEmployment
  cases hm : buildDataMap results Indicator.unemployment with
  | none => exact h
  | some l =>
    cases l with
    | nil => exact h
    | cons first rest =>
      simp only []
      obtain ⟨h1, h2, h3, h4, h5, h6, h7, h8, h9⟩ := h
      have hin : Indicator.unemployment.InRange (toNumber first.value) :=
        inRange_of_dataMap results hr _ _ hm first (List.mem_cons_self _ _)
      have hsf : (0 : ℚ) ≤ (100 - toNumber first.value) / 95 := by
        have h100 : toNumber first.value ≤ 100 := hin
        exact div_nonneg (by linarith) (by norm_num)
      refine ⟨h1, h2, h3, h4, h5, ?_, h7, h8, h9⟩
      intro x hx
      obtain ⟨val, hval, rfl⟩ := List.mem_map.mp hx
      exact Math.round_nonneg _ (mul_nonneg (h6 val hval) hsf)

theorem nonNegative_wbStates (results : List WBResult) (hr : WBInRange results)
    (d : AustralianData) (h : NonNegative d) :
    NonNegative (wbStates (buildDataMap results) d) := by
  unfold wbStates
  cases hm : buildDataMap results Indicator.gdp with
  | none => exact h
  | some l =>
    cases l with
    | nil => exact h
    | cons first rest =>
      simp only []
      obtain ⟨_, h2, h3, h4, h5, h6, h7, h8, h9⟩ := h
      have hin : Indicator.gdp.InRange (toNumber first.value) :=
        inRange_of_dataMap results hr _ _ hm first (List.mem_cons_self _ _)
      have h0 : (0 : ℚ) ≤ toNumber first.value := hin
      refine ⟨?_, h2, h3, h4, h5, h6, h7, h8, h9⟩
      intro x hx
      obtain ⟨pct, hpct, rfl⟩ := List.mem_map.mp hx
      have hp : (0 : ℚ) ≤ pct := by
        simp only [stateDistribution, List.mem_cons, List.mem_singleton, List.not_mem_nil,
          or_false] at hpct
        rcases hpct with rfl | rfl | rfl | rfl | rfl | rfl | rfl | rfl <;> norm_num
      exact Math.round_nonneg _
        (div_nonneg (div_nonneg (mul_nonneg h0 hp) (by norm_num)) (by norm_num))

theorem nonNegative_wbCities (results : List WBResult) (hr : WBInRange results)
    (d : AustralianData) (h : NonNegative d) :
    NonNegative (wbCities (buildDataMap results) d) := by
  unfold wbCities
  cases hm : buildDataMap results Indicator.population with
  | none => exact h
  | some l =>
    cases l with
    | nil => exact h
    | cons first rest =>
      simp only []
      obtain ⟨h1, h2, h3, h4, h5, h6, h7, h8, _⟩ := h
      have hin : Indicator.population.InRange (toNumber first.value) :=
        inRange_of_dataMap results hr _ _ hm first (List.mem_cons_self _ _)
      have h0 : (0 : ℚ) ≤ toNumber first.value := hin
      refine ⟨h1, h2, h3, h4, h5, h6, h7, h8, ?_⟩
      intro x hx
      obtain ⟨pct, hpct, rfl⟩ := List.mem_map.mp hx
      have hp : (0 : ℚ) ≤ pct := by
        simp only [cityPopProportions, List.mem_cons, List.mem_singleton, List.not_mem_nil,
          or_false] at hpct
        rcases hpct with rfl | rfl | rfl | rfl | rfl | rfl | rfl | rfl | rfl | rfl <;>
          norm_num
      exact Math.round_nonneg _
        (div_nonneg (mul_nonneg (mul_nonneg h0 hp) (by norm_num)) (by norm_num))

theorem nonNegative_processWorldBankData (results : List WBResult)
    (hr : WBInRange results) (s : State) (h : NonNegative s.data) :
    NonNegative (processWorldBankData results s).data := by
  rw [data_processWorldBankData]
  unfold wbMapping
  exact nonNegative_wbCities _ hr _ (nonNegative_wbStates _ hr _
    (nonNegative_wbEmployment _ hr _ (nonNegative_wbIndustries _ hr _
      (nonNegative_wbMonthly _ hr _ (nonNegative_wbQuarters _ hr _ h)))))


theorem nonNegative_updateChartsFromMarketData (m : MarketData) (s : State)
    (hm : ∀ c ∈ m.closes, ∀ v, c = some v → 0 ≤ v) (h : NonNegative s.data) :
    NonNegative (updateChartsFromMarketData m s).data := by
  unfold updateChartsFromMarketData
  simp only []
  split
  · rename_i ts indicators hts hind
    split
    · rename_i q qs hq
      split
      · rename_i closes hc
        rw [data_updateAllChartsWithCurrentData]
        split
        · obtain ⟨h1, h2, h3, _, h5, h6, h7, h8, h9⟩ := h
          refine ⟨h1, h2, h3, ?_, h5, h6, h7, h8, h9⟩
          intro x hx
          obtain ⟨c, hcm, rfl⟩ := List.mem_map.mp hx
          have hmem : c ∈ m.closes := by
            simp only [MarketData.closes, hind, hq, hc, Option.getD_some]
            exact List.mem_of_mem_drop hcm
          refine Math.round_nonneg _ (mul_nonneg ?_ (by norm_num))
          cases c with
          | none => simp [toNumber]
          | some v => exact hm _ hmem v rfl
        · exact h
      · exact h
    · exact h
  · exact h

theorem nonNegative_perturb (random : Nat → ℚ) (start : Nat) (xs : List ℚ)
    (hr : ∀ k, 0 ≤ random k ∧ random k < 1) (hx : ∀ x ∈ xs, 0 ≤ x) :
    ∀ y ∈ perturb random start xs, 0 ≤ y := by
  intro y hy
  obtain ⟨x, hxm, i, rfl⟩ := mem_mapIdxFrom _ _ _ _ hy
  have hv := variation_bounds (random i) (hr i).1 (le_of_lt (hr i).2)
  exact Math.round_nonneg _ (mul_nonneg (hx x hxm) (by linarith [hv.1]))

theorem nonNegative_simulateAPIDataUpdate (random : Nat → ℚ) (s : State)
    (hr : ∀ k, 0 ≤ random k ∧ random k < 1) (h : NonNegative s.data) :
    NonNegative (simulateAPIDataUpdate random s).data := by
  obtain ⟨h1, h2, h3, h4, h5, h6, h7, h8, h9⟩ := h
  unfold simulateAPIDataUpdate
  simp only [data_updateAllChartsWithCurrentData, enter]
  exact ⟨nonNegative_perturb _ _ _ hr h1, h2, h3, nonNegative_perturb _ _ _ hr h4,
    nonNegative_perturb _ _ _ hr h5, nonNegative_perturb _ _ _ hr h6, h7, h8,
    nonNegative_perturb _ _ _ hr h9⟩

theorem nonNegative_run (a : Adapter) (ha : a.InRange) (s : State)
    (h : NonNegative s.data) : NonNegative (a.run s).data := by
  cases a with
  | worldBank results => exact nonNegative_processWorldBankData results ha s h
  | market m => exact nonNegative_updateChartsFromMarketData m s ha h
  | simulated random => exact nonNegative_simulateAPIDataUpdate random s ha h

/-- C19 as stated fails: the built-in dataset is non-negative, and a World Bank
payload with an unemployment rate of 120 gives the scale factor `(100 - 120) / 95`, so
`processWorldBankData` turns the first entry of `employment.values` into `-60000`. -/
theorem processWorldBankData_negative_employment :
    NonNegative State.initial.data ∧
    (processWorldBankData WBResult.unemployment120
      State.initial).data.employment.values[0]? = some (-60000 : ℚ) ∧
    ¬ NonNegative (processWorldBankData WBResult.unemployment120 State.initial).data := by
  have e : Math.round ((285000 : ℚ) * ((100 - 120) / 95)) = -60000 := by
    have := Math.round_eq_of ((285000 : ℚ) * ((100 - 120) / 95)) (-60000) (by norm_num)
      (by norm_num)
    simpa using this
  have hv : (processWorldBankData WBResult.unemployment120
      State.initial).data.employment.values[0]? = some (-60000 : ℚ) := by
    have h : (processWorldBankData WBResult.unemployment120
        State.initial).data.employment.values[0]? =
        some (Math.round ((285000 : ℚ) * ((100 - 120) / 95))) := rfl
    rw [h, e]
  refine ⟨by simp [NonNegative, State.initial, australianData], hv, ?_⟩
  intro hnn
  have hmem := List.getElem?_mem hv
  have := hnn.2.2.2.2.2.1 _ hmem
  norm_num at this

/-- Non-negativity is kept by every sequence of adapter runs whose payloads are in
range. -/
theorem nonNegative_invariant (s : State) (h : NonNegative s.data)
    (adapters : List Adapter) (ha : ∀ a ∈ adapters, a.InRange) :
    NonNegative (runAdapters adapters s).data := by
  induction adapters generalizing s with
  | nil => exact h
  | cons a as ih =>
    exact ih (a.run s) (nonNegative_run a (ha a (List.mem_cons_self _ _)) s h)
      fun b hb => ha b (List.mem_cons_of_mem _ hb)

/-! ### The label the controller ends with -/

theorem quietRun_refl (s : State) : QuietRun s s :=
  ⟨⟨[], by simp, by simp⟩, rfl⟩

theorem quietRun_trans {s t u : State} (h1 : QuietRun s t) (h2 : QuietRun t u) :
    QuietRun s u := by
  obtain ⟨⟨a1, hc1, hn1⟩, hl1⟩ := h1
  obtain ⟨⟨a2, hc2, hn2⟩, hl2⟩ := h2
  refine ⟨⟨a1 ++ a2, ?_, ?_⟩, hl2.trans hl1⟩
  · rw [hc2, hc1, List.append_assoc]
  · simp [hn1, hn2]

theorem quietRun_enter (f : Fn) (hf : f ≠ Fn.simulateAPIDataUpdate) (s : State) :
    QuietRun s (enter f s) :=
  ⟨⟨[f], rfl, by simpa using hf.symm⟩, rfl⟩

theorem quietRun_updateAllChartsWithCurrentData (s : State) :
    QuietRun s (updateAllChartsWithCurrentData s) :=
  ⟨⟨[Fn.updateAllChartsWithCurrentData], rfl, by decide⟩, rfl⟩

theorem quietRun_processWorldBankData (results : List WBResult) (s : State) :
    QuietRun s (processWorldBankData results s) :=
  ⟨⟨[Fn.processWorldBankData, Fn.updateAllChartsWithCurrentData],
    by simp [processWorldBankData, updateStats, updateAllChartsWithCurrentData, enter],
    by decide⟩, rfl⟩

theorem quietRun_updateChartsFromMarketData (m : MarketData) (s : State) :
    QuietRun s (updateChartsFromMarketData m s) := by
  have h0 : QuietRun s (enter Fn.updateChartsFromMarketData s) :=
    quietRun_enter _ (by decide) s
  unfold updateChartsFromMarketData
  simp only []
  split
  · split
    · split
      · refine quietRun_trans (quietRun_trans h0 ?_)
          (quietRun_updateAllChartsWithCurrentData _)
        split
        · exact ⟨⟨[], by simp, by simp⟩, rfl⟩
        · exact quietRun_refl _
      · exact h0
    · exact h0
  · exact h0

theorem quietRun_fetchWorldBankData (env : Env) (s : State) :
    QuietRun s (fetchWorldBankData env s).2 := by
  have h0 : QuietRun s (enter Fn.fetchWorldBankData s) := quietRun_enter _ (by decide) s
  rcases fetchWorldBankData_cases env s with ⟨e, he⟩ | ⟨results, hr⟩
  · rw [he]
    exact h0
  · rw [hr]
    exact quietRun_trans h0 (quietRun_processWorldBankData _ _)

theorem quietRun_fetchPublicAustralianData (env : Env) (s : State) :
    QuietRun s (fetchPublicAustralianData env s).2 ∧
    ∃ b, (fetchPublicAustralianData env s).1 = .ok b := by
  have h0 : QuietRun s (enter Fn.fetchPublicAustralianData s) :=
    quietRun_enter _ (by decide) s
  rcases fetchPublicAustralianData_cases env s with h | ⟨m, h⟩
  · rw [h]
    exact ⟨h0, false, rfl⟩
  · rw [h]
    exact ⟨quietRun_trans h0 (quietRun_updateChartsFromMarketData _ _), true, rfl⟩

/-- When the Primary adapter resolves, the controller ends after attempt 1. -/
theorem fetchABSData_eq_of_primary (cfg : ApiConfig) (env : Env) (s t : State)
    (hreal : cfg.USE_REAL_API = true)
    (h : fetchWorldBankData env (showLoading true s) = (.ok (), t)) :
    fetchABSData cfg env s =
      (.ok (), showLoading false (updateDataSourceBadge "World Bank Data"
        (showError none t))) := by
  simp only [fetchABSData, hreal, h]
  simp

/-- When the Primary adapter is switched off or rejects, the controller ends after
attempt 2, whatever `fetchPublicAustralianData` resolves to. -/
theorem fetchABSData_eq_of_secondary (cfg : ApiConfig) (env : Env) (s t : State)
    (h : (cfg.USE_REAL_API = false ∧ t = showLoading true s) ∨
      (cfg.USE_REAL_API = true ∧
        ∃ e, fetchWorldBankData env (showLoading true s) = (.error e, t))) :
    fetchABSData cfg env s =
      (.ok (), showLoading false (updateDataSourceBadge "Market Data"
        (showError none (fetchPublicAustralianData env t).2))) := by
  obtain ⟨b, hb⟩ := (quietRun_fetchPublicAustralianData env t).2
  have hp : ∃ u, fetchPublicAustralianData env t = (.ok b, u) := ⟨_, Prod.ext hb rfl⟩
  obtain ⟨u, hp⟩ := hp
  rcases h with ⟨hreal, ht⟩ | ⟨hreal, e, he⟩
  · subst ht
    simp only [fetchABSData, hreal, Bool.false_eq_true, if_false, Bool.not_false, if_true, hp]
    simp
  · simp only [fetchABSData, hreal, he, if_true, Bool.not_false, hp]
    simp


theorem quietRun_showLoading (b : Bool) (s : State) : QuietRun s (showLoading b s) :=
  quietRun_refl s

/-- C27: for every setting of `USE_REAL_API`, `SIMULATE_API` and `USE_FALLBACK`, every
outcome of the requests and every state, `fetchABSData` emits exactly one label:
`World Bank Data` if `USE_REAL_API` is set and `fetchWorldBankData` resolved, and
`Market Data` in every other case; `simulateAPIDataUpdate` is not entered, and neither
`Simulated Data` nor `Demo Mode` is emitted. -/
theorem fetchABSData_final_label (cfg : ApiConfig) (env : Env) (s : State) :
    (∃ added, (fetchABSData cfg env s).2.calls = s.calls ++ added ∧
      Fn.simulateAPIDataUpdate ∉ added) ∧
    (cfg.USE_REAL_API = true ∧ (fetchWorldBankData env (showLoading true s)).1 = .ok () →
      (fetchABSData cfg env s).2.labels = s.labels ++ ["World Bank Data"]) ∧
    (¬ (cfg.USE_REAL_API = true ∧
        (fetchWorldBankData env (showLoading true s)).1 = .ok ()) →
      (fetchABSData cfg env s).2.labels = s.labels ++ ["Market Data"]) ∧
    (∃ label, (fetchABSData cfg env s).2.labels = s.labels ++ [label] ∧
      label ≠ "Simulated Data" ∧ label ≠ "Demo Mode") := by
  have hprim : ∀ t, cfg.USE_REAL_API = true →
      fetchWorldBankData env (showLoading true s) = (.ok (), t) →
      (∃ added, (fetchABSData cfg env s).2.calls = s.calls ++ added ∧
        Fn.simulateAPIDataUpdate ∉ added) ∧
      (fetchABSData cfg env s).2.labels = s.labels ++ ["World Bank Data"] := by
    intro t hreal ht
    have hq : QuietRun s t := by
      have := quietRun_fetchWorldBankData env (showLoading true s)
      rw [ht] at this
      exact this
    rw [fetchABSData_eq_of_primary cfg env s t hreal ht]
    refine ⟨hq.1, ?_⟩
    simp [showLoading, updateDataSourceBadge, showError, hq.2]
  have hsec : ∀ t, ((cfg.USE_REAL_API = false ∧ t = showLoading true s) ∨
        (cfg.USE_REAL_API = true ∧
          ∃ e, fetchWorldBankData env (showLoading true s) = (.error e, t))) →
      (∃ added, (fetchABSData cfg env s).2.calls = s.calls ++ added ∧
        Fn.simulateAPIDataUpdate ∉ added) ∧
      (fetchABSData cfg env s).2.labels = s.labels ++ ["Market Data"] := by
    intro t ht
    have hq1 : QuietRun s t := by
      rcases ht with ⟨_, ht⟩ | ⟨_, e, he⟩
      · rw [ht]
        exact quietRun_showLoading true s
      · have := quietRun_fetchWorldBankData env (showLoading true s)
        rw [he] at this
        exact this
    have hq := quietRun_trans hq1 (quietRun_fetchPublicAustralianData env t).1
    rw [fetchABSData_eq_of_secondary cfg env s t ht]
    refine ⟨hq.1, ?_⟩
    simp [showLoading, updateDataSourceBadge, showError, hq.2]
  cases hreal : cfg.USE_REAL_API with
  | false =>
    obtain ⟨hc, hl⟩ := hsec _ (Or.inl ⟨hreal, rfl⟩)
    refine ⟨hc, ?_, fun _ => hl, "Market Data", hl, by decide, by decide⟩
    rintro ⟨h, _⟩
    cases h
  | true =>
    rcases fetchWorldBankData_cases env (showLoading true s) with ⟨e, he⟩ | ⟨results, hr⟩
    · obtain ⟨hc, hl⟩ := hsec _ (Or.inr ⟨hreal, e, he⟩)
      refine ⟨hc, ?_, fun _ => hl, "Market Data", hl, by decide, by decide⟩
      rintro ⟨_, h⟩
      rw [he] at h
      cases h
    · obtain ⟨hc, hl⟩ := hprim _ hreal hr
      refine ⟨hc, fun _ => hl, ?_, "World Bank Data", hl, by decide, by decide⟩
      intro hn
      exact absurd ⟨rfl, by rw [hr]⟩ hn


/-! ### Incomplete market responses -/

theorem updateChartsFromMarketData_incomplete (m : MarketData) (s : State)
    (h : m.Incomplete) : updateChartsFromMarketData m s = enter Fn.updateChartsFromMarketData s := by
  unfold updateChartsFromMarketData
  rcases h with h | h | ⟨ind, hind, h | h | ⟨q, qs, hq, hc⟩⟩
  · simp [h]
  · simp [h]
  · cases hts : m.timestamp <;> simp [hind, h]
  · cases hts : m.timestamp <;> simp [hind, h]
  · cases hts : m.timestamp <;> simp [hind, hq, hc]

/-- C21 as stated fails: for an OK market response whose `result[0]` has no
`indicators.quote`, `fetchPublicAustralianData` resolves to `true`, the success
signal, with the dataset unchanged. -/
theorem fetchPublicAustralianData_true_on_incomplete :
    (fetchPublicAustralianData Env.marketNoQuote State.initial).1 = .ok true ∧
    (fetchPublicAustralianData Env.marketNoQuote State.initial).2.data = australianData :=
  ⟨rfl, rfl⟩

/-- C21 amended: for every OK market response, `fetchPublicAustralianData` does not
throw; it resolves to `false` when the response has no `chart`, no `chart.result` or
no `chart.result[0]`, and it resolves to `true` when `chart.result[0]` is there but
lacks `timestamp`, `indicators`, `indicators.quote[0]` or `close`; in both cases the
dataset is unchanged. -/
theorem fetchPublicAustralianData_incomplete (env : Env) (s : State) (body : MarketBody)
    (h : env.market = .ok body) :
    (∃ b, (fetchPublicAustralianData env s).1 = .ok b) ∧
    ((body.chart = none ∨ ∃ c, body.chart = some c ∧ (c.result = none ∨ c.result = some [])) →
      (fetchPublicAustralianData env s).1 = .ok false ∧
      (fetchPublicAustralianData env s).2.data = s.data) ∧
    (∀ c m ms, body.chart = some c → c.result = some (m :: ms) → m.Incomplete →
      (fetchPublicAustralianData env s).1 = .ok true ∧
      (fetchPublicAustralianData env s).2.data = s.data) := by
  refine ⟨(quietRun_fetchPublicAustralianData env s).2, ?_, ?_⟩
  · intro hb
    unfold fetchPublicAustralianData
    rcases hb with hb | ⟨c, hc, hr | hr⟩
    · simp [h, hb, enter]
    · simp [h, hc, hr, enter]
    · simp [h, hc, hr, enter]
  · intro c m ms hc hr hm
    have hhead : (body.chart.bind MarketChart.result).bind List.head? = some m := by
      simp [hc, hr]
    unfold fetchPublicAustralianData
    simp only [h, hhead]
    rw [updateChartsFromMarketData_incomplete m _ hm]
    exact ⟨trivial, rfl⟩

/-- C21 amended, at the response of `Env.marketNoQuote`. -/
theorem fetchPublicAustralianData_incomplete_witness :
    (fetchPublicAustralianData Env.marketNoQuote State.initial).1 = .ok true ∧
    (fetchPublicAustralianData Env.marketNoQuote State.initial).2.data =
      State.initial.data :=
  (fetchPublicAustralianData_incomplete Env.marketNoQuote State.initial
    ⟨some ⟨some [⟨some [1700000000], some ⟨none⟩⟩]⟩⟩ rfl).2.2 _ _ _ rfl rfl
    (Or.inr (Or.inr ⟨⟨none⟩, rfl, Or.inl rfl⟩))

/-- C27 at the flags of the source with the network down: the label is
`Market Data`. -/
theorem fetchABSData_final_label_witness :
    (fetchABSData API_CONFIG Env.marketNoQuote State.initial).2.labels = ["Market Data"] :=
  (fetchABSData_final_label API_CONFIG Env.marketNoQuote State.initial).2.2.1
    (by
      rintro ⟨_, h⟩
      cases h)


/-! ### The quarterly series and the labels -/

/-- The quarterly series after the mapping, when `dataMap.gdp` has five entries or
more. -/
theorem quarters_processWorldBankData (results : List WBResult) (s : State)
    (gdp : List Observation) (h : buildDataMap results Indicator.gdp = some gdp)
    (hlen : 5 ≤ gdp.length) :
    (processWorldBankData results s).data.quarters =
      { labels := (sliceLast 5 gdp).map fun o => yearLabel o.date
        revenue := (sliceLast 5 gdp).map fun o => Math.round (toNumber o.value / 1000000000)
        profit := ((sliceLast 5 gdp).map fun o =>
          Math.round (toNumber o.value / 1000000000)).map fun v =>
            Math.round (v * (15 / 100)) } := by
  rw [data_processWorldBankData, (wbMapping_fields _ _).1]
  unfold wbQuarters
  simp [h, hlen, Function.comp_def]

/-- The trailing five entries of the valid data of a list with five valid
observations or more: they follow all the others in date. -/
theorem validData_latest_five (data : List Observation)
    (h : 5 ≤ (data.filter fun o => o.value.isSome).length) :
    ∃ older : List Observation,
      (older ++ sliceLast 5 (validData data)).Perm (data.filter fun o => o.value.isSome) ∧
      (sliceLast 5 (validData data)).length = 5 ∧
      (sliceLast 5 (validData data)).Pairwise (fun a b => a.date ≤ b.date) ∧
      ∀ o ∈ older, ∀ p ∈ sliceLast 5 (validData data), o.date ≤ p.date := by
  have hlen : 5 ≤ (validData data).length := by rw [length_validData]; exact h
  have hsorted := validData_sorted data
  have hsplit : (validData data).take ((validData data).length - 5) ++
      sliceLast 5 (validData data) = validData data := List.take_append_drop _ _
  refine ⟨(validData data).take ((validData data).length - 5), ?_,
    length_sliceLast 5 _ hlen, ?_, ?_⟩
  · rw [hsplit]
    exact validData_perm data
  · exact hsorted.sublist (List.drop_sublist _ _)
  · rw [← hsplit] at hsorted
    exact (List.pairwise_append.mp hsorted).2.2

/-- C24: for a payload with one result per indicator whose `gdp` result has at least
5 valid observations, `processWorldBankData` takes five of the valid observations,
in ascending order of date and dated no earlier than any valid observation left out;
`quarters.revenue[i]` is `round (value_i / 10^9)`, `quarters.profit[i]` is
`round (0.15 * quarters.revenue[i])`, and `quarters.labels[i]` is the year of the same
observation. -/
theorem quarters_from_latest_five (results : List WBResult) (r : WBResult)
    (data : List Observation) (s : State)
    (hnodup : (results.map WBResult.key).Nodup) (hr : r ∈ results)
    (hkey : r.key = Indicator.gdp) (hdata : r.data = some data)
    (hvalid : 5 ≤ r.validCount) :
    ∃ older five : List Observation,
      (older ++ five).Perm (data.filter fun o => o.value.isSome) ∧
      five.length = 5 ∧
      five.Pairwise (fun a b => a.date ≤ b.date) ∧
      (∀ o ∈ older, ∀ p ∈ five, o.date ≤ p.date) ∧
      (processWorldBankData results s).data.quarters.revenue =
        five.map (fun o => Math.round (toNumber o.value / 10 ^ 9)) ∧
      (processWorldBankData results s).data.quarters.profit =
        (processWorldBankData results s).data.quarters.revenue.map
          (fun v => Math.round (15 / 100 * v)) ∧
      (processWorldBankData results s).data.quarters.labels =
        five.map (fun o => "Year " ++ toString o.date) := by
  have hcount : 5 ≤ (data.filter fun o => o.value.isSome).length := by
    simpa [WBResult.validCount, hdata] using hvalid
  have hne : data ≠ [] := by
    intro h
    rw [h] at hcount
    simp at hcount
  have hmap : buildDataMap results Indicator.gdp = some (validData data) := by
    rw [← hkey]
    exact foldl_dataMapStep_of_mem results _ r data hnodup hr hdata hne
  have hlen : 5 ≤ (validData data).length := by rw [length_validData]; exact hcount
  obtain ⟨older, hperm, hfive, hsorted, hlate⟩ := validData_latest_five data hcount
  have hq := quarters_processWorldBankData results s _ hmap hlen
  refine ⟨older, sliceLast 5 (validData data), hperm, hfive, hsorted, hlate, ?_, ?_, ?_⟩
  · rw [hq]
    norm_num
  · rw [hq]
    simp only [List.map_map]
    apply List.map_congr_left
    intro o _
    simp only [Function.comp]
    congr 1
    ring
  · rw [hq]
    rfl

/-- C24 at a payload whose `gdp` list has six valid observations, sent newest
first. -/
theorem quarters_from_latest_five_witness :
    ∃ older five : List Observation,
      (older ++ five).Perm
        ([⟨2023, some 6⟩, ⟨2022, some 5⟩, ⟨2021, some 4⟩, ⟨2020, some 3⟩,
          ⟨2019, some 2⟩, ⟨2018, some 1⟩].filter fun o => o.value.isSome) ∧
      five.length = 5 ∧
      five.Pairwise (fun a b => a.date ≤ b.date) ∧
      (∀ o ∈ older, ∀ p ∈ five, o.date ≤ p.date) ∧
      (processWorldBankData
        [⟨Indicator.gdp, some [⟨2023, some 6⟩, ⟨2022, some 5⟩, ⟨2021, some 4⟩,
          ⟨2020, some 3⟩, ⟨2019, some 2⟩, ⟨2018, some 1⟩]⟩]
        State.initial).data.quarters.revenue =
        five.map (fun o => Math.round (toNumber o.value / 10 ^ 9)) ∧
      (processWorldBankData
        [⟨Indicator.gdp, some [⟨2023, some 6⟩, ⟨2022, some 5⟩, ⟨2021, some 4⟩,
          ⟨2020, some 3⟩, ⟨2019, some 2⟩, ⟨2018, some 1⟩]⟩]
        State.initial).data.quarters.profit =
        (processWorldBankData
          [⟨Indicator.gdp, some [⟨2023, some 6⟩, ⟨2022, some 5⟩, ⟨2021, some 4⟩,
            ⟨2020, some 3⟩, ⟨2019, some 2⟩, ⟨2018, some 1⟩]⟩]
          State.initial).data.quarters.revenue.map
          (fun v => Math.round (15 / 100 * v)) ∧
      (processWorldBankData
        [⟨Indicator.gdp, some [⟨2023, some 6⟩, ⟨2022, some 5⟩, ⟨2021, some 4⟩,
          ⟨2020, some 3⟩, ⟨2019, some 2⟩, ⟨2018, some 1⟩]⟩]
        State.initial).data.quarters.labels =
        five.map (fun o => "Year " ++ toString o.date) :=
  quarters_from_latest_five
    [⟨Indicator.gdp, some [⟨2023, some 6⟩, ⟨2022, some 5⟩, ⟨2021, some 4⟩,
      ⟨2020, some 3⟩, ⟨2019, some 2⟩, ⟨2018, some 1⟩]⟩]
    ⟨Indicator.gdp, some [⟨2023, some 6⟩, ⟨2022, some 5⟩, ⟨2021, some 4⟩,
      ⟨2020, some 3⟩, ⟨2019, some 2⟩, ⟨2018, some 1⟩]⟩
    [⟨2023, some 6⟩, ⟨2022, some 5⟩, ⟨2021, some 4⟩, ⟨2020, some 3⟩, ⟨2019, some 2⟩,
      ⟨2018, some 1⟩]
    State.initial (by decide) (by simp) rfl rfl (by decide)


theorem labels_wbMapping (m : DataMap) (d : AustralianData) :
    (wbMapping m d).states.labels = d.states.labels ∧
    (wbMapping m d).industries.labels = d.industries.labels ∧
    (wbMapping m d).employment.labels = d.employment.labels ∧
    (wbMapping m d).monthly.labels = d.monthly.labels ∧
    (wbMapping m d).cities.labels = d.cities.labels := by
  obtain ⟨_, hmo, hi, he, hs, hc⟩ := wbMapping_fields m d
  rw [hmo, hi, he, hs, hc]
  refine ⟨?_, ?_, ?_, ?_, ?_⟩
  · unfold wbStates
    split <;> rfl
  · unfold wbIndustries
    split <;> rfl
  · unfold wbEmployment
    split <;> rfl
  · unfold wbMonthly
    split <;> rfl
  · unfold wbCities
    split <;> rfl

theorem quarters_unchanged_of_few (results : List WBResult) (s : State)
    (h : ∀ r ∈ results, r.key = Indicator.gdp → r.validCount < 5) :
    (processWorldBankData results s).data.quarters = s.data.quarters := by
  rw [data_processWorldBankData, (wbMapping_fields _ _).1]
  unfold wbQuarters
  cases hm : buildDataMap results Indicator.gdp with
  | none => rfl
  | some l =>
    obtain ⟨r, hr, hkey, _, hlen⟩ := buildDataMap_length_le results _ l hm
    have := h r hr hkey
    simp only []
    rw [if_neg (by omega)]

/-- C22: `processWorldBankData`, `updateChartsFromMarketData` and
`simulateAPIDataUpdate` leave the label lists of `states`, `industries`, `employment`,
`monthly` and `cities` unchanged for every payload; the last two leave
`quarters.labels` unchanged as well, and `processWorldBankData` leaves it unchanged
unless a `gdp` result has at least 5 valid observations; for a payload with one result
per indicator whose `gdp` list `data` has at least 5 valid observations, the five
observations used for `quarters.revenue` are five valid observations of `data`, in
ascending order of date and dated no earlier than the valid observations left out, and
label `i` is `Year` followed by the date of the observation from which
`quarters.revenue[i]` is computed. -/
theorem label_stability :
    (∀ (results : List WBResult) (s : State),
      ((processWorldBankData results s).data.states.labels = s.data.states.labels ∧
        (processWorldBankData results s).data.industries.labels = s.data.industries.labels ∧
        (processWorldBankData results s).data.employment.labels = s.data.employment.labels ∧
        (processWorldBankData results s).data.monthly.labels = s.data.monthly.labels ∧
        (processWorldBankData results s).data.cities.labels = s.data.cities.labels) ∧
      ((∀ r ∈ results, r.key = Indicator.gdp → r.validCount < 5) →
        (processWorldBankData results s).data.quarters.labels = s.data.quarters.labels) ∧
      (∀ (r : WBResult) (data : List Observation), (results.map WBResult.key).Nodup →
        r ∈ results → r.key = Indicator.gdp → r.data = some data → 5 ≤ r.validCount →
        ∃ older five : List Observation,
          (older ++ five).Perm (data.filter fun o => o.value.isSome) ∧
          five.length = 5 ∧
          five.Pairwise (fun a b => a.date ≤ b.date) ∧
          (∀ o ∈ older, ∀ p ∈ five, o.date ≤ p.date) ∧
          (processWorldBankData results s).data.quarters.revenue =
            five.map (fun o => Math.round (toNumber o.value / 10 ^ 9)) ∧
          (processWorldBankData results s).data.quarters.labels =
            five.map (fun o => "Year " ++ toString o.date))) ∧
    (∀ (m : MarketData) (s : State),
      (updateChartsFromMarketData m s).data.states.labels = s.data.states.labels ∧
      (updateChartsFromMarketData m s).data.industries.labels = s.data.industries.labels ∧
      (updateChartsFromMarketData m s).data.employment.labels = s.data.employment.labels ∧
      (updateChartsFromMarketData m s).data.monthly.labels = s.data.monthly.labels ∧
      (updateChartsFromMarketData m s).data.cities.labels = s.data.cities.labels ∧
      (updateChartsFromMarketData m s).data.quarters.labels = s.data.quarters.labels) ∧
    (∀ (random : Nat → ℚ) (s : State),
      (simulateAPIDataUpdate random s).data.states.labels = s.data.states.labels ∧
      (simulateAPIDataUpdate random s).data.industries.labels = s.data.industries.labels ∧
      (simulateAPIDataUpdate random s).data.employment.labels = s.data.employment.labels ∧
      (simulateAPIDataUpdate random s).data.monthly.labels = s.data.monthly.labels ∧
      (simulateAPIDataUpdate random s).data.cities.labels = s.data.cities.labels ∧
      (simulateAPIDataUpdate random s).data.quarters.labels = s.data.quarters.labels) := by
  refine ⟨?_, ?_, ?_⟩
  · intro results s
    refine ⟨?_, ?_, ?_⟩
    · rw [data_processWorldBankData]
      exact labels_wbMapping _ _
    · intro h
      rw [quarters_unchanged_of_few results s h]
    · intro r data hnodup hr hkey hdata hvalid
      have hcount : 5 ≤ (data.filter fun o => o.value.isSome).length := by
        simpa [WBResult.validCount, hdata] using hvalid
      have hne : data ≠ [] := by
        intro h
        rw [h] at hcount
        simp at hcount
      have hmap : buildDataMap results Indicator.gdp = some (validData data) := by
        rw [← hkey]
        exact foldl_dataMapStep_of_mem results _ r data hnodup hr hdata hne
      have hlen : 5 ≤ (validData data).length := by rw [length_validData]; exact hcount
      obtain ⟨older, hperm, hfive, hsorted, hlate⟩ := validData_latest_five data hcount
      have hq := quarters_processWorldBankData results s _ hmap hlen
      refine ⟨older, sliceLast 5 (validData data), hperm, hfive, hsorted, hlate, ?_, ?_⟩
      · rw [hq]
        norm_num
      · rw [hq]
        rfl
  · intro m s
    unfold updateChartsFromMarketData
    simp only []
    split
    · split
      · split
        · rw [data_updateAllChartsWithCurrentData]
          split <;> simp [enter]
        · simp [enter]
      · simp [enter]
    · simp [enter]
  · intro random s
    unfold simulateAPIDataUpdate
    simp [data_updateAllChartsWithCurrentData, enter]

/-- C22 at a payload of six GDP observations sent newest first, one of them `null`: the
quarterly labels become the years of the five valid observations, oldest first, next to
the revenues computed from the same observations, and the labels of the states stay. -/
theorem label_stability_witness :
    (∃ older five : List Observation,
      (older ++ five).Perm
        ([⟨2023, some 5000000000⟩, ⟨2022, some 4000000000⟩, ⟨2021, none⟩,
          ⟨2020, some 3000000000⟩, ⟨2019, some 2000000000⟩,
          ⟨2018, some 1000000000⟩].filter fun o => o.value.isSome) ∧
      five.length = 5 ∧
      five.Pairwise (fun a b => a.date ≤ b.date) ∧
      (∀ o ∈ older, ∀ p ∈ five, o.date ≤ p.date) ∧
      (processWorldBankData WBResult.gdpWithNull State.initial).data.quarters.revenue =
        five.map (fun o => Math.round (toNumber o.value / 10 ^ 9)) ∧
      (processWorldBankData WBResult.gdpWithNull State.initial).data.quarters.labels =
        five.map (fun o => "Year " ++ toString o.date)) ∧
    (processWorldBankData WBResult.gdpWithNull State.initial).data.quarters.labels =
      ["Year 2018", "Year 2019", "Year 2020", "Year 2022", "Year 2023"] ∧
    (processWorldBankData WBResult.gdpWithNull State.initial).data.quarters.revenue =
      [1, 2, 3, 4, 5] ∧
    (processWorldBankData WBResult.gdpWithNull State.initial).data.states.labels =
      australianData.states.labels := by
  refine ⟨(label_stability.1 WBResult.gdpWithNull State.initial).2.2
      ⟨Indicator.gdp, some [⟨2023, some 5000000000⟩, ⟨2022, some 4000000000⟩, ⟨2021, none⟩,
        ⟨2020, some 3000000000⟩, ⟨2019, some 2000000000⟩, ⟨2018, some 1000000000⟩]⟩
      [⟨2023, some 5000000000⟩, ⟨2022, some 4000000000⟩, ⟨2021, none⟩,
        ⟨2020, some 3000000000⟩, ⟨2019, some 2000000000⟩, ⟨2018, some 1000000000⟩]
      (by decide) (by simp [WBResult.gdpWithNull]) rfl rfl (by decide),
    by decide, ?_, (label_stability.1 _ State.initial).1.1⟩
  have h : (processWorldBankData WBResult.gdpWithNull State.initial).data.quarters.revenue =
      [Math.round (toNumber (some 1000000000) / 1000000000),
        Math.round (toNumber (some 2000000000) / 1000000000),
        Math.round (toNumber (some 3000000000) / 1000000000),
        Math.round (toNumber (some 4000000000) / 1000000000),
        Math.round (toNumber (some 5000000000) / 1000000000)] := rfl
  rw [h, Math.round_eq_of _ 1 (by norm_num [toNumber]) (by norm_num [toNumber]),
    Math.round_eq_of _ 2 (by norm_num [toNumber]) (by norm_num [toNumber]),
    Math.round_eq_of _ 3 (by norm_num [toNumber]) (by norm_num [toNumber]),
    Math.round_eq_of _ 4 (by norm_num [toNumber]) (by norm_num [toNumber]),
    Math.round_eq_of _ 5 (by norm_num [toNumber]) (by norm_num [toNumber])]
  norm_num

/-! ### The snapshot values -/

/-- C25, the code at a failing input: for a `gdpGrowth` list with 2 percent for 2023
and 3 percent for 2022, the ascending sort puts the observation of 2022 first, and
`latestGrowth`, read at index 0, is its value 3: the first entry of
`monthly.revenue2024` is `round (125 * 1.03) = 129`, where the latest growth, 2, gives
`round (125 * 1.02) = 128`. -/
theorem latestGrowth_is_oldest :
    buildDataMap WBResult.growthNewestFirst Indicator.gdpGrowth =
      some [⟨2022, some 3⟩, ⟨2023, some 2⟩] ∧
    (processWorldBankData WBResult.growthNewestFirst
      State.initial).data.monthly.revenue2024[0]? = some (129 : ℚ) ∧
    Math.round ((125 : ℚ) * (1 + 2 / 100) * (1 + ((0 : ℕ) : ℚ) * (2 / 100))) = 128 := by
  have e3 : Math.round ((125 : ℚ) * (1 + toNumber (some 3) / 100) *
      (1 + ((0 : ℕ) : ℚ) * (2 / 100))) = 129 := by
    have := Math.round_eq_of ((125 : ℚ) * (1 + toNumber (some 3) / 100) *
      (1 + ((0 : ℕ) : ℚ) * (2 / 100))) 129 (by norm_num [toNumber]) (by norm_num [toNumber])
    simpa using this
  have e2 : Math.round ((125 : ℚ) * (1 + 2 / 100) * (1 + ((0 : ℕ) : ℚ) * (2 / 100))) =
      128 := by
    have := Math.round_eq_of ((125 : ℚ) * (1 + 2 / 100) * (1 + ((0 : ℕ) : ℚ) * (2 / 100)))
      128 (by norm_num) (by norm_num)
    simpa using this
  have h : (processWorldBankData WBResult.growthNewestFirst
      State.initial).data.monthly.revenue2024[0]? =
      some (Math.round ((125 : ℚ) * (1 + toNumber (some 3) / 100) *
        (1 + ((0 : ℕ) : ℚ) * (2 / 100)))) := rfl
  refine ⟨rfl, ?_, e2⟩
  rw [h, e3]

/-! ### The state distribution -/

/-- C26, the code at its constant: the eight shares of `stateDistribution` sum to
`1.07`, not to 1, so the unrounded state revenues sum to `1.07` times
`totalGDP / 10^9 / 3`. -/
theorem stateDistribution_sum :
    stateDistribution.sum = 107 / 100 ∧ stateDistribution.sum ≠ 1 ∧
    ∀ totalGDP : ℚ,
      (stateDistribution.map fun pct => totalGDP * pct / 1000000000 / 3).sum =
        107 / 100 * (totalGDP / 1000000000 / 3) := by
  have h : stateDistribution.sum = 107 / 100 := by
    simp only [stateDistribution, List.sum_cons, List.sum_nil]
    norm_num
  refine ⟨h, ?_, ?_⟩
  · rw [h]
    norm_num
  · intro totalGDP
    simp only [stateDistribution, List.map_cons, List.map_nil, List.sum_cons, List.sum_nil]
    ring


/-! ### Applying the Primary mapping twice -/

theorem mapIdxFrom_mapIdxFrom {α β γ : Type} (f : β → Nat → γ) (g : α → Nat → β)
    (k : Nat) (xs : List α) :
    mapIdxFrom f k (mapIdxFrom g k xs) = mapIdxFrom (fun x i => f (g x i) i) k xs := by
  induction xs generalizing k with
  | nil => rfl
  | cons x xs ih => simp [mapIdxFrom, ih]

theorem mapIdxFrom_congr {α β : Type} (f g : α → Nat → β) (k : Nat) (xs : List α)
    (h : ∀ x i, f x i = g x i) : mapIdxFrom f k xs = mapIdxFrom g k xs := by
  have : f = g := funext fun x => funext fun i => h x i
  rw [this]

theorem map_eq_self_iff {α : Type} (f : α → α) (xs : List α) :
    xs.map f = xs ↔ ∀ x ∈ xs, f x = x := by
  induction xs with
  | nil => simp
  | cons x xs ih => simp [ih]

/-- The monthly block gives the same series when it is applied to a dataset whose
monthly series are its own result. -/
theorem wbMonthly_idem (m : DataMap) (d d' : AustralianData)
    (h : d'.monthly = (wbMonthly m d).monthly) :
    (wbMonthly m d').monthly = (wbMonthly m d).monthly := by
  unfold wbMonthly at h ⊢
  cases hm : m Indicator.gdpGrowth with
  | none =>
    simp only [hm] at h ⊢
    exact h
  | some l =>
    cases l with
    | nil =>
      simp only [hm] at h ⊢
      exact h
    | cons first rest =>
      simp only [hm] at h ⊢
      rw [h]
      simp only [mapIdxFrom_mapIdxFrom]
      congr 1
      apply mapIdxFrom_congr
      intro x i
      cases x <;> rfl

theorem wbStates_idem (m : DataMap) (d d' : AustralianData)
    (h : d'.states = (wbStates m d).states) :
    (wbStates m d').states = (wbStates m d).states := by
  unfold wbStates at h ⊢
  cases hm : m Indicator.gdp with
  | none =>
    simp only [hm] at h ⊢
    exact h
  | some l =>
    cases l with
    | nil =>
      simp only [hm] at h ⊢
      exact h
    | cons first rest =>
      simp only [hm] at h ⊢
      rw [h]

theorem wbCities_idem (m : DataMap) (d d' : AustralianData)
    (h : d'.cities = (wbCities m d).cities) :
    (wbCities m d').cities = (wbCities m d).cities := by
  unfold wbCities at h ⊢
  cases hm : m Indicator.population with
  | none =>
    simp only [hm] at h ⊢
    exact h
  | some l =>
    cases l with
    | nil =>
      simp only [hm] at h ⊢
      exact h
    | cons first rest =>
      simp only [hm] at h ⊢
      rw [h]

theorem wbIndustries_idem (m : DataMap) (d d' : AustralianData)
    (h : d'.industries = (wbIndustries m d).industries) :
    (wbIndustries m d').industries = (wbIndustries m d).industries := by
  unfold wbIndustries at h ⊢
  by_cases hc : ((m Indicator.manufacturing).isSome || (m Indicator.exports).isSome) = true
  · simp only [hc, if_true] at h ⊢
    rw [h]
  · simp only [hc, if_false] at h ⊢
    exact h

theorem wbQuarters_idem (m : DataMap) (d d' : AustralianData)
    (h : d'.quarters = (wbQuarters m d).quarters) :
    (wbQuarters m d').quarters = (wbQuarters m d).quarters := by
  unfold wbQuarters at h ⊢
  cases hm : m Indicator.gdp with
  | none =>
    simp only [hm] at h ⊢
    exact h
  | some gdp =>
    simp only [hm] at h ⊢
    by_cases hlen : gdp.length ≥ 5
    · simp only [hlen, if_true] at h ⊢
    · simp only [hlen, if_false] at h ⊢
      exact h

/-- The employment series after the mapping. -/
theorem employment_processWorldBankData (results : List WBResult) (s : State) :
    (processWorldBankData results s).data.employment.values =
      match buildDataMap results Indicator.unemployment with
      | some (first :: _) =>
        s.data.employment.values.map fun val =>
          Math.round (val * ((100 - toNumber first.value) / 95))
      | _ => s.data.employment.values := by
  rw [data_processWorldBankData, (wbMapping_fields _ _).2.2.2.1]
  unfold wbEmployment
  split <;> simp_all

/-- C28: applying `processWorldBankData` twice with the same payload gives the same
`states.revenue`, `quarters` (labels, revenue, profit), `monthly.revenue2024`,
`monthly.revenue2025`, `industries.values` and `cities.businesses` as applying it
once; `employment.values`, which is rescaled from its previous value by
`round (val * (100 - u) / 95)` for the unemployment rate `u` read from the payload, is
left unchanged by the mapping exactly when every entry is rounded back to itself, as
for `u = 5` on integer entries. -/
theorem processWorldBankData_idempotent (results : List WBResult) (s : State) :
    ((processWorldBankData results (processWorldBankData results s)).data.states.revenue =
        (processWorldBankData results s).data.states.revenue ∧
      (processWorldBankData results (processWorldBankData results s)).data.quarters =
        (processWorldBankData results s).data.quarters ∧
      (processWorldBankData results (processWorldBankData results s)).data.monthly.revenue2024 =
        (processWorldBankData results s).data.monthly.revenue2024 ∧
      (processWorldBankData results (processWorldBankData results s)).data.monthly.revenue2025 =
        (processWorldBankData results s).data.monthly.revenue2025 ∧
      (processWorldBankData results (processWorldBankData results s)).data.industries.values =
        (processWorldBankData results s).data.industries.values ∧
      (processWorldBankData results (processWorldBankData results s)).data.cities.businesses =
        (processWorldBankData results s).data.cities.businesses) ∧
    (∀ first rest, buildDataMap results Indicator.unemployment = some (first :: rest) →
      ((processWorldBankData results s).data.employment.values =
          s.data.employment.values ↔
        ∀ val ∈ s.data.employment.values,
          Math.round (val * ((100 - toNumber first.value) / 95)) = val) ∧
      (toNumber first.value = 5 →
        (∀ val ∈ s.data.employment.values, ∃ z : ℤ, val = z) →
        (processWorldBankData results s).data.employment.values =
          s.data.employment.values)) := by
  constructor
  · simp only [data_processWorldBankData]
    obtain ⟨hq, hmo, hi, _, hs, hc⟩ := wbMapping_fields (buildDataMap results)
      (wbMapping (buildDataMap results) s.data)
    obtain ⟨hq', hmo', hi', _, hs', hc'⟩ := wbMapping_fields (buildDataMap results) s.data
    have h1 := wbStates_idem _ _ _ hs'
    have h2 := wbQuarters_idem _ _ _ hq'
    have h3 := wbMonthly_idem _ _ _ hmo'
    have h4 := wbIndustries_idem _ _ _ hi'
    have h5 := wbCities_idem _ _ _ hc'
    rw [hs, hq, hmo, hi, hc, hs', hq', hmo', hi', hc', h1, h2, h3, h4, h5]
    exact ⟨rfl, rfl, rfl, rfl, rfl, rfl⟩
  · intro first rest hm
    have he := employment_processWorldBankData results s
    rw [hm] at he
    simp only [] at he
    rw [he]
    refine ⟨map_eq_self_iff _ _, ?_⟩
    intro hu hint
    rw [map_eq_self_iff]
    intro val hval
    obtain ⟨z, hz⟩ := hint val hval
    rw [hu, hz]
    have h1 : ((z : ℚ) * ((100 - 5) / 95)) = (z : ℚ) := by norm_num
    rw [h1]
    exact Math.round_intCast z


/-- C28 at the initial state and a payload with an unemployment rate of 5: the
employment series is left as it is. -/
theorem processWorldBankData_idempotent_witness :
    (processWorldBankData [⟨Indicator.unemployment, some [⟨2023, some 5⟩]⟩]
      State.initial).data.employment.values = australianData.employment.values :=
  ((processWorldBankData_idempotent [⟨Indicator.unemployment, some [⟨2023, some 5⟩]⟩]
    State.initial).2 ⟨2023, some 5⟩ [] rfl).2 rfl
    (by
      intro val hval
      simp only [State.initial, australianData, List.mem_cons, List.mem_singleton,
        List.not_mem_nil, or_false] at hval
      rcases hval with rfl | rfl | rfl | rfl | rfl | rfl
      · exact ⟨285000, by norm_num⟩
      · exact ⟨312000, by norm_num⟩
      · exact ⟨268000, by norm_num⟩
      · exact ⟨195000, by norm_num⟩
      · exact ⟨178000, by norm_num⟩
      · exact ⟨145000, by norm_num⟩)

/-! ### The charts and the dataset -/

/-- C23, the code at two failing inputs: from the charts created by `initCharts` on the
built-in dataset, which show the dataset, a World Bank payload with exports 24 and
manufacturing 6 changes `industries.values` while the industry chart keeps the old
series, and a payload with the GDP of five years changes `quarters.labels` while the
quarterly chart keeps the old labels: `updateAllChartsWithCurrentData` assigns neither. -/
theorem charts_stale_after_processWorldBankData :
    Synchronized (initCharts State.initial) ∧
    (processWorldBankData WBResult.shares2023
      (initCharts State.initial)).charts.industryPie.map Chart1.data =
      some [22, 18, 15, 12, 11, 9, 8, 5] ∧
    (processWorldBankData WBResult.shares2023
      (initCharts State.initial)).data.industries.values = [24, 18, 15, 12, 6, 9, 8, 5] ∧
    ¬ Synchronized (processWorldBankData WBResult.shares2023 (initCharts State.initial)) ∧
    (processWorldBankData WBResult.gdpFiveYears
      (initCharts State.initial)).charts.quarterlyGrowth.map ChartQuarterly.labels =
      some ["Q1 2024", "Q2 2024", "Q3 2024", "Q4 2024", "Q1 2025"] ∧
    (processWorldBankData WBResult.gdpFiveYears
      (initCharts State.initial)).data.quarters.labels =
      ["Year 2019", "Year 2020", "Year 2021", "Year 2022", "Year 2023"] ∧
    ¬ Synchronized (processWorldBankData WBResult.gdpFiveYears (initCharts State.initial)) := by
  have hsync : Synchronized (initCharts State.initial) :=
    ⟨rfl, rfl, rfl, rfl, rfl, rfl, rfl, rfl, rfl⟩
  have hpie : (processWorldBankData WBResult.shares2023
      (initCharts State.initial)).charts.industryPie.map Chart1.data =
      some [22, 18, 15, 12, 11, 9, 8, 5] := rfl
  have hind : (processWorldBankData WBResult.shares2023
      (initCharts State.initial)).data.industries.values = [24, 18, 15, 12, 6, 9, 8, 5] := by
    rw [data_processWorldBankData, (wbMapping_fields _ _).2.2.1]
    simp [wbIndustries, buildDataMap, dataMapStep, WBResult.shares2023, validData,
      firstValueOr, truthy, toNumber]
    exact ⟨Math.round_natCast 24, Math.round_natCast 6⟩
  have hcl : (processWorldBankData WBResult.gdpFiveYears
      (initCharts State.initial)).charts.quarterlyGrowth.map ChartQuarterly.labels =
      some ["Q1 2024", "Q2 2024", "Q3 2024", "Q4 2024", "Q1 2025"] := rfl
  have hdl : (processWorldBankData WBResult.gdpFiveYears
      (initCharts State.initial)).data.quarters.labels =
      ["Year 2019", "Year 2020", "Year 2021", "Year 2022", "Year 2023"] := by
    decide
  refine ⟨hsync, hpie, hind, ?_, hcl, hdl, ?_⟩
  · intro h
    have h2 := h.2.1
    rw [hpie, hind] at h2
    norm_num at h2
  · intro h
    have h5 := h.2.2.2.2.1
    rw [hcl, hdl] at h5
    revert h5
    decide


/-! ### Bounded values -/

theorem indicator_inRange_of_within (B : ℚ) (k : Indicator) (v : ℚ) (h : k.Within B v) :
    k.InRange v := by
  cases k <;> simp only [Indicator.Within, Indicator.InRange] at h ⊢ <;>
    first | exact h.1 | exact h.2

theorem indicator_within_mono {B B' : ℚ} (hB : B ≤ B') (k : Indicator) (v : ℚ)
    (h : k.Within B v) : k.Within B' v := by
  cases k <;> simp only [Indicator.Within] at h ⊢ <;>
    first | exact ⟨h.1, le_trans h.2 hB⟩ | exact h

theorem adapter_inRange_of_within (B : ℚ) (a : Adapter) (h : a.Within B) : a.InRange := by
  cases a with
  | worldBank results =>
    intro r hr o ho v hv
    exact indicator_inRange_of_within B _ _ (h r hr o ho v hv)
  | market m =>
    intro c hc v hv
    exact (h c hc v hv).1
  | simulated random => exact h

theorem adapter_within_mono {B B' : ℚ} (hB : B ≤ B') (a : Adapter) (h : a.Within B) :
    a.Within B' := by
  cases a with
  | worldBank results =>
    intro r hr o ho v hv
    exact indicator_within_mono hB _ _ (h r hr o ho v hv)
  | market m =>
    intro c hc v hv
    exact ⟨(h c hc v hv).1, le_trans (h c hc v hv).2 hB⟩
  | simulated random => exact h

/-- The number read from an observation of `dataMap[k]` is within the bounded range
of `k`. -/
theorem within_of_dataMap (B : ℚ) (results : List WBResult) (hr : WBWithin B results)
    (k : Indicator) (l : List Observation) (h : buildDataMap results k = some l)
    (o : Observation) (ho : o ∈ l) : k.Within B (toNumber o.value) := by
  obtain ⟨r, hrm, hk, hin, v, hv⟩ := buildDataMap_mem results k l h o ho
  have := hr r hrm o hin v hv
  rw [hk] at this
  rw [hv]
  exact this

theorem mem_mapIdxFrom_lt {α β : Type} (f : α → Nat → β) (k : Nat) (xs : List α) (y : β)
    (h : y ∈ mapIdxFrom f k xs) :
    ∃ x ∈ xs, ∃ i, k ≤ i ∧ i < k + xs.length ∧ y = f x i := by
  induction xs generalizing k with
  | nil => simp [mapIdxFrom] at h
  | cons x xs ih =>
    simp only [mapIdxFrom, List.mem_cons] at h
    rcases h with h | h
    · exact ⟨x, List.mem_cons_self _ _, k, le_refl k, by simp, h⟩
    · obtain ⟨x', hx', i, hki, hik, hi⟩ := ih _ h
      refine ⟨x', List.mem_cons_of_mem _ hx', i, by omega, ?_, hi⟩
      simp only [List.length_cons]
      omega

theorem quarters_le_wbQuarters (B : ℚ) (hB : 2000 ≤ B) (results : List WBResult)
    (hr : WBWithin B results) (d : AustralianData)
    (h4 : ∀ x ∈ d.quarters.revenue, x ≤ B) (h5 : ∀ x ∈ d.quarters.profit, x ≤ B) :
    (∀ x ∈ (wbQuarters (buildDataMap results) d).quarters.revenue, x ≤ 2 * B) ∧
    (∀ x ∈ (wbQuarters (buildDataMap results) d).quarters.profit, x ≤ 2 * B) := by
  unfold wbQuarters
  cases hm : buildDataMap results Indicator.gdp with
  | none =>
    exact ⟨fun x hx => by linarith [h4 x hx], fun x hx => by linarith [h5 x hx]⟩
  | some gdp =>
    simp only []
    split
    · have hv : ∀ x ∈ (sliceLast 5 gdp).map
          (fun o => Math.round (toNumber o.value / 1000000000)), 0 ≤ x ∧ x ≤ B := by
        intro x hx
        obtain ⟨o, ho, rfl⟩ := List.mem_map.mp hx
        have hin : Indicator.gdp.Within B (toNumber o.value) :=
          within_of_dataMap B results hr _ gdp hm o (List.mem_of_mem_drop ho)
        obtain ⟨h0, h1⟩ : 0 ≤ toNumber o.value ∧ toNumber o.value ≤ B := hin
        have hdiv : toNumber o.value / 1000000000 ≤ toNumber o.value :=
          div_le_self h0 (by norm_num)
        have hle := Math.round_le (toNumber o.value / 1000000000)
        exact ⟨Math.round_nonneg _ (div_nonneg h0 (by norm_num)), by linarith⟩
      refine ⟨fun x hx => by linarith [(hv x hx).2], ?_⟩
      intro x hx
      obtain ⟨v, hvm, rfl⟩ := List.mem_map.mp hx
      have hle := Math.round_le (v * (15 / 100))
      have := hv v hvm
      linarith
    · exact ⟨fun x hx => by linarith [h4 x hx], fun x hx => by linarith [h5 x hx]⟩

theorem monthly_le_wbMonthly (B : ℚ) (hB : 2000 ≤ B) (results : List WBResult)
    (hr : WBWithin B results) (d : AustralianData)
    (hl24 : d.monthly.revenue2024.length = 12) (hl25 : d.monthly.revenue2025.length = 12)
    (h7 : ∀ x ∈ d.monthly.revenue2024, x ≤ B)
    (h8 : ∀ x ∈ d.monthly.revenue2025, ∀ v, x = some v → v ≤ B) :
    (∀ x ∈ (wbMonthly (buildDataMap results) d).monthly.revenue2024, x ≤ 2 * B) ∧
    (∀ x ∈ (wbMonthly (buildDataMap results) d).monthly.revenue2025,
      ∀ v, x = some v → v ≤ 2 * B) := by
  have hold : (∀ x ∈ d.monthly.revenue2024, x ≤ 2 * B) ∧
      (∀ x ∈ d.monthly.revenue2025, ∀ v, x = some v → v ≤ 2 * B) :=
    ⟨fun x hx => by linarith [h7 x hx], fun x hx v hv => by linarith [h8 x hx v hv]⟩
  unfold wbMonthly
  cases hm : buildDataMap results Indicator.gdpGrowth with
  | none => exact hold
  | some l =>
    cases l with
    | nil => exact hold
    | cons first rest =>
      simp only []
      have hin : Indicator.gdpGrowth.Within B (toNumber first.value) :=
        within_of_dataMap B results hr _ _ hm first (List.mem_cons_self _ _)
      obtain ⟨hg0, hg1⟩ : -100 ≤ toNumber first.value ∧ toNumber first.value ≤ B := hin
      have hgf0 : (0 : ℚ) ≤ 125 * (1 + toNumber first.value / 100) := by linarith
      have hgf1 : 125 * (1 + toNumber first.value / 100) ≤ 125 * (1 + B / 100) := by
        linarith
      have key : ∀ (i : Nat) (c : ℚ), i < 12 → 0 ≤ c → c ≤ 125 / 100 →
          Math.round (125 * (1 + toNumber first.value / 100) * (c + i * (2 / 100))) ≤
            2 * B := by
        intro i c hi hc0 hc1
        have hi' : (i : ℚ) ≤ 11 := by
          have : i ≤ 11 := by omega
          exact_mod_cast this
        have hi0 : (0 : ℚ) ≤ (i : ℚ) := Nat.cast_nonneg i
        have hfac0 : (0 : ℚ) ≤ c + i * (2 / 100) := by linarith
        have hfac1 : c + (i : ℚ) * (2 / 100) ≤ 147 / 100 := by linarith
        have hprod : 125 * (1 + toNumber first.value / 100) * (c + i * (2 / 100)) ≤
            125 * (1 + B / 100) * (147 / 100) :=
          mul_le_mul hgf1 hfac1 hfac0 (by linarith)
        have hle := Math.round_le
          (125 * (1 + toNumber first.value / 100) * (c + i * (2 / 100)))
        linarith
      constructor
      · intro x hx
        obtain ⟨_, _, i, _, hi, rfl⟩ := mem_mapIdxFrom_lt _ _ _ _ hx
        rw [hl24] at hi
        have := key i 1 (by omega) (by norm_num) (by norm_num)
        simpa using this
      · intro x hx v hxv
        obtain ⟨val, _, i, _, hi, hval⟩ := mem_mapIdxFrom_lt _ _ _ _ hx
        rw [hl25] at hi
        cases val with
        | none =>
          rw [hxv] at hval
          cases hval
        | some w =>
          rw [hxv] at hval
          simp only [Option.some.injEq] at hval
          rw [hval]
          exact key i (125 / 100) (by omega) (by norm_num) (le_refl _)


theorem firstValueOr_le (B : ℚ) (results : List WBResult) (hr : WBWithin B results)
    (k : Indicator) (hk : ∀ v, k.Within B v → v ≤ B) (dflt : ℚ) (hd : dflt ≤ B) :
    firstValueOr (buildDataMap results k) dflt ≤ B := by
  unfold firstValueOr
  simp only []
  split
  · rename_i htruthy
    cases hm : buildDataMap results k with
    | none => simp [hm, truthy] at htruthy
    | some l =>
      cases l with
      | nil => simp [hm, truthy] at htruthy
      | cons first rest =>
        have := within_of_dataMap B results hr k _ hm first (List.mem_cons_self _ _)
        simpa using hk _ this
  · exact hd

theorem industries_le_wbIndustries (B : ℚ) (hB : 2000 ≤ B) (results : List WBResult)
    (hr : WBWithin B results) (d : AustralianData)
    (h3 : ∀ x ∈ d.industries.values, x ≤ B) :
    ∀ x ∈ (wbIndustries (buildDataMap results) d).industries.values, x ≤ 2 * B := by
  unfold wbIndustries
  split
  · have he := firstValueOr_le B results hr Indicator.exports (fun _ hv => hv.2) 22
      (by linarith)
    have hmf := firstValueOr_le B results hr Indicator.manufacturing (fun _ hv => hv.2) 11
      (by linarith)
    have he' := Math.round_le (firstValueOr (buildDataMap results Indicator.exports) 22)
    have hmf' := Math.round_le
      (firstValueOr (buildDataMap results Indicator.manufacturing) 11)
    intro x hx
    simp only [List.mem_cons, List.mem_singleton, List.not_mem_nil, or_false] at hx
    rcases hx with rfl | rfl | rfl | rfl | rfl | rfl | rfl | rfl <;> linarith
  · exact fun x hx => by linarith [h3 x hx]

theorem employment_le_wbEmployment (B : ℚ) (hB : 2000 ≤ B) (results : List WBResult)
    (hr : WBWithin B results) (d : AustralianData)
    (h6 : ∀ x ∈ d.employment.values, x ≤ B) :
    ∀ x ∈ (wbEmployment (buildDataMap results) d).employment.values, x ≤ 2 * B := by
  have hold : ∀ x ∈ d.employment.values, x ≤ 2 * B := fun x hx => by linarith [h6 x hx]
  unfold wbEmployment
  cases hm : buildDataMap results Indicator.unemployment with
  | none => exact hold
  | some l =>
    cases l with
    | nil => exact hold
    | cons first rest =>
      simp only []
      have hin : Indicator.unemployment.Within B (toNumber first.value) :=
        within_of_dataMap B results hr _ _ hm first (List.mem_cons_self _ _)
      obtain ⟨hu0, hu1⟩ : 0 ≤ toNumber first.value ∧ toNumber first.value ≤ 100 := hin
      have hsf0 : (0 : ℚ) ≤ (100 - toNumber first.value) / 95 :=
        div_nonneg (by linarith) (by norm_num)
      have hsf1 : (100 - toNumber first.value) / 95 ≤ 100 / 95 := by
        apply div_le_div_of_nonneg_right _ (by norm_num)
        linarith
      intro x hx
      obtain ⟨val, hval, rfl⟩ := List.mem_map.mp hx
      have hprod : val * ((100 - toNumber first.value) / 95) ≤ B * (100 / 95) :=
        mul_le_mul (h6 val hval) hsf1 hsf0 (by linarith)
      have hle := Math.round_le (val * ((100 - toNumber first.value) / 95))
      linarith

theorem states_le_wbStates (B : ℚ) (hB : 2000 ≤ B) (results : List WBResult)
    (hr : WBWithin B results) (d : AustralianData)
    (h1 : ∀ x ∈ d.states.revenue, x ≤ B) (h2 : ∀ x ∈ d.states.businesses, x ≤ B) :
    (∀ x ∈ (wbStates (buildDataMap results) d).states.revenue, x ≤ 2 * B) ∧
    (∀ x ∈ (wbStates (buildDataMap results) d).states.businesses, x ≤ 2 * B) := by
  have hold : (∀ x ∈ d.states.revenue, x ≤ 2 * B) ∧
      (∀ x ∈ d.states.businesses, x ≤ 2 * B) :=
    ⟨fun x hx => by linarith [h1 x hx], fun x hx => by linarith [h2 x hx]⟩
  unfold wbStates
  cases hm : buildDataMap results Indicator.gdp with
  | none => exact hold
  | some l =>
    cases l with
    | nil => exact hold
    | cons first rest =>
      simp only []
      have hin : Indicator.gdp.Within B (toNumber first.value) :=
        within_of_dataMap B results hr _ _ hm first (List.mem_cons_self _ _)
      obtain ⟨ht0, ht1⟩ : 0 ≤ toNumber first.value ∧ toNumber first.value ≤ B := hin
      refine ⟨?_, hold.2⟩
      intro x hx
      obtain ⟨pct, hpct, rfl⟩ := List.mem_map.mp hx
      have hp : (0 : ℚ) ≤ pct ∧ pct ≤ 1 := by
        simp only [stateDistribution, List.mem_cons, List.mem_singleton, List.not_mem_nil,
          or_false] at hpct
        rcases hpct with rfl | rfl | rfl | rfl | rfl | rfl | rfl | rfl <;>
          constructor <;> norm_num
      have hprod : toNumber first.value * pct ≤ B * 1 :=
        mul_le_mul ht1 hp.2 hp.1 (by linarith)
      have hnn : 0 ≤ toNumber first.value * pct := mul_nonneg ht0 hp.1
      have hd1 : toNumber first.value * pct / 1000000000 ≤ toNumber first.value * pct :=
        div_le_self hnn (by norm_num)
      have hd2 : toNumber first.value * pct / 1000000000 / 3 ≤
          toNumber first.value * pct / 1000000000 :=
        div_le_self (div_nonneg hnn (by norm_num)) (by norm_num)
      have hle := Math.round_le (toNumber first.value * pct / 1000000000 / 3)
      linarith

theorem cities_le_wbCities (B : ℚ) (hB : 2000 ≤ B) (results : List WBResult)
    (hr : WBWithin B results) (d : AustralianData)
    (h9 : ∀ x ∈ d.cities.businesses, x ≤ B) :
    ∀ x ∈ (wbCities (buildDataMap results) d).cities.businesses, x ≤ 2 * B := by
  have hold : ∀ x ∈ d.cities.businesses, x ≤ 2 * B := fun x hx => by linarith [h9 x hx]
  unfold wbCities
  cases hm : buildDataMap results Indicator.population with
  | none => exact hold
  | some l =>
    cases l with
    | nil => exact hold
    | cons first rest =>
      simp only []
      have hin : Indicator.population.Within B (toNumber first.value) :=
        within_of_dataMap B results hr _ _ hm first (List.mem_cons_self _ _)
      obtain ⟨ht0, ht1⟩ : 0 ≤ toNumber first.value ∧ toNumber first.value ≤ B := hin
      intro x hx
      obtain ⟨pct, hpct, rfl⟩ := List.mem_map.mp hx
      have hp : (0 : ℚ) ≤ pct ∧ pct ≤ 1 := by
        simp only [cityPopProportions, List.mem_cons, List.mem_singleton, List.not_mem_nil,
          or_false] at hpct
        rcases hpct with rfl | rfl | rfl | rfl | rfl | rfl | rfl | rfl | rfl | rfl <;>
          constructor <;> norm_num
      have hprod : toNumber first.value * pct ≤ B * 1 :=
        mul_le_mul ht1 hp.2 hp.1 (by linarith)
      have hnn : 0 ≤ toNumber first.value * pct := mul_nonneg ht0 hp.1
      have hq : toNumber first.value * pct * (8 / 100) / 1000 ≤
          toNumber first.value * pct := by
        have : toNumber first.value * pct * (8 / 100) / 1000 =
            toNumber first.value * pct * (8 / 100000) := by ring
        rw [this]
        nlinarith
      have hle := Math.round_le (toNumber first.value * pct * (8 / 100) / 1000)
      linarith

theorem atMost_processWorldBankData (B : ℚ) (hB : 2000 ≤ B) (results : List WBResult)
    (hr : WBWithin B results) (s : State) (hcard : HasCardinality s.data)
    (h : AtMost B s.data) :
    AtMost (2 * B) (processWorldBankData results s).data := by
  obtain ⟨h1, h2, h3, h4, h5, h6, h7, h8, h9⟩ := h
  rw [data_processWorldBankData]
  obtain ⟨hq, hmo, hi, he, hs, hc⟩ := wbMapping_fields (buildDataMap results) s.data
  unfold AtMost
  rw [hq, hmo, hi, he, hs, hc]
  have hst := states_le_wbStates B hB results hr s.data h1 h2
  have hqu := quarters_le_wbQuarters B hB results hr s.data h4 h5
  have hmn := monthly_le_wbMonthly B hB results hr s.data hcard.2.2.2.2.1.2.1
    hcard.2.2.2.2.1.2.2 h7 h8
  exact ⟨hst.1, hst.2, industries_le_wbIndustries B hB results hr s.data h3, hqu.1, hqu.2,
    employment_le_wbEmployment B hB results hr s.data h6, hmn.1, hmn.2,
    cities_le_wbCities B hB results hr s.data h9⟩


theorem atMost_updateChartsFromMarketData (B : ℚ) (hB : 2000 ≤ B) (m : MarketData)
    (s : State) (hm : ∀ c ∈ m.closes, ∀ v, c = some v → 0 ≤ v ∧ v ≤ B)
    (h : AtMost B s.data) : AtMost (2 * B) (updateChartsFromMarketData m s).data := by
  obtain ⟨h1, h2, h3, h4, h5, h6, h7, h8, h9⟩ := h
  have hold : AtMost (2 * B) s.data :=
    ⟨fun x hx => by linarith [h1 x hx], fun x hx => by linarith [h2 x hx],
      fun x hx => by linarith [h3 x hx], fun x hx => by linarith [h4 x hx],
      fun x hx => by linarith [h5 x hx], fun x hx => by linarith [h6 x hx],
      fun x hx => by linarith [h7 x hx], fun x hx v hv => by linarith [h8 x hx v hv],
      fun x hx => by linarith [h9 x hx]⟩
  unfold updateChartsFromMarketData
  simp only []
  split
  · rename_i ts indicators hts hind
    split
    · rename_i q qs hq
      split
      · rename_i closes hc
        rw [data_updateAllChartsWithCurrentData]
        split
        · refine ⟨hold.1, hold.2.1, hold.2.2.1, ?_, hold.2.2.2.2.1, hold.2.2.2.2.2.1,
            hold.2.2.2.2.2.2.1, hold.2.2.2.2.2.2.2.1, hold.2.2.2.2.2.2.2.2⟩
          intro x hx
          obtain ⟨c, hcm, rfl⟩ := List.mem_map.mp hx
          have hmem : c ∈ m.closes := by
            simp only [MarketData.closes, hind, hq, hc, Option.getD_some]
            exact List.mem_of_mem_drop hcm
          have hle := Math.round_le (toNumber c * (2 / 100))
          cases c with
          | none =>
            simp only [toNumber] at hle ⊢
            linarith
          | some v =>
            have := hm _ hmem v rfl
            simp only [toNumber] at hle ⊢
            linarith
        · exact hold
      · exact hold
    · exact hold
  · exact hold

theorem le_perturb (B : ℚ) (hB : 2000 ≤ B) (random : Nat → ℚ) (start : Nat) (xs : List ℚ)
    (hr : ∀ k, 0 ≤ random k ∧ random k < 1) (h0 : ∀ x ∈ xs, 0 ≤ x) (hx : ∀ x ∈ xs, x ≤ B) :
    ∀ y ∈ perturb random start xs, y ≤ 2 * B := by
  intro y hy
  obtain ⟨x, hxm, i, rfl⟩ := mem_mapIdxFrom _ _ _ _ hy
  have hb := round_variation_bounds x (random i) (h0 x hxm) (hr i).1 (le_of_lt (hr i).2)
  have := hx x hxm
  linarith [hb.2]

theorem atMost_simulateAPIDataUpdate (B : ℚ) (hB : 2000 ≤ B) (random : Nat → ℚ)
    (s : State) (hr : ∀ k, 0 ≤ random k ∧ random k < 1) (hnn : NonNegative s.data)
    (h : AtMost B s.data) : AtMost (2 * B) (simulateAPIDataUpdate random s).data := by
  obtain ⟨n1, _, _, n4, n5, n6, _, _, n9⟩ := hnn
  obtain ⟨h1, h2, h3, h4, h5, h6, h7, h8, h9⟩ := h
  unfold simulateAPIDataUpdate
  simp only [data_updateAllChartsWithCurrentData, enter]
  exact ⟨le_perturb B hB _ _ _ hr n1 h1, fun x hx => by linarith [h2 x hx],
    fun x hx => by linarith [h3 x hx], le_perturb B hB _ _ _ hr n4 h4,
    le_perturb B hB _ _ _ hr n5 h5, le_perturb B hB _ _ _ hr n6 h6,
    fun x hx => by linarith [h7 x hx], fun x hx v hv => by linarith [h8 x hx v hv],
    le_perturb B hB _ _ _ hr n9 h9⟩

theorem atMost_run (B : ℚ) (hB : 2000 ≤ B) (a : Adapter) (ha : a.Within B) (s : State)
    (hcard : HasCardinality s.data) (hnn : NonNegative s.data) (h : AtMost B s.data) :
    AtMost (2 * B) (a.run s).data := by
  cases a with
  | worldBank results => exact atMost_processWorldBankData B hB results ha s hcard h
  | market m => exact atMost_updateChartsFromMarketData B hB m s ha h
  | simulated random => exact atMost_simulateAPIDataUpdate B hB random s ha hnn h

/-- C19 amended: from a dataset with the built-in cardinalities whose numeric entries
all lie between 0 and a bound `B` of at least 2000, every sequence of `n` adapter runs
whose payloads are in range and bounded by `B` (World Bank values between 0 and `B`
for `gdp`, `population`, `exports` and `manufacturing`, between `-100` and `B` for
`gdpGrowth`, between 0 and 100 for `unemployment`; market closes between 0 and `B`;
random draws in `[0, 1)`) leaves every numeric entry of every series between 0 and
`2^n * B`: the entries stay non-negative and bounded in magnitude. -/
theorem value_invariant_bounded (B : ℚ) (hB : 2000 ≤ B) (s : State)
    (hcard : HasCardinality s.data) (hnn : NonNegative s.data) (hle : AtMost B s.data)
    (adapters : List Adapter) (ha : ∀ a ∈ adapters, a.Within B) :
    NonNegative (runAdapters adapters s).data ∧
    AtMost (2 ^ adapters.length * B) (runAdapters adapters s).data := by
  induction adapters generalizing s B with
  | nil =>
    refine ⟨hnn, ?_⟩
    simpa [runAdapters] using hle
  | cons a as ih =>
    have ha0 := ha a (List.mem_cons_self _ _)
    have hB2 : B ≤ 2 * B := by linarith
    have h := ih (2 * B) (by linarith) (a.run s) (hasCardinality_run a s hcard)
      (nonNegative_run a (adapter_inRange_of_within B a ha0) s hnn)
      (atMost_run B hB a ha0 s hcard hnn hle)
      (fun b hb => adapter_within_mono hB2 b (ha b (List.mem_cons_of_mem _ hb)))
    refine ⟨h.1, ?_⟩
    have hpow : (2 : ℚ) ^ (a :: as).length * B = 2 ^ as.length * (2 * B) := by
      simp only [List.length_cons, pow_succ]
      ring
    rw [hpow]
    exact h.2


/-- C19 amended, at the initial state with the bound `2 * 10^12`: a World Bank payload
with a gross domestic product of `1.7 * 10^12` and a growth of 2.5 percent, then a
simulated run with every draw equal to one quarter; the entries end between 0 and
`2^2 * (2 * 10^12)`. -/
theorem value_invariant_bounded_witness :
    NonNegative (runAdapters
      [Adapter.worldBank [⟨Indicator.gdp, some [⟨2023, some 1700000000000⟩]⟩,
        ⟨Indicator.gdpGrowth, some [⟨2023, some (5 / 2)⟩]⟩],
        Adapter.simulated fun _ => 1 / 4] State.initial).data ∧
    AtMost (2 ^ 2 * 2000000000000) (runAdapters
      [Adapter.worldBank [⟨Indicator.gdp, some [⟨2023, some 1700000000000⟩]⟩,
        ⟨Indicator.gdpGrowth, some [⟨2023, some (5 / 2)⟩]⟩],
        Adapter.simulated fun _ => 1 / 4] State.initial).data :=
  value_invariant_bounded 2000000000000 (by norm_num) State.initial
    (by simp [HasCardinality, State.initial, australianData])
    (by simp [NonNegative, State.initial, australianData])
    (by
      simp only [AtMost, State.initial, australianData]
      refine ⟨?_, ?_, ?_, ?_, ?_, ?_, ?_, ?_, ?_⟩ <;>
        simp only [List.mem_cons, List.mem_singleton, List.not_mem_nil, or_false,
          forall_eq_or_imp, forall_eq, Option.some.injEq, forall_eq', reduceCtorEq,
          false_implies, implies_true, and_true, true_and] <;> norm_num)
    [Adapter.worldBank [⟨Indicator.gdp, some [⟨2023, some 1700000000000⟩]⟩,
        ⟨Indicator.gdpGrowth, some [⟨2023, some (5 / 2)⟩]⟩],
      Adapter.simulated fun _ => 1 / 4]
    (by
      intro a ha
      simp only [List.mem_cons, List.mem_singleton, List.not_mem_nil, or_false] at ha
      rcases ha with rfl | rfl
      · intro r hr o ho v hv
        simp only [List.mem_cons, List.mem_singleton, List.not_mem_nil, or_false] at hr
        rcases hr with rfl | rfl
        · simp only [Option.getD_some, List.mem_singleton] at ho
          subst ho
          simp only [Option.some.injEq] at hv
          subst hv
          show (0 : ℚ) ≤ 1700000000000 ∧ (1700000000000 : ℚ) ≤ 2000000000000
          constructor <;> norm_num
        · simp only [Option.getD_some, List.mem_singleton] at ho
          subst ho
          simp only [Option.some.injEq] at hv
          subst hv
          show (-100 : ℚ) ≤ 5 / 2 ∧ (5 / 2 : ℚ) ≤ 2000000000000
          constructor <;> norm_num
      · intro k
        constructor <;> norm_num)

end AusBizDataViz
